import Mathlib

/-!
Verification of `pkg/steps/source.go`.

A shallow embedding of the source step of the image-build pipeline: the job
submitter (`handleBuild`), the lifecycle monitor (`waitForBuild`,
`waitForBuildOrTimeout`), the log helper (`printBuildLogs`) and the existence
check (`imageStreamTagExists`).

Stateful code is embedded by explicit state passing.  The build client is an
interface in the source, so it is a parameter here: a record of functions over
an arbitrary client state `σ`.  Every embedded function returns a `Run`: the
Go return value, the client state after the call and the ordered trace of the
effects the call performed.
-/

namespace Steps

/-! ## Errors -/

/-- A Go `error` value.  `reason` is what `errors.ReasonForError` reports for it
(the empty string, `StatusReasonUnknown`, for an error that is not an API status
error) and `msg` is the text of `Error()`. -/
structure GoError where
  reason : String
  msg : String
deriving DecidableEq, Repr

/-- The `metav1.StatusReasonAlreadyExists` constant. -/
def StatusReasonAlreadyExists : String := "AlreadyExists"

/-- The `metav1.StatusReasonNotFound` constant. -/
def StatusReasonNotFound : String := "NotFound"

/-- `errors.IsAlreadyExists`: the reason of the error is `AlreadyExists`. -/
def IsAlreadyExists (err : GoError) : Bool := err.reason == StatusReasonAlreadyExists

/-- `errors.IsNotFound`: the reason of the error is `NotFound`. -/
def IsNotFound (err : GoError) : Bool := err.reason == StatusReasonNotFound

/-- `fmt.Errorf` applied to an already formatted message: a plain error, with no
API status reason. -/
def fmtErrorf (msg : String) : GoError := ⟨"", msg⟩

/-! ## The build API objects -/

/-- `meta.OwnerReference`. -/
structure OwnerReference where
  APIVersion : String := ""
  Kind : String := ""
  Name : String := ""
  UID : String := ""
  Controller : Option Bool := none
  BlockOwnerDeletion : Option Bool := none
deriving DecidableEq, Repr

/-- `meta.ObjectMeta`, with the fields the step reads or writes.  A Go
`map[string]string` is an association list. -/
structure ObjectMeta where
  Name : String := ""
  Namespace : String := ""
  Labels : List (String × String) := []
  Annotations : List (String × String) := []
  OwnerReferences : List OwnerReference := []
deriving DecidableEq, Repr

/-- `coreapi.ObjectReference`. -/
structure ObjectReference where
  Kind : String := ""
  Namespace : String := ""
  Name : String := ""
deriving DecidableEq, Repr

/-- `coreapi.EnvVar`. -/
structure EnvVar where
  Name : String := ""
  Value : String := ""
deriving DecidableEq, Repr

/-- `buildapi.BuildSource`: the source type and the optional inline Dockerfile. -/
structure BuildSource where
  Typ : String := ""
  Dockerfile : Option String := none
deriving DecidableEq, Repr

/-- `buildapi.DockerBuildStrategy`. -/
structure DockerBuildStrategy where
  From : Option ObjectReference := none
  ForcePull : Bool := false
  NoCache : Bool := false
  Env : List EnvVar := []
  ImageOptimizationPolicy : Option String := none
deriving DecidableEq, Repr

/-- `buildapi.BuildStrategy`. -/
structure BuildStrategy where
  Typ : String := ""
  DockerStrategy : Option DockerBuildStrategy := none
deriving DecidableEq, Repr

/-- `buildapi.BuildOutput`. -/
structure BuildOutput where
  To : Option ObjectReference := none
deriving DecidableEq, Repr

/-- `buildapi.CommonSpec`. -/
structure CommonSpec where
  ServiceAccount : String := ""
  Source : BuildSource := {}
  Strategy : BuildStrategy := {}
  Output : BuildOutput := {}
deriving DecidableEq, Repr

/-- `buildapi.BuildSpec`, which embeds `CommonSpec`. -/
structure BuildSpec where
  CommonSpec : CommonSpec := {}
deriving DecidableEq, Repr

/-- `buildapi.BuildPhase` is a string type. -/
abbrev BuildPhase := String

/-- `buildapi.BuildPhaseNew`. -/
def BuildPhaseNew : BuildPhase := "New"

/-- `buildapi.BuildPhasePending`. -/
def BuildPhasePending : BuildPhase := "Pending"

/-- `buildapi.BuildPhaseRunning`. -/
def BuildPhaseRunning : BuildPhase := "Running"

/-- `buildapi.BuildPhaseComplete`. -/
def BuildPhaseComplete : BuildPhase := "Complete"

/-- `buildapi.BuildPhaseFailed`. -/
def BuildPhaseFailed : BuildPhase := "Failed"

/-- `buildapi.BuildPhaseError`. -/
def BuildPhaseError : BuildPhase := "Error"

/-- `buildapi.BuildPhaseCancelled`. -/
def BuildPhaseCancelled : BuildPhase := "Cancelled"

/-- `buildapi.BuildStatus`: the monitor reads only the phase. -/
structure BuildStatus where
  Phase : BuildPhase := ""
deriving DecidableEq, Repr

/-- `buildapi.Build`, which embeds `ObjectMeta`. -/
structure Build extends ObjectMeta where
  Spec : BuildSpec := {}
  Status : BuildStatus := {}
deriving DecidableEq, Repr

/-- `buildapi.BuildList`. -/
structure BuildList where
  Items : List Build := []
deriving DecidableEq, Repr

/-- `meta.ListOptions`, with the two fields the monitor sets. -/
structure ListOptions where
  FieldSelector : String := ""
  Watch : Bool := false
deriving DecidableEq, Repr

/-- `buildapi.BuildLogOptions`. -/
structure BuildLogOptions where
  Container : String := ""
  Follow : Bool := false
  Previous : Bool := false
  SinceSeconds : Option Int := none
  SinceTime : Option String := none
  Timestamps : Bool := false
  TailLines : Option Int := none
  LimitBytes : Option Int := none
  NoWait : Bool := false
  Version : Option Int := none
deriving DecidableEq, Repr

/-! ## Watch events -/

/-- `watch.EventType`. -/
inductive EventType where
  | Added
  | Modified
  | Deleted
  | Error
deriving DecidableEq, Repr

/-- The dynamic payload of a watch event (`runtime.Object`): either a build, for
which the type assertion `event.Object.(*buildapi.Build)` succeeds, or an object
of another kind (a status object, an unrelated resource, nil), for which it
fails. -/
inductive RuntimeObject where
  | build (b : Build)
  | other (kind : String)
deriving DecidableEq, Repr

/-- `watch.Event`. -/
structure Event where
  Typ : EventType
  Object : RuntimeObject
deriving DecidableEq, Repr

/-- `watch.Interface` as the monitor sees it.  The result channel delivers
`events` in order; after the last of them the channel is closed when `closes` is
true, and otherwise stays open and silent, so that a receive on it blocks for
ever.  `handle` identifies the subscription in the trace. -/
structure Watcher where
  handle : Nat
  events : List Event
  closes : Bool
deriving DecidableEq, Repr

/-- The `io.ReadCloser` returned by `Logs`: `data` is what can be read from it
before the end of the stream or before the copy breaks, `failure` is the error
`io.Copy` ends with, if any.  `handle` identifies the stream in the trace. -/
structure LogStream where
  handle : Nat
  data : String
  failure : Option GoError
deriving DecidableEq, Repr

/-! ## Effects and runs -/

/-- One observable step of an execution: a call on the build client, the
acquisition (`opened`) or release (`stop`, `close`) of a resource obtained from
it, output, or (as history) a status that the monitor inspected. -/
inductive Effect where
  | create (b : Build)
  | list (opts : ListOptions)
  | snapshot (b : Build)
  | watch (opts : ListOptions)
  | opened (handle : Nat)
  | recv (ev : Event)
  | chanClosed (handle : Nat)
  | stop (handle : Nat)
  | logs (name : String) (opts : BuildLogOptions)
  | close (handle : Nat)
  | stdout (text : String)
  | log (text : String)
deriving DecidableEq, Repr

/-- The outcome of running an embedded function: its return value, the client
state it leaves and the effects it performed, oldest first. -/
structure Run (σ : Type) (α : Type) where
  ret : α
  state : σ
  trace : List Effect
deriving DecidableEq, Repr

/-- Put the effects `t` in front of the trace of a run. -/
def Run.after {σ α : Type} (t : List Effect) (r : Run σ α) : Run σ α :=
  ⟨r.ret, r.state, t ++ r.trace⟩

/-- The `BuildClient` interface: each method takes the client state and returns
its answer together with the next state. -/
structure BuildClient (σ : Type) where
  Create : Build → σ → Except GoError Build × σ
  List : ListOptions → σ → Except GoError BuildList × σ
  Watch : ListOptions → σ → Except GoError Watcher × σ
  Logs : String → BuildLogOptions → σ → Except GoError LogStream × σ

/-! ## Formatting helpers -/

/-- `fields.EscapeValue`: backslash, comma and equals sign are escaped with a
backslash. -/
def EscapeValue (s : String) : String :=
  String.mk (s.data.flatMap fun ch =>
    if ch = '\\' ∨ ch = ',' ∨ ch = '=' then ['\\', ch] else [ch])

/-- The string of `fields.Set{"metadata.name": name}.AsSelector()`. -/
def nameSelector (name : String) : String := "metadata.name=" ++ EscapeValue name

/-- The `%q` verb on a string: double quotes around the text, with the double
quote, the backslash and the usual control characters escaped.  Characters that
Go would print as a numeric escape are left as they are; no phase that reaches
this function contains one. -/
def goQuote (s : String) : String :=
  String.mk ('"' :: (s.data.flatMap fun ch =>
    if ch = '"' then ['\\', '"']
    else if ch = '\\' then ['\\', '\\']
    else if ch = '\n' then ['\\', 'n']
    else if ch = '\r' then ['\\', 'r']
    else if ch = '\t' then ['\\', 't']
    else [ch]) ++ ['"'])

/-! ## The lifecycle monitor -/

/-- The closure `isOK` of `waitForBuildOrTimeout`. -/
def isOK (b : Build) : Bool := b.Status.Phase == BuildPhaseComplete

/-- The closure `isFailed` of `waitForBuildOrTimeout`. -/
def isFailed (b : Build) : Bool :=
  b.Status.Phase == BuildPhaseFailed ||
    b.Status.Phase == BuildPhaseCancelled ||
    b.Status.Phase == BuildPhaseError

/-- The error both failure branches of `waitForBuildOrTimeout` return:
`fmt.Errorf("the build %s/%s failed with status %q", ...)`. -/
def buildFailedError (b : Build) : GoError :=
  fmtErrorf ("the build " ++ b.Namespace ++ "/" ++ b.Name ++ " failed with status " ++
    goQuote b.Status.Phase)

/-- The line both failure branches log before they print the build logs. -/
def failedLogLine (b : Build) : String :=
  "Build " ++ b.Namespace ++ "/" ++ b.Name ++ " failed, printing logs:"

/-- The options `printBuildLogs` passes to `Logs`. -/
def printLogOptions : BuildLogOptions := { NoWait := true, Timestamps := true }

/-- `printBuildLogs`: request the logs; when a stream is returned copy it to
standard output, log a copy error if there is one, and close the stream (the
deferred `Close`); when no stream is returned log the error. -/
def printBuildLogs {σ : Type} (c : BuildClient σ) (name : String) (s : σ) : Run σ Unit :=
  match c.Logs name printLogOptions s with
  | (Except.ok strm, s1) =>
    match strm.failure with
    | none =>
      ⟨(), s1, [Effect.logs name printLogOptions, Effect.stdout strm.data,
        Effect.close strm.handle]⟩
    | some err =>
      ⟨(), s1, [Effect.logs name printLogOptions, Effect.stdout strm.data,
        Effect.log ("error: Unable to copy log output from failed build: " ++ err.msg),
        Effect.close strm.handle]⟩
  | (Except.error err, s1) =>
    ⟨(), s1, [Effect.logs name printLogOptions,
      Effect.log ("error: Unable to retrieve logs from failed build: " ++ err.msg)]⟩

/-- The `for` loop of `waitForBuildOrTimeout` over the result channel of the
watcher `w`, by recursion on the events still to be delivered.  The result is
`none` when the loop blocks for ever on an open, silent channel. -/
def watchLoop {σ : Type} (c : BuildClient σ) (w : Watcher) :
    List Event → σ → Run σ (Option (Bool × Option GoError))
  | [], s =>
    if w.closes then ⟨some (true, none), s, [Effect.chanClosed w.handle]⟩
    else ⟨none, s, []⟩
  | ev :: rest, s =>
    match ev.Object with
    | RuntimeObject.build b =>
      if isOK b then ⟨some (false, none), s, [Effect.recv ev]⟩
      else if isFailed b then
        let r := printBuildLogs c b.Name s
        ⟨some (false, some (buildFailedError b)), r.state,
          Effect.recv ev :: Effect.log (failedLogLine b) :: r.trace⟩
      else Run.after [Effect.recv ev] (watchLoop c w rest s)
    | RuntimeObject.other _ => Run.after [Effect.recv ev] (watchLoop c w rest s)

/-- The options of the snapshot query. -/
def listOptions (name : String) : ListOptions := { FieldSelector := nameSelector name }

/-- The options of the subscription. -/
def watchOptions (name : String) : ListOptions :=
  { FieldSelector := nameSelector name, Watch := true }

/-- `waitForBuildOrTimeout`: one observation cycle.  The result is `none` when
the call never returns (it blocks in the watch loop); otherwise it is the pair
`(retry, err)`.  The deferred `watcher.Stop()` runs when the call returns. -/
def waitForBuildOrTimeout {σ : Type} (c : BuildClient σ) (name : String) (s : σ) :
    Run σ (Option (Bool × Option GoError)) :=
  match c.List (listOptions name) s with
  | (Except.error err, s1) => ⟨some (false, some err), s1, [Effect.list (listOptions name)]⟩
  | (Except.ok list, s1) =>
    match list.Items with
    | [build] =>
      if isOK build then
        ⟨some (false, none), s1, [Effect.list (listOptions name), Effect.snapshot build]⟩
      else if isFailed build then
        let r := printBuildLogs c build.Name s1
        ⟨some (false, some (buildFailedError build)), r.state,
          Effect.list (listOptions name) :: Effect.snapshot build ::
            Effect.log (failedLogLine build) :: r.trace⟩
      else
        match c.Watch (watchOptions name) s1 with
        | (Except.error err, s2) =>
          ⟨some (false, some err), s2,
            [Effect.list (listOptions name), Effect.snapshot build,
              Effect.watch (watchOptions name)]⟩
        | (Except.ok w, s2) =>
          let r := watchLoop c w w.events s2
          match r.ret with
          | none =>
            ⟨none, r.state,
              Effect.list (listOptions name) :: Effect.snapshot build ::
                Effect.watch (watchOptions name) :: Effect.opened w.handle :: r.trace⟩
          | some v =>
            ⟨some v, r.state,
              Effect.list (listOptions name) :: Effect.snapshot build ::
                Effect.watch (watchOptions name) :: Effect.opened w.handle :: (r.trace ++ [Effect.stop w.handle])⟩
    | _ =>
      ⟨some (false, some (fmtErrorf ("could not find build " ++ name))), s1,
        [Effect.list (listOptions name)]⟩

/-- The `for` loop of `waitForBuild`, with `fuel` bounding the number of
observation cycles.  The result is `none` when the loop has not returned: a
cycle blocked, or the fuel ran out.  Otherwise it is the returned error, `none`
standing for nil. -/
def waitForBuildLoop {σ : Type} (c : BuildClient σ) (name : String) :
    Nat → σ → Run σ (Option (Option GoError))
  | 0, s => ⟨none, s, []⟩
  | fuel + 1, s =>
    let r := waitForBuildOrTimeout c name s
    match r.ret with
    | none => ⟨none, r.state, r.trace⟩
    | some (_, some err) => ⟨some (some err), r.state, r.trace⟩
    | some (false, none) => ⟨some none, r.state, r.trace⟩
    | some (true, none) => Run.after r.trace (waitForBuildLoop c name fuel r.state)

/-- `waitForBuild`: log the start, then loop. -/
def waitForBuild {σ : Type} (c : BuildClient σ) (name : String) (fuel : Nat) (s : σ) :
    Run σ (Option (Option GoError)) :=
  Run.after [Effect.log ("Waiting for build " ++ name ++ " to finish")]
    (waitForBuildLoop c name fuel s)

/-- `handleBuild`.  `marshal` stands for `json.Marshal` on a build. -/
def handleBuild {σ : Type} (c : BuildClient σ) (marshal : Build → Except GoError String)
    (build : Build) (dry : Bool) (fuel : Nat) (s : σ) : Run σ (Option (Option GoError)) :=
  if dry then
    match marshal build with
    | Except.error err => ⟨some (some (fmtErrorf ("failed to marshal build: " ++ err.msg))), s, []⟩
    | Except.ok buildJSON => ⟨some none, s, [Effect.stdout (buildJSON ++ "\n")]⟩
  else
    match c.Create build s with
    | (Except.error err, s1) =>
      if !IsAlreadyExists err then ⟨some (some err), s1, [Effect.create build]⟩
      else Run.after [Effect.create build] (waitForBuild c build.Name fuel s1)
    | (Except.ok _, s1) => Run.after [Effect.create build] (waitForBuild c build.Name fuel s1)

/-! ## The existence check -/

/-- Modelled from the spec: the constant `PipelineImageStream` is declared
outside this file; the scenario of the specification names the job
`pipeline:src`, so the stream is called `pipeline`. -/
def PipelineImageStream : String := "pipeline"

/-- The `ImageStreamTagInterface` of the image client, reduced to `Get`; the
returned tag is identified by its name. -/
structure ImageStreamTagInterface (σ : Type) where
  Get : String → σ → Except GoError String × σ

/-- `imageStreamTagExists`. -/
def imageStreamTagExists {σ : Type} (reference : String) (istClient : ImageStreamTagInterface σ)
    (s : σ) : (Bool × Option GoError) × σ :=
  match istClient.Get (PipelineImageStream ++ ":" ++ reference) s with
  | (Except.error err, s1) =>
    if IsNotFound err then ((false, none), s1) else ((false, some err), s1)
  | (Except.ok _, s1) => ((true, none), s1)

/-! ## Reading traces -/

/-- The effect is a `List` call on the client. -/
def Effect.isList : Effect → Bool
  | Effect.list _ => true
  | _ => false

/-- The effect is a `Watch` call on the client. -/
def Effect.isWatch : Effect → Bool
  | Effect.watch _ => true
  | _ => false

/-- The effect is a `Logs` call on the client. -/
def Effect.isLogs : Effect → Bool
  | Effect.logs _ _ => true
  | _ => false

/-- The effect is a `Create` call on the client. -/
def Effect.isCreate : Effect → Bool
  | Effect.create _ => true
  | _ => false

/-- Number of `List` calls in a trace. -/
def countList (t : List Effect) : Nat := t.countP Effect.isList

/-- Number of `Watch` calls in a trace. -/
def countWatch (t : List Effect) : Nat := t.countP Effect.isWatch

/-- Number of `Logs` calls in a trace. -/
def countLogs (t : List Effect) : Nat := t.countP Effect.isLogs

/-- The build status an effect shows to the monitor, if any: the item of a
snapshot, or the build carried by a received event. -/
def Effect.observed : Effect → Option Build
  | Effect.snapshot b => some b
  | Effect.recv ev =>
    match ev.Object with
    | RuntimeObject.build b => some b
    | RuntimeObject.other _ => none
  | _ => none

/-- The last build status the monitor observed in a trace. -/
def lastObserved (t : List Effect) : Option Build := (t.filterMap Effect.observed).getLast?

/-! ## Properties of events, in the words of the specification -/

/-- The event carries a build in phase `Complete`. -/
def carriesComplete (ev : Event) : Bool :=
  match ev.Object with
  | RuntimeObject.build b => b.Status.Phase == "Complete"
  | RuntimeObject.other _ => false

/-- The event carries a build in phase `Failed`, `Cancelled` or `Error`. -/
def carriesFailure (ev : Event) : Bool :=
  match ev.Object with
  | RuntimeObject.build b =>
    b.Status.Phase == "Failed" || b.Status.Phase == "Cancelled" || b.Status.Phase == "Error"
  | RuntimeObject.other _ => false

/-- The phase is none of the four terminal phases. -/
def nonTerminal (p : BuildPhase) : Prop :=
  p ≠ "Complete" ∧ p ≠ "Failed" ∧ p ≠ "Cancelled" ∧ p ≠ "Error"

/-! ## A scripted client, for concrete runs -/

/-- The state of the scripted client: for each method the answers it still has
to give, in order. -/
structure Script where
  creates : List (Except GoError Build) := []
  lists : List (Except GoError BuildList) := []
  watches : List (Except GoError Watcher) := []
  logs : List (Except GoError LogStream) := []

/-- The error the scripted client answers with once a script is used up. -/
def scriptExhausted : GoError := ⟨"", "script exhausted"⟩

/-- The scripted client: every call takes the next answer of its script,
whatever its arguments. -/
def scripted : BuildClient Script where
  Create := fun _ s =>
    match s.creates with
    | [] => (Except.error scriptExhausted, s)
    | r :: rest => (r, { s with creates := rest })
  List := fun _ s =>
    match s.lists with
    | [] => (Except.error scriptExhausted, s)
    | r :: rest => (r, { s with lists := rest })
  Watch := fun _ s =>
    match s.watches with
    | [] => (Except.error scriptExhausted, s)
    | r :: rest => (r, { s with watches := rest })
  Logs := fun _ _ s =>
    match s.logs with
    | [] => (Except.error scriptExhausted, s)
    | r :: rest => (r, { s with logs := rest })

/-- A build with the given name, namespace and phase. -/
def mkBuild (ns name : String) (phase : BuildPhase) : Build :=
  { Name := name, Namespace := ns, Status := { Phase := phase } }

/-! ## Concrete scripts -/

/-- A watch event of type `Modified` carrying a build `ns/src` in the given phase. -/
def modified (phase : BuildPhase) : Event :=
  ⟨EventType.Modified, RuntimeObject.build (mkBuild "ns" "src" phase)⟩

/-- The scenario of the specification: the snapshot shows `Running`, then the
watch delivers a `Modified` event with a `Complete` build. -/
def runningThenComplete : Script :=
  { lists := [Except.ok ⟨[mkBuild "ns" "src" "Running"]⟩],
    watches := [Except.ok ⟨1, [modified "Complete"], true⟩] }

/-- A snapshot with two builds of the same name, both complete. -/
def twoBuilds : Script :=
  { lists := [Except.ok ⟨[mkBuild "ns" "src" "Complete", mkBuild "other" "src" "Complete"]⟩] }

/-! ## Disconnects, in the words of the specification -/

/-- One observation cycle that ends in a disconnect: the snapshot shows a single
job in a non-terminal phase, the subscription opens, and its stream closes
without having delivered any terminal event.  The cycle takes the client from
state `s` to state `t`. -/
def disconnectCycle {σ : Type} (c : BuildClient σ) (name : String) (s t : σ) : Prop :=
  ∃ b w s1, c.List (listOptions name) s = (Except.ok ⟨[b]⟩, s1) ∧
    nonTerminal b.Status.Phase ∧
    c.Watch (watchOptions name) s1 = (Except.ok w, t) ∧ w.closes = true ∧
    ∀ e ∈ w.events, carriesComplete e = false ∧ carriesFailure e = false

/-- The first `n` observation cycles from state `s` all end in a disconnect and
leave the client in state `t`. -/
def disconnects {σ : Type} (c : BuildClient σ) (name : String) : Nat → σ → σ → Prop
  | 0, s, t => s = t
  | n + 1, s, t => ∃ m, disconnectCycle c name s m ∧ disconnects c name n m t

/-- The classification of a terminal snapshot: nil for `Complete`, the failure
error otherwise. -/
def classification (b : Build) : Option GoError :=
  if b.Status.Phase = "Complete" then none else some (buildFailedError b)

/-- The phase is one of the four terminal phases. -/
def terminal (p : BuildPhase) : Prop :=
  p = "Complete" ∨ p = "Failed" ∨ p = "Cancelled" ∨ p = "Error"

/-- The watch stream closes with no events, then the second snapshot shows
`Complete`. -/
def disconnectThenComplete : Script :=
  { lists := [Except.ok ⟨[mkBuild "ns" "src" "Running"]⟩,
      Except.ok ⟨[mkBuild "ns" "src" "Complete"]⟩],
    watches := [Except.ok ⟨1, [], true⟩] }

/-- The `AlreadyExists` error of the API server. -/
def alreadyExists : GoError := ⟨"AlreadyExists", "builds \"src\" already exists"⟩

/-- A validation rejection of the API server. -/
def invalid : GoError := ⟨"Invalid", "Build \"src\" is invalid"⟩

/-- Two submissions of the same build: the first `Create` succeeds, the second
answers `AlreadyExists`, and each snapshot shows the build complete. -/
def submitTwice : Script :=
  { creates := [Except.ok (mkBuild "ns" "src" "New"), Except.error alreadyExists],
    lists := [Except.ok ⟨[mkBuild "ns" "src" "Complete"]⟩,
      Except.ok ⟨[mkBuild "ns" "src" "Complete"]⟩] }

/-- A `json.Marshal` that never fails; the text stands for the encoding. -/
def marshalName (b : Build) : Except GoError String := Except.ok ("build:" ++ b.Name)

/-! ## Terminal failures, in the words of the specification -/

/-- The text `needle` occurs in the text `hay`. -/
def occursIn (needle hay : String) : Prop := ∃ a b : List Char, a ++ needle.data ++ b = hay.data

instance (needle hay : String) : Decidable (occursIn needle hay) :=
  inferInstanceAs (Decidable (needle.data <:+: hay.data))

/-- The phase is `Failed`, `Cancelled` or `Error`. -/
def failedPhase (p : BuildPhase) : Prop := p = "Failed" ∨ p = "Cancelled" ∨ p = "Error"

/-- A terminal-failure classification of the build `b` in the cycle that starts
in state `s`: either the snapshot shows the single item `b` in a failed phase,
or the snapshot shows a single non-terminal item, the subscription opens, and
the first terminal event it delivers carries `b` in a failed phase. -/
def failureClassified {σ : Type} (c : BuildClient σ) (name : String) (s : σ) (b : Build) : Prop :=
  (∃ s1, c.List (listOptions name) s = (Except.ok ⟨[b]⟩, s1) ∧ failedPhase b.Status.Phase) ∨
  (∃ b0 s1 w s2 before ev rest,
    c.List (listOptions name) s = (Except.ok ⟨[b0]⟩, s1) ∧ nonTerminal b0.Status.Phase ∧
    c.Watch (watchOptions name) s1 = (Except.ok w, s2) ∧
    w.events = before ++ ev :: rest ∧
    (∀ e ∈ before, carriesComplete e = false ∧ carriesFailure e = false) ∧
    ev.Object = RuntimeObject.build b ∧ failedPhase b.Status.Phase)

/-- The client `c` with its `Logs` method replaced. -/
def BuildClient.withLogs {σ : Type} (c : BuildClient σ)
    (logs : String → BuildLogOptions → σ → Except GoError LogStream × σ) : BuildClient σ :=
  { c with Logs := logs }

/-- The snapshot shows the build `ns/src` failed. -/
def failedSnapshot : Script :=
  { lists := [Except.ok ⟨[mkBuild "ns" "src" "Failed"]⟩] }

/-- Logs that cannot be opened. -/
def logsUnavailable : String → BuildLogOptions → Script → Except GoError LogStream × Script :=
  fun _ _ s => (Except.error ⟨"", "no logs"⟩, s)

/-- Logs whose copy breaks after some output. -/
def logsBroken : String → BuildLogOptions → Script → Except GoError LogStream × Script :=
  fun _ _ s => (Except.ok ⟨7, "step 1", some ⟨"", "unexpected EOF"⟩⟩, s)

/-- Logs that are copied completely. -/
def logsComplete : String → BuildLogOptions → Script → Except GoError LogStream × Script :=
  fun _ _ s => (Except.ok ⟨7, "step 1\nstep 2\n", none⟩, s)

/-! ## The kinds of return of the monitor, in the words of the specification -/

/-- The error `err` is an unrecoverable query error of a run of the monitor for
`name` that leaves the client in state `final`: the last call was a `List` that
failed with `err`, a `List` that did not return exactly one item (the lookup
error), or a `Watch` that failed with `err`. -/
def infrastructureError {σ : Type} (c : BuildClient σ) (name : String) (err : GoError)
    (final : σ) : Prop :=
  (∃ t, c.List (listOptions name) t = (Except.error err, final)) ∨
  (∃ t l, c.List (listOptions name) t = (Except.ok l, final) ∧ l.Items.length ≠ 1 ∧
    err = fmtErrorf ("could not find build " ++ name)) ∨
  (∃ t, c.Watch (watchOptions name) t = (Except.error err, final))

/-- The three kinds of return: nil after a last observed status `Complete`; the
failure error of the last observed status, whose phase is `Failed`, `Cancelled`
or `Error`; or an unrecoverable query error. -/
def returnKind {σ : Type} (c : BuildClient σ) (name : String) (r : Option GoError)
    (tr : List Effect) (final : σ) : Prop :=
  (r = none ∧ ∃ b, lastObserved tr = some b ∧ b.Status.Phase = "Complete") ∨
  (∃ b, r = some (buildFailedError b) ∧ lastObserved tr = some b ∧
    failedPhase b.Status.Phase) ∨
  (∃ err, r = some err ∧ infrastructureError c name err final)

/-- Every closing of a watch channel in the trace is followed by a later `List`
call. -/
def closedThenListed (tr : List Effect) : Prop :=
  ∀ before h rest, tr = before ++ Effect.chanClosed h :: rest →
    ∃ e ∈ rest, Effect.isList e = true

/-- A failed snapshot query. -/
def listFails : Script :=
  { lists := [Except.error ⟨"InternalError", "etcd unavailable"⟩] }

/-- The snapshot shows a running build, then the subscription cannot be opened. -/
def watchFails : Script :=
  { lists := [Except.ok ⟨[mkBuild "ns" "src" "Running"]⟩],
    watches := [Except.error ⟨"Forbidden", "watch is forbidden"⟩] }

/-- A registry that holds the single tag `pipeline:src`; the state counts the
`Get` calls. -/
def registry : ImageStreamTagInterface Nat where
  Get := fun name n =>
    if name = "pipeline:src" then (Except.ok name, n + 1)
    else (Except.error ⟨"NotFound", "imagestreamtag not found"⟩, n + 1)

/-! ## The job descriptor builder -/

/-- The constant `CiAnnotationPrefix`. -/
def CiAnnotationPrefix : String := "ci.openshift.io"

/-- The constant `PersistsLabel`. -/
def PersistsLabel : String := "persists-between-builds"

/-- The constant `JobLabel`. -/
def JobLabel : String := "job"

/-- The constant `BuildIdLabel`. -/
def BuildIdLabel : String := "build-id"

/-- The constant `CreatesLabel`. -/
def CreatesLabel : String := "creates"

/-- The constant `CreatedByCILabel`. -/
def CreatedByCILabel : String := "created-by-ci"

/-- The variable `JobSpecAnnotation`: `fmt.Sprintf("%s/%s", CiAnnotationPrefix, "job-spec")`. -/
def JobSpecAnnotation : String := CiAnnotationPrefix ++ "/" ++ "job-spec"

/-- `buildapi.DockerBuildStrategyType`. -/
def DockerBuildStrategyType : String := "Docker"

/-- `buildapi.ImageOptimizationSkipLayers`. -/
def ImageOptimizationSkipLayers : String := "SkipLayers"

/-- Modelled from the spec: the type `JobSpec` is declared outside this file.
The job context is a read-only value exposing the name of the owning job, the
unique build id, the serialized context, and an optional owner handle;
`scope` and `owner` hold what its methods `Namespace()` and `Owner()` return. -/
structure JobSpec where
  Job : String
  BuildId : String
  rawSpec : String
  scope : String
  owner : Option OwnerReference
deriving DecidableEq, Repr

/-- The method `Namespace()` of the job context. -/
def JobSpec.Namespace (jobSpec : JobSpec) : String := jobSpec.scope

/-- The method `Owner()` of the job context; `none` is the nil pointer. -/
def JobSpec.Owner (jobSpec : JobSpec) : Option OwnerReference := jobSpec.owner

/-- `buildFromSource`: the build it returns, together with the line it logs. -/
def buildFromSource (jobSpec : JobSpec) (fromTag toTag : String) (source : BuildSource) :
    Build × List Effect :=
  let layer := ImageOptimizationSkipLayers
  let build : Build :=
    { Name := toTag
      Namespace := jobSpec.Namespace
      Labels := [(PersistsLabel, "false"), (JobLabel, jobSpec.Job),
        (BuildIdLabel, jobSpec.BuildId), (CreatesLabel, toTag), (CreatedByCILabel, "true")]
      Annotations := [( JobSpecAnnotation, jobSpec.rawSpec)]
      Spec :=
        { CommonSpec :=
            { ServiceAccount := "builder"
              Source := source
              Strategy :=
                { Typ := DockerBuildStrategyType
                  DockerStrategy := some
                    { From := some
                        { Kind := "ImageStreamTag"
                          Namespace := jobSpec.Namespace
                          Name := PipelineImageStream ++ ":" ++ fromTag }
                      ForcePull := true
                      NoCache := true
                      Env := [{ Name := "JOB_SPEC", Value := jobSpec.rawSpec }]
                      ImageOptimizationPolicy := some layer } }
              Output :=
                { To := some
                    { Kind := "ImageStreamTag"
                      Namespace := jobSpec.Namespace
                      Name := PipelineImageStream ++ ":" ++ toTag } } } } }
  let build : Build :=
    match jobSpec.Owner with
    | some owner => { build with OwnerReferences := build.OwnerReferences ++ [owner] }
    | none => build
  (build, [Effect.log ("Creating build for " ++ jobSpec.Namespace ++ "/" ++
    PipelineImageStream ++ ":" ++ toTag)])

/-- A job context with an owner. -/
def ownedJob : JobSpec :=
  { Job := "pull-ci", BuildId := "42", rawSpec := "raw", scope := "ci-op-1",
    owner := some { APIVersion := "v1", Kind := "Namespace", Name := "ci-op-1", UID := "u-1" } }

/-! ## Reading traces: client calls, subscriptions, output -/

/-- The effect is a call on the build client. -/
def Effect.isClientCall : Effect → Bool
  | Effect.create _ => true
  | Effect.list _ => true
  | Effect.watch _ => true
  | Effect.logs _ _ => true
  | _ => false

/-- The calls on the build client in a trace, in order. -/
def clientCalls (t : List Effect) : List Effect := t.filter Effect.isClientCall

/-- The effect stops a subscription. -/
def Effect.isStop : Effect → Bool
  | Effect.stop _ => true
  | _ => false

/-- The effect opens a subscription. -/
def Effect.isOpened : Effect → Bool
  | Effect.opened _ => true
  | _ => false

/-- The effect closes a log stream. -/
def Effect.isClose : Effect → Bool
  | Effect.close _ => true
  | _ => false

/-- The subscriptions that are open after the effect `e`, given those open
before it. -/
def openStep (held : List Nat) : Effect → List Nat
  | Effect.opened h => h :: held
  | Effect.stop h => held.erase h
  | _ => held

/-- The subscriptions that are open after a trace, given those open before it. -/
def openAfter : List Nat → List Effect → List Nat
  | held, [] => held
  | held, e :: rest => openAfter (openStep held e) rest

/-- The largest number of subscriptions open at any point of a trace, given
those open before it. -/
def maxOpen : List Nat → List Effect → Nat
  | held, [] => held.length
  | held, e :: rest => max held.length (maxOpen (openStep held e) rest)

/-- The text written to standard output in a trace. -/
def stdoutOf : List Effect → String
  | [] => ""
  | Effect.stdout text :: rest => text ++ stdoutOf rest
  | _ :: rest => stdoutOf rest

/-! ## Event sequences, in the words of the specification -/

/-- The event is not terminal: its payload is not a build, or is a build whose
phase is none of `Complete`, `Failed`, `Cancelled`, `Error`. -/
def quietEvent (ev : Event) : Prop :=
  match ev.Object with
  | RuntimeObject.build b => nonTerminal b.Status.Phase
  | RuntimeObject.other _ => True

/-- The sequence `long` is `short` with non-terminal events inserted at any
positions. -/
inductive InsertQuiet : List Event → List Event → Prop where
  | nil : InsertQuiet [] []
  | keep (ev : Event) {short long : List Event} :
      InsertQuiet short long → InsertQuiet (ev :: short) (ev :: long)
  | insert (ev : Event) {short long : List Event} :
      quietEvent ev → InsertQuiet short long → InsertQuiet short (ev :: long)

/-- The client `c` with the events of every subscription it opens rewritten by
`f`. -/
def mapEvents {σ : Type} (c : BuildClient σ) (f : List Event → List Event) :
    BuildClient σ :=
  { c with
    Watch := fun opts s =>
      match c.Watch opts s with
      | (Except.ok w, s1) => (Except.ok { w with events := f w.events }, s1)
      | (Except.error err, s1) => (Except.error err, s1) }

/-- The return value of the watch loop as a function of the delivered events
and of whether the channel closes after them. -/
def verdict (closes : Bool) : List Event → Option (Bool × Option GoError)
  | [] => if closes then some (true, none) else none
  | ev :: rest =>
    match ev.Object with
    | RuntimeObject.build b =>
      if isOK b then some (false, none)
      else if isFailed b then some (false, some (buildFailedError b))
      else verdict closes rest
    | RuntimeObject.other _ => verdict closes rest

/-- The snapshot shows a running build; the watch delivers a `Modified` event
with a running build and then a `Modified` event with a failed build. -/
def runningThenFailed : Script :=
  { lists := [Except.ok ⟨[mkBuild "ns" "src" "Running"]⟩],
    watches := [Except.ok ⟨1, [modified "Running", modified "Failed"], true⟩],
    logs := [Except.ok ⟨7, "step 1\n", none⟩] }

/-! ## Ordering of snapshot and watch, in the words of the specification -/

/-- In the trace `t` every `Watch` call comes directly after the snapshot `List`
call for `name` and the inspection of its single item, whose phase is none of
the four terminal phases. -/
def watchFollowsSnapshot (name : String) (t : List Effect) : Prop :=
  ∀ before rest opts, t = before ++ Effect.watch opts :: rest →
    ∃ front b, before = front ++ [Effect.list (listOptions name), Effect.snapshot b] ∧
      nonTerminal b.Status.Phase

/-- In the sequence of client calls `t` every `Watch` call is immediately
preceded by a `List` call for `name`. -/
def watchFollowsList (name : String) (t : List Effect) : Prop :=
  ∀ before rest opts, t = before ++ Effect.watch opts :: rest →
    ∃ front, before = front ++ [Effect.list (listOptions name)]

/-- Number of `Stop` calls on subscriptions in a trace. -/
def countStop (t : List Effect) : Nat := t.countP Effect.isStop

/-- The trace neither opens nor stops a subscription. -/
def noSubscription (t : List Effect) : Prop :=
  ∀ e ∈ t, Effect.isOpened e = false ∧ Effect.isStop e = false

/-- Put an `Added` event for an unrelated object in front of the events. -/
def withUnrelated (evs : List Event) : List Event :=
  ⟨EventType.Added, RuntimeObject.other "Pod"⟩ :: evs

/-- Turn every event into a `Deleted` event with the same payload. -/
def allDeleted (evs : List Event) : List Event :=
  evs.map fun ev => { ev with Typ := EventType.Deleted }

/-- The log options with `NoWait` and `Timestamps` set and every other option
left at its zero value, field by field. -/
def noWaitTimestamps : BuildLogOptions :=
  { Container := "", Follow := false, Previous := false, SinceSeconds := none,
    SinceTime := none, Timestamps := true, TailLines := none, LimitBytes := none,
    NoWait := true, Version := none }

/-- The `Logs` calls in a trace, in order. -/
def logRequests (t : List Effect) : List Effect := t.filter Effect.isLogs

/-- Every `Logs` call in the trace carries the options `noWaitTimestamps`. -/
def logOptionsFixed (t : List Effect) : Prop :=
  ∀ name opts, Effect.logs name opts ∈ t → opts = noWaitTimestamps

/-- The `Close` calls on log streams in a trace, in order. -/
def closes (t : List Effect) : List Effect := t.filter Effect.isClose

/-- The effect writes to standard output. -/
def Effect.isStdout : Effect → Bool
  | Effect.stdout _ => true
  | _ => false

/-- The logs of the failed build are copied completely. -/
def failedWithLogs : Script :=
  { lists := [Except.ok ⟨[mkBuild "ns" "src" "Failed"]⟩],
    logs := [Except.ok ⟨7, "step 1\nstep 2\n", none⟩] }

/-- The copy of the logs of the failed build breaks after the first line. -/
def failedWithBrokenLogs : Script :=
  { lists := [Except.ok ⟨[mkBuild "ns" "src" "Failed"]⟩],
    logs := [Except.ok ⟨7, "step 1\n", some ⟨"", "unexpected EOF"⟩⟩] }

/-- The run ends in a terminal-failure classification: after some number of
disconnect cycles, a cycle classifies a build as a terminal failure. -/
def endsInFailure {σ : Type} (c : BuildClient σ) (name : String) (s : σ) : Prop :=
  ∃ n t b, disconnects c name n s t ∧ failureClassified c name t b

/-! ## The requests a client receives -/

/-- One `Logs` request as the client receives it: the name and the options. -/
abbrev LogRequest := String × BuildLogOptions

/-- The client `c` instrumented to keep, next to its own state, the arguments of
every `Logs` request it has received, oldest first.  Its answers are those of
`c`. -/
def recording {σ : Type} (c : BuildClient σ) : BuildClient (σ × List LogRequest) where
  Create := fun b st => ((c.Create b st.1).1, ((c.Create b st.1).2, st.2))
  List := fun opts st => ((c.List opts st.1).1, ((c.List opts st.1).2, st.2))
  Watch := fun opts st => ((c.Watch opts st.1).1, ((c.Watch opts st.1).2, st.2))
  Logs := fun name opts st =>
    ((c.Logs name opts st.1).1, ((c.Logs name opts st.1).2, st.2 ++ [(name, opts)]))

/-- The `Logs` request an effect stands for, if it is one. -/
def Effect.logRequest : Effect → Option LogRequest
  | Effect.logs name opts => some (name, opts)
  | _ => none

/-- The `Logs` requests a trace stands for, in order. -/
def requestsOf (t : List Effect) : List LogRequest := t.filterMap Effect.logRequest

/-- The run `r` of a client, seen as a run of the recording client that had
received the requests `q` before: same return value and trace, and the requests
of the trace added to `q`. -/
def recorded {σ α : Type} (q : List LogRequest) (r : Run σ α) : Run (σ × List LogRequest) α :=
  ⟨r.ret, (r.state, q ++ requestsOf r.trace), r.trace⟩

/-! ## Unfolding lemmas -/

theorem isOK_iff (b : Build) : isOK b = true ↔ b.Status.Phase = "Complete" := by
  simp [isOK, BuildPhaseComplete]

theorem isFailed_iff (b : Build) :
    isFailed b = true ↔
      b.Status.Phase = "Failed" ∨ b.Status.Phase = "Cancelled" ∨ b.Status.Phase = "Error" := by
  simp [isFailed, BuildPhaseFailed, BuildPhaseCancelled, BuildPhaseError, or_assoc]

theorem isOK_not_isFailed (b : Build) (h : isOK b = true) : isFailed b = false := by
  rw [isOK_iff] at h
  cases hf : isFailed b
  · rfl
  · rw [isFailed_iff, h] at hf
    revert hf
    decide

theorem watchLoop_nil {σ : Type} (c : BuildClient σ) (w : Watcher) (s : σ) :
    watchLoop c w [] s =
      if w.closes then ⟨some (true, none), s, [Effect.chanClosed w.handle]⟩ else ⟨none, s, []⟩ := by
  rw [watchLoop]

theorem watchLoop_ok {σ : Type} (c : BuildClient σ) (w : Watcher) (ev : Event)
    (rest : List Event) (s : σ) (b : Build) (hb : ev.Object = RuntimeObject.build b)
    (hok : isOK b = true) :
    watchLoop c w (ev :: rest) s = ⟨some (false, none), s, [Effect.recv ev]⟩ := by
  rw [watchLoop]
  simp [hb, hok]

theorem watchLoop_failed {σ : Type} (c : BuildClient σ) (w : Watcher) (ev : Event)
    (rest : List Event) (s : σ) (b : Build) (hb : ev.Object = RuntimeObject.build b)
    (hok : isOK b = false) (hf : isFailed b = true) :
    watchLoop c w (ev :: rest) s =
      ⟨some (false, some (buildFailedError b)), (printBuildLogs c b.Name s).state,
        Effect.recv ev :: Effect.log (failedLogLine b) :: (printBuildLogs c b.Name s).trace⟩ := by
  rw [watchLoop]
  simp [hb, hok, hf]

theorem watchLoop_skip {σ : Type} (c : BuildClient σ) (w : Watcher) (ev : Event)
    (rest : List Event) (s : σ) (hc : carriesComplete ev = false)
    (hf : carriesFailure ev = false) :
    watchLoop c w (ev :: rest) s = Run.after [Effect.recv ev] (watchLoop c w rest s) := by
  rw [watchLoop]
  cases hb : ev.Object with
  | build b =>
    have h1 : isOK b = false := by
      simpa [carriesComplete, hb, isOK, BuildPhaseComplete] using hc
    have h2 : isFailed b = false := by
      simpa [carriesFailure, hb, isFailed, BuildPhaseFailed, BuildPhaseCancelled,
        BuildPhaseError] using hf
    simp [h1, h2]
  | other k => simp

theorem carriesComplete_build {ev : Event} (h : carriesComplete ev = true) :
    ∃ b, ev.Object = RuntimeObject.build b ∧ isOK b = true := by
  cases hb : ev.Object with
  | build b => exact ⟨b, rfl, by simpa [carriesComplete, hb, isOK, BuildPhaseComplete] using h⟩
  | other k => simp [carriesComplete, hb] at h

theorem carriesFailure_build {ev : Event} (h : carriesFailure ev = true) :
    ∃ b, ev.Object = RuntimeObject.build b ∧ isOK b = false ∧ isFailed b = true := by
  cases hb : ev.Object with
  | build b =>
    have hf : isFailed b = true := by
      simpa [carriesFailure, hb, isFailed, BuildPhaseFailed, BuildPhaseCancelled,
        BuildPhaseError] using h
    refine ⟨b, rfl, ?_, hf⟩
    cases hok : isOK b
    · rfl
    · rw [isOK_not_isFailed b hok] at hf
      exact absurd hf (by decide)
  | other k => simp [carriesFailure, hb] at h

theorem carriesComplete_not_failure {ev : Event} (h : carriesComplete ev = true) :
    carriesFailure ev = false := by
  obtain ⟨b, hb, hok⟩ := carriesComplete_build h
  cases hf : carriesFailure ev
  · rfl
  · obtain ⟨b2, hb2, hok2, _⟩ := carriesFailure_build hf
    rw [hb] at hb2
    cases hb2
    rw [hok] at hok2
    exact absurd hok2 (by decide)

theorem Run.after_ret {σ α : Type} (t : List Effect) (r : Run σ α) :
    (Run.after t r).ret = r.ret := rfl

theorem Run.after_state {σ α : Type} (t : List Effect) (r : Run σ α) :
    (Run.after t r).state = r.state := rfl

theorem Run.after_trace {σ α : Type} (t : List Effect) (r : Run σ α) :
    (Run.after t r).trace = t ++ r.trace := rfl

/-- The watch loop returns success exactly when a `Complete` event comes before
any failure event. -/
theorem watchLoop_success_iff {σ : Type} (c : BuildClient σ) (w : Watcher)
    (evs : List Event) (s : σ) :
    (watchLoop c w evs s).ret = some (false, none) ↔
      ∃ before ev rest, evs = before ++ ev :: rest ∧ carriesComplete ev = true ∧
        ∀ e ∈ before, carriesFailure e = false := by
  induction evs with
  | nil =>
    rw [watchLoop_nil]
    constructor
    · intro h
      split at h <;> simp at h
    · rintro ⟨before, ev, rest, h, _⟩
      simp at h
  | cons ev tl ih =>
    cases hc : carriesComplete ev
    · cases hf : carriesFailure ev
      · rw [watchLoop_skip c w ev tl s hc hf, Run.after_ret, ih]
        constructor
        · rintro ⟨before, e, rest, h, he, hb⟩
          refine ⟨ev :: before, e, rest, by simp [h], he, ?_⟩
          intro x hx
          rcases List.mem_cons.mp hx with hx | hx
          · rw [hx]; exact hf
          · exact hb x hx
        · rintro ⟨before, e, rest, h, he, hb⟩
          cases before with
          | nil =>
            simp at h
            rw [← h.1, hc] at he
            exact absurd he (by decide)
          | cons x before =>
            simp at h
            exact ⟨before, e, rest, h.2, he, fun y hy => hb y (List.mem_cons_of_mem _ hy)⟩
      · obtain ⟨b, hb, hok, hfb⟩ := carriesFailure_build hf
        rw [watchLoop_failed c w ev tl s b hb hok hfb]
        constructor
        · intro h
          simp at h
        · rintro ⟨before, e, rest, h, he, hbf⟩
          cases before with
          | nil =>
            simp at h
            rw [← h.1, hc] at he
            exact absurd he (by decide)
          | cons x before =>
            simp at h
            have := hbf x (List.mem_cons_self _ _)
            rw [← h.1, hf] at this
            exact absurd this (by decide)
    · obtain ⟨b, hb, hok⟩ := carriesComplete_build hc
      rw [watchLoop_ok c w ev tl s b hb hok]
      constructor
      · intro _
        exact ⟨[], ev, tl, rfl, hc, by simp⟩
      · intro _
        rfl

/-- The watch loop returns an error exactly when a failure event comes before
any `Complete` event; the error is then the failure error of the first such
event, and the retry flag is false. -/
theorem watchLoop_error_iff {σ : Type} (c : BuildClient σ) (w : Watcher)
    (evs : List Event) (s : σ) (retry : Bool) (err : GoError) :
    (watchLoop c w evs s).ret = some (retry, some err) ↔
      ∃ before ev rest b, evs = before ++ ev :: rest ∧ ev.Object = RuntimeObject.build b ∧
        carriesFailure ev = true ∧ (∀ e ∈ before, carriesComplete e = false) ∧
        (∀ e ∈ before, carriesFailure e = false) ∧
        retry = false ∧ err = buildFailedError b := by
  induction evs with
  | nil =>
    rw [watchLoop_nil]
    constructor
    · intro h
      split at h <;> simp at h
    · rintro ⟨before, ev, rest, b, h, _⟩
      simp at h
  | cons ev tl ih =>
    cases hc : carriesComplete ev
    · cases hf : carriesFailure ev
      · rw [watchLoop_skip c w ev tl s hc hf, Run.after_ret, ih]
        constructor
        · rintro ⟨before, e, rest, b, h, hob, he, hb1, hb2, hr⟩
          refine ⟨ev :: before, e, rest, b, by simp [h], hob, he, ?_, ?_, hr⟩
          · intro x hx
            rcases List.mem_cons.mp hx with hx | hx
            · rw [hx]; exact hc
            · exact hb1 x hx
          · intro x hx
            rcases List.mem_cons.mp hx with hx | hx
            · rw [hx]; exact hf
            · exact hb2 x hx
        · rintro ⟨before, e, rest, b, h, hob, he, hb1, hb2, hr⟩
          cases before with
          | nil =>
            simp at h
            rw [← h.1, hf] at he
            exact absurd he (by decide)
          | cons x before =>
            simp at h
            exact ⟨before, e, rest, b, h.2, hob, he,
              fun y hy => hb1 y (List.mem_cons_of_mem _ hy),
              fun y hy => hb2 y (List.mem_cons_of_mem _ hy), hr⟩
      · obtain ⟨b, hb, hok, hfb⟩ := carriesFailure_build hf
        rw [watchLoop_failed c w ev tl s b hb hok hfb]
        constructor
        · intro h
          simp at h
          exact ⟨[], ev, tl, b, rfl, hb, hf, by simp, by simp, h.1, h.2.symm⟩
        · rintro ⟨before, e, rest, b2, h, hob, he, hb1, hb2, hr, herr⟩
          cases before with
          | nil =>
            simp at h
            rw [← h.1, hb] at hob
            cases hob
            rw [hr, herr]
          | cons x before =>
            simp at h
            have := hb2 x (List.mem_cons_self _ _)
            rw [← h.1, hf] at this
            exact absurd this (by decide)
    · obtain ⟨b, hb, hok⟩ := carriesComplete_build hc
      rw [watchLoop_ok c w ev tl s b hb hok]
      constructor
      · intro h
        simp at h
      · rintro ⟨before, e, rest, b2, h, hob, he, hb1, hb2, hr⟩
        cases before with
        | nil =>
          simp at h
          rw [← h.1, carriesComplete_not_failure hc] at he
          exact absurd he (by decide)
        | cons x before =>
          simp at h
          have := hb1 x (List.mem_cons_self _ _)
          rw [← h.1, hc] at this
          exact absurd this (by decide)

/-- The watch loop returns a non-nil error exactly when a failure event comes
before any `Complete` event. -/
theorem watchLoop_failure_iff {σ : Type} (c : BuildClient σ) (w : Watcher)
    (evs : List Event) (s : σ) :
    (∃ retry err, (watchLoop c w evs s).ret = some (retry, some err)) ↔
      ∃ before ev rest, evs = before ++ ev :: rest ∧ carriesFailure ev = true ∧
        ∀ e ∈ before, carriesComplete e = false := by
  induction evs with
  | nil =>
    rw [watchLoop_nil]
    constructor
    · rintro ⟨retry, err, h⟩
      split at h <;> simp at h
    · rintro ⟨before, ev, rest, h, _⟩
      simp at h
  | cons ev tl ih =>
    cases hc : carriesComplete ev
    · cases hf : carriesFailure ev
      · rw [watchLoop_skip c w ev tl s hc hf, Run.after_ret, ih]
        constructor
        · rintro ⟨before, e, rest, h, he, hb⟩
          refine ⟨ev :: before, e, rest, by simp [h], he, ?_⟩
          intro x hx
          rcases List.mem_cons.mp hx with hx | hx
          · rw [hx]; exact hc
          · exact hb x hx
        · rintro ⟨before, e, rest, h, he, hb⟩
          cases before with
          | nil =>
            simp at h
            rw [← h.1, hf] at he
            exact absurd he (by decide)
          | cons x before =>
            simp at h
            exact ⟨before, e, rest, h.2, he, fun y hy => hb y (List.mem_cons_of_mem _ hy)⟩
      · obtain ⟨b, hb, hok, hfb⟩ := carriesFailure_build hf
        rw [watchLoop_failed c w ev tl s b hb hok hfb]
        constructor
        · intro _
          exact ⟨[], ev, tl, rfl, hf, by simp⟩
        · intro _
          exact ⟨false, buildFailedError b, rfl⟩
    · obtain ⟨b, hb, hok⟩ := carriesComplete_build hc
      rw [watchLoop_ok c w ev tl s b hb hok]
      constructor
      · rintro ⟨retry, err, h⟩
        simp at h
      · rintro ⟨before, e, rest, h, he, hbf⟩
        cases before with
        | nil =>
          simp at h
          rw [← h.1, carriesComplete_not_failure hc] at he
          exact absurd he (by decide)
        | cons x before =>
          simp at h
          have := hbf x (List.mem_cons_self _ _)
          rw [← h.1, hc] at this
          exact absurd this (by decide)

theorem nonTerminal_isOK {b : Build} (h : nonTerminal b.Status.Phase) : isOK b = false := by
  cases hok : isOK b
  · rfl
  · exact absurd ((isOK_iff b).mp hok) h.1

theorem nonTerminal_isFailed {b : Build} (h : nonTerminal b.Status.Phase) :
    isFailed b = false := by
  cases hf : isFailed b
  · rfl
  · rcases (isFailed_iff b).mp hf with h1 | h1 | h1
    · exact absurd h1 h.2.1
    · exact absurd h1 h.2.2.1
    · exact absurd h1 h.2.2.2

/-- One cycle whose snapshot shows a single build that is neither complete nor
failed and whose subscription opens: the cycle is the watch loop, followed by
the deferred stop when the loop returns. -/
theorem waitForBuildOrTimeout_watch {σ : Type} (c : BuildClient σ) (name : String)
    (s s1 s2 : σ) (b : Build) (w : Watcher)
    (hlist : c.List (listOptions name) s = (Except.ok ⟨[b]⟩, s1))
    (hok : isOK b = false) (hf : isFailed b = false)
    (hwatch : c.Watch (watchOptions name) s1 = (Except.ok w, s2)) :
    waitForBuildOrTimeout c name s =
      ⟨(watchLoop c w w.events s2).ret, (watchLoop c w w.events s2).state,
        Effect.list (listOptions name) :: Effect.snapshot b ::
          Effect.watch (watchOptions name) :: Effect.opened w.handle :: ((watchLoop c w w.events s2).trace ++
            if (watchLoop c w w.events s2).ret.isSome then [Effect.stop w.handle] else [])⟩ := by
  unfold waitForBuildOrTimeout
  simp only [hlist, hok, hf, hwatch]
  cases h : (watchLoop c w w.events s2).ret <;> simp

/-- Claim C1: after a snapshot that shows exactly one job in a non-terminal
phase and a subscription that opens, `waitForBuildOrTimeout` returns success
(retry false, nil error) exactly when an event carrying a `Complete` build is
delivered before any event carrying a `Failed`, `Cancelled` or `Error` build,
returns a non-nil error exactly when such a failure event is delivered before
any `Complete` event, and never returns both. -/
theorem C1_watch_classification {σ : Type} (c : BuildClient σ) (name : String)
    (s s1 s2 : σ) (b : Build) (w : Watcher)
    (hlist : c.List (listOptions name) s = (Except.ok ⟨[b]⟩, s1))
    (hphase : nonTerminal b.Status.Phase)
    (hwatch : c.Watch (watchOptions name) s1 = (Except.ok w, s2)) :
    ((waitForBuildOrTimeout c name s).ret = some (false, none) ↔
      ∃ before ev rest, w.events = before ++ ev :: rest ∧ carriesComplete ev = true ∧
        ∀ e ∈ before, carriesFailure e = false) ∧
    ((∃ retry err, (waitForBuildOrTimeout c name s).ret = some (retry, some err)) ↔
      ∃ before ev rest, w.events = before ++ ev :: rest ∧ carriesFailure ev = true ∧
        ∀ e ∈ before, carriesComplete e = false) ∧
    ¬ ((waitForBuildOrTimeout c name s).ret = some (false, none) ∧
      ∃ retry err, (waitForBuildOrTimeout c name s).ret = some (retry, some err)) := by
  rw [waitForBuildOrTimeout_watch c name s s1 s2 b w hlist (nonTerminal_isOK hphase)
    (nonTerminal_isFailed hphase) hwatch]
  refine ⟨watchLoop_success_iff c w w.events s2, watchLoop_failure_iff c w w.events s2, ?_⟩
  rintro ⟨h1, retry, err, h2⟩
  rw [h1] at h2
  simp at h2

/-- Witness of C1 on the scenario of the specification: snapshot `Running`, then
a `Modified` event with a `Complete` build; the cycle returns success. -/
theorem C1_watch_classification_witness :
    (waitForBuildOrTimeout scripted "src" runningThenComplete).ret = some (false, none) :=
  (C1_watch_classification scripted "src" runningThenComplete
    { watches := [Except.ok ⟨1, [modified "Complete"], true⟩] } {}
    (mkBuild "ns" "src" "Running") ⟨1, [modified "Complete"], true⟩ rfl
    (by simp [nonTerminal, mkBuild]) rfl).1.mpr
    ⟨[], modified "Complete", [], rfl, by simp [carriesComplete, modified, mkBuild], by simp⟩

theorem waitForBuildOrTimeout_not_single {σ : Type} (c : BuildClient σ) (name : String)
    (s s1 : σ) (l : BuildList) (hlist : c.List (listOptions name) s = (Except.ok l, s1))
    (hlen : l.Items.length ≠ 1) :
    waitForBuildOrTimeout c name s =
      ⟨some (false, some (fmtErrorf ("could not find build " ++ name))), s1,
        [Effect.list (listOptions name)]⟩ := by
  unfold waitForBuildOrTimeout
  simp only [hlist]
  split
  · next b heq =>
    rw [heq] at hlen
    simp at hlen
  · rfl

/-- Claim C2: when the snapshot returns no item or at least two items,
`waitForBuild` returns the error `could not find build <name>` from its first
cycle: the whole run is the start-up log line and one `List` call, with no
`Watch`, no `Logs` and no second cycle, whatever the phases of the items. -/
theorem C2_not_unique_fails_immediately {σ : Type} (c : BuildClient σ) (name : String)
    (s s1 : σ) (l : BuildList) (fuel : Nat)
    (hlist : c.List (listOptions name) s = (Except.ok l, s1))
    (hlen : l.Items.length = 0 ∨ 2 ≤ l.Items.length) :
    waitForBuild c name (fuel + 1) s =
        ⟨some (some (fmtErrorf ("could not find build " ++ name))), s1,
          [Effect.log ("Waiting for build " ++ name ++ " to finish"),
            Effect.list (listOptions name)]⟩ ∧
      (waitForBuildOrTimeout c name s).ret =
        some (false, some (fmtErrorf ("could not find build " ++ name))) ∧
      countList (waitForBuild c name (fuel + 1) s).trace = 1 ∧
      countWatch (waitForBuild c name (fuel + 1) s).trace = 0 ∧
      countLogs (waitForBuild c name (fuel + 1) s).trace = 0 := by
  have hne : l.Items.length ≠ 1 := by omega
  have hcycle := waitForBuildOrTimeout_not_single c name s s1 l hlist hne
  have hrun : waitForBuild c name (fuel + 1) s =
      ⟨some (some (fmtErrorf ("could not find build " ++ name))), s1,
        [Effect.log ("Waiting for build " ++ name ++ " to finish"),
          Effect.list (listOptions name)]⟩ := by
    unfold waitForBuild waitForBuildLoop
    rw [hcycle]
    rfl
  refine ⟨hrun, by rw [hcycle], ?_, ?_, ?_⟩ <;> rw [hrun] <;>
    simp [countList, countWatch, countLogs, Effect.isList, Effect.isWatch, Effect.isLogs]

/-- Witness of C2: a snapshot with two complete builds of the same name. -/
theorem C2_not_unique_fails_immediately_witness :
    (waitForBuild scripted "src" 1 twoBuilds).ret =
      some (some (fmtErrorf ("could not find build " ++ "src"))) :=
  congrArg Run.ret (C2_not_unique_fails_immediately scripted "src" twoBuilds {}
    ⟨[mkBuild "ns" "src" "Complete", mkBuild "other" "src" "Complete"]⟩ 0 rfl
    (Or.inr (by decide))).1

/-- On a stream with no terminal event the watch loop reads every event and then
finds the channel closed, or blocks when the channel stays open. -/
theorem watchLoop_quiet {σ : Type} (c : BuildClient σ) (w : Watcher) (evs : List Event)
    (s : σ) (hq : ∀ e ∈ evs, carriesComplete e = false ∧ carriesFailure e = false) :
    watchLoop c w evs s =
      Run.after (evs.map Effect.recv) (if w.closes then
        ⟨some (true, none), s, [Effect.chanClosed w.handle]⟩ else ⟨none, s, []⟩) := by
  induction evs with
  | nil =>
    rw [watchLoop_nil]
    rfl
  | cons ev tl ih =>
    have h := hq ev (List.mem_cons_self _ _)
    rw [watchLoop_skip c w ev tl s h.1 h.2,
      ih (fun e he => hq e (List.mem_cons_of_mem _ he))]
    simp [Run.after]

theorem countList_append (a b : List Effect) : countList (a ++ b) = countList a + countList b := by
  simp [countList]

theorem countWatch_append (a b : List Effect) :
    countWatch (a ++ b) = countWatch a + countWatch b := by
  simp [countWatch]

theorem countLogs_append (a b : List Effect) : countLogs (a ++ b) = countLogs a + countLogs b := by
  simp [countLogs]

theorem count_map_recv (evs : List Event) :
    countList (evs.map Effect.recv) = 0 ∧ countWatch (evs.map Effect.recv) = 0 ∧
      countLogs (evs.map Effect.recv) = 0 := by
  induction evs with
  | nil => simp [countList, countWatch, countLogs]
  | cons ev tl ih =>
    simp only [countList, countWatch, countLogs] at ih
    simp [countList, countWatch, countLogs, Effect.isList, Effect.isWatch, Effect.isLogs, ih]

/-- A disconnect cycle returns `(true, nil)`, after exactly one `List` call, one
`Watch` call and no `Logs` call. -/
theorem disconnectCycle_run {σ : Type} (c : BuildClient σ) (name : String) (s t : σ)
    (h : disconnectCycle c name s t) :
    (waitForBuildOrTimeout c name s).ret = some (true, none) ∧
      (waitForBuildOrTimeout c name s).state = t ∧
      countList (waitForBuildOrTimeout c name s).trace = 1 ∧
      countWatch (waitForBuildOrTimeout c name s).trace = 1 ∧
      countLogs (waitForBuildOrTimeout c name s).trace = 0 := by
  obtain ⟨b, w, s1, hlist, hphase, hwatch, hcl, hq⟩ := h
  rw [waitForBuildOrTimeout_watch c name s s1 t b w hlist (nonTerminal_isOK hphase)
    (nonTerminal_isFailed hphase) hwatch, watchLoop_quiet c w w.events t hq, hcl]
  have hm := count_map_recv w.events
  simp only [countList, countWatch, countLogs] at hm
  simp [Run.after, countList, countWatch, countLogs, Effect.isList, Effect.isWatch,
    Effect.isLogs, hm]

/-- After `n` disconnect cycles the loop of `waitForBuild` continues from the
state they leave, and has made `n` `List` calls, `n` `Watch` calls and no `Logs`
call so far. -/
theorem waitForBuildLoop_disconnects {σ : Type} (c : BuildClient σ) (name : String) (n : Nat) :
    ∀ (s t : σ), disconnects c name n s t →
      ∃ tr, countList tr = n ∧ countWatch tr = n ∧ countLogs tr = 0 ∧
        ∀ k, waitForBuildLoop c name (n + k) s = Run.after tr (waitForBuildLoop c name k t) := by
  induction n with
  | zero =>
    intro s t h
    simp only [disconnects] at h
    subst h
    refine ⟨[], rfl, rfl, rfl, ?_⟩
    intro k
    simp [Run.after]
  | succ n ih =>
    intro s t h
    obtain ⟨m, hcyc, hrest⟩ := h
    obtain ⟨hret, hst, hl, hw, hg⟩ := disconnectCycle_run c name s m hcyc
    obtain ⟨tr, htl, htw, htg, hk⟩ := ih m t hrest
    refine ⟨(waitForBuildOrTimeout c name s).trace ++ tr, ?_, ?_, ?_, ?_⟩
    · rw [countList_append, hl, htl]; omega
    · rw [countWatch_append, hw, htw]; omega
    · rw [countLogs_append, hg, htg]
    · intro k
      have e : n + 1 + k = (n + k) + 1 := by omega
      rw [e, waitForBuildLoop]
      simp only [hret, hst, hk k]
      simp [Run.after]

theorem waitForBuildOrTimeout_snapshot_ok {σ : Type} (c : BuildClient σ) (name : String)
    (s s1 : σ) (b : Build) (hlist : c.List (listOptions name) s = (Except.ok ⟨[b]⟩, s1))
    (hok : isOK b = true) :
    waitForBuildOrTimeout c name s =
      ⟨some (false, none), s1, [Effect.list (listOptions name), Effect.snapshot b]⟩ := by
  unfold waitForBuildOrTimeout
  simp only [hlist, hok]
  rfl

theorem waitForBuildOrTimeout_snapshot_failed {σ : Type} (c : BuildClient σ) (name : String)
    (s s1 : σ) (b : Build) (hlist : c.List (listOptions name) s = (Except.ok ⟨[b]⟩, s1))
    (hok : isOK b = false) (hf : isFailed b = true) :
    waitForBuildOrTimeout c name s =
      ⟨some (false, some (buildFailedError b)), (printBuildLogs c b.Name s1).state,
        Effect.list (listOptions name) :: Effect.snapshot b ::
          Effect.log (failedLogLine b) :: (printBuildLogs c b.Name s1).trace⟩ := by
  unfold waitForBuildOrTimeout
  simp only [hlist, hok, hf]
  rfl

/-- The log helper makes exactly one `Logs` call and no `List` or `Watch` call. -/
theorem printBuildLogs_counts {σ : Type} (c : BuildClient σ) (name : String) (s : σ) :
    countList (printBuildLogs c name s).trace = 0 ∧
      countWatch (printBuildLogs c name s).trace = 0 ∧
      countLogs (printBuildLogs c name s).trace = 1 := by
  unfold printBuildLogs
  rcases hl : c.Logs name printLogOptions s with ⟨r, s1⟩
  cases r with
  | error err =>
    simp [countList, countWatch, countLogs, Effect.isList, Effect.isWatch, Effect.isLogs]
  | ok strm =>
    cases hfail : strm.failure <;>
      simp [hfail, countList, countWatch, countLogs, Effect.isList, Effect.isWatch,
        Effect.isLogs]

/-- A cycle whose snapshot shows a single build in a terminal phase returns the
classification of that build after one `List` call and no `Watch` call. -/
theorem waitForBuildOrTimeout_terminal {σ : Type} (c : BuildClient σ) (name : String)
    (s s1 : σ) (b : Build) (hlist : c.List (listOptions name) s = (Except.ok ⟨[b]⟩, s1))
    (hterm : terminal b.Status.Phase) :
    (waitForBuildOrTimeout c name s).ret = some (false, classification b) ∧
      countList (waitForBuildOrTimeout c name s).trace = 1 ∧
      countWatch (waitForBuildOrTimeout c name s).trace = 0 := by
  by_cases hc : b.Status.Phase = "Complete"
  · rw [waitForBuildOrTimeout_snapshot_ok c name s s1 b hlist ((isOK_iff b).mpr hc)]
    simp [classification, hc, countList, countWatch, Effect.isList, Effect.isWatch]
  · have hok : isOK b = false := by
      cases h : isOK b
      · rfl
      · exact absurd ((isOK_iff b).mp h) hc
    have hf : isFailed b = true := by
      rw [isFailed_iff]
      rcases hterm with h | h
      · exact absurd h hc
      · exact h
    rw [waitForBuildOrTimeout_snapshot_failed c name s s1 b hlist hok hf]
    have hp := printBuildLogs_counts c b.Name s1
    simp only [countList, countWatch, countLogs] at hp
    simp [classification, hc, countList, countWatch, Effect.isList, Effect.isWatch, hp]

/-- Claim C3: when the first `n` observation cycles each show a single
non-terminal job and a watch stream that closes without a terminal event, and
the next snapshot shows a single job in a terminal phase, `waitForBuild` returns
(with any fuel of at least `n + 1` cycles) the classification of that snapshot,
nil for `Complete` and the failure error otherwise, after exactly `n + 1` `List`
calls and exactly `n` `Watch` calls. -/
theorem C3_reconnect_until_terminal {σ : Type} (c : BuildClient σ) (name : String) (n k : Nat)
    (s t s1 : σ) (b : Build) (hd : disconnects c name n s t)
    (hlist : c.List (listOptions name) t = (Except.ok ⟨[b]⟩, s1))
    (hterm : terminal b.Status.Phase) :
    (waitForBuild c name (n + 1 + k) s).ret = some (classification b) ∧
      countList (waitForBuild c name (n + 1 + k) s).trace = n + 1 ∧
      countWatch (waitForBuild c name (n + 1 + k) s).trace = n := by
  obtain ⟨tr, htl, htw, _, hk⟩ := waitForBuildLoop_disconnects c name n s t hd
  obtain ⟨hret, hl, hw⟩ := waitForBuildOrTimeout_terminal c name t s1 b hlist hterm
  have hlast : waitForBuildLoop c name (k + 1) t =
      ⟨some (classification b), (waitForBuildOrTimeout c name t).state,
        (waitForBuildOrTimeout c name t).trace⟩ := by
    rw [waitForBuildLoop]
    simp only [hret]
    cases classification b <;> rfl
  have e : n + 1 + k = n + (k + 1) := by omega
  unfold waitForBuild
  rw [e, hk (k + 1), hlast]
  refine ⟨rfl, ?_, ?_⟩
  · rw [Run.after_trace, Run.after_trace, countList_append, countList_append, htl, hl]
    simp [countList, Effect.isList]
  · rw [Run.after_trace, Run.after_trace, countWatch_append, countWatch_append, htw, hw]
    simp [countWatch, Effect.isWatch]

/-- Witness of C3, the scenario of the specification with `n = 1`: the watch
channel closes with no events and the second snapshot shows `Complete`; the
monitor returns nil after two `List` calls and a single `Watch` call. -/
theorem C3_reconnect_until_terminal_witness :
    (waitForBuild scripted "src" 2 disconnectThenComplete).ret = some none ∧
      countList (waitForBuild scripted "src" 2 disconnectThenComplete).trace = 2 ∧
      countWatch (waitForBuild scripted "src" 2 disconnectThenComplete).trace = 1 :=
  C3_reconnect_until_terminal scripted "src" 1 0 disconnectThenComplete
    { lists := [Except.ok ⟨[mkBuild "ns" "src" "Complete"]⟩] } {}
    (mkBuild "ns" "src" "Complete")
    ⟨{ lists := [Except.ok ⟨[mkBuild "ns" "src" "Complete"]⟩] },
      ⟨mkBuild "ns" "src" "Running", ⟨1, [], true⟩,
        { lists := [Except.ok ⟨[mkBuild "ns" "src" "Complete"]⟩],
          watches := [Except.ok ⟨1, [], true⟩] },
        rfl, by simp [nonTerminal, mkBuild], rfl, rfl, by simp⟩, rfl⟩
    rfl (Or.inl rfl)

/-- Every observation cycle starts with the snapshot `List` call. -/
theorem waitForBuildOrTimeout_trace_head {σ : Type} (c : BuildClient σ) (name : String) (s : σ) :
    ∃ rest, (waitForBuildOrTimeout c name s).trace = Effect.list (listOptions name) :: rest := by
  unfold waitForBuildOrTimeout
  rcases hl : c.List (listOptions name) s with ⟨r, s1⟩
  cases r with
  | error err => exact ⟨_, rfl⟩
  | ok l =>
    simp only
    split
    · split
      · exact ⟨_, rfl⟩
      · split
        · exact ⟨_, rfl⟩
        · rcases hw : c.Watch (watchOptions name) s1 with ⟨rw, s2⟩
          cases rw with
          | error err => exact ⟨_, rfl⟩
          | ok w =>
            simp only
            split <;> exact ⟨_, rfl⟩
    · exact ⟨_, rfl⟩

/-- With fuel for at least one cycle, the loop of `waitForBuild` starts with a
`List` call. -/
theorem waitForBuildLoop_trace_head {σ : Type} (c : BuildClient σ) (name : String)
    (fuel : Nat) (s : σ) :
    ∃ rest, (waitForBuildLoop c name (fuel + 1) s).trace =
      Effect.list (listOptions name) :: rest := by
  obtain ⟨rest, hrest⟩ := waitForBuildOrTimeout_trace_head c name s
  rw [waitForBuildLoop]
  split
  · exact ⟨rest, hrest⟩
  · exact ⟨rest, hrest⟩
  · exact ⟨rest, hrest⟩
  · exact ⟨rest ++ _, by rw [Run.after_trace, hrest]; rfl⟩

/-- A run of `waitForBuild` that returns has made at least one `List` call. -/
theorem waitForBuild_returns_lists {σ : Type} (c : BuildClient σ) (name : String)
    (fuel : Nat) (s : σ) (r : Option GoError) (h : (waitForBuild c name fuel s).ret = some r) :
    1 ≤ countList (waitForBuild c name fuel s).trace := by
  cases fuel with
  | zero => simp [waitForBuild, waitForBuildLoop, Run.after] at h
  | succ fuel =>
    obtain ⟨rest, hrest⟩ := waitForBuildLoop_trace_head c name fuel s
    unfold waitForBuild
    rw [Run.after_trace, hrest]
    simp [countList, Effect.isList]

/-- Claim C4: in non-dry-run mode, when `Create` fails with an error that is not
`AlreadyExists`, `handleBuild` returns that error unchanged and the `Create`
call is its only effect; when `Create` succeeds or fails with `AlreadyExists`,
`handleBuild` is the `Create` call followed by `waitForBuild` on the name of the
build, with the same result in both cases; and `handleBuild` returns the error
of `Create` without any `List`, `Watch` or `Logs` call exactly when `Create`
failed with an error that is not `AlreadyExists`. -/
theorem C4_create_outcomes {σ : Type} (c : BuildClient σ)
    (marshal : Build → Except GoError String) (build : Build) (fuel : Nat) (s : σ) :
    (∀ err s1, c.Create build s = (Except.error err, s1) → IsAlreadyExists err = false →
      handleBuild c marshal build false fuel s = ⟨some (some err), s1, [Effect.create build]⟩) ∧
    (∀ err s1, c.Create build s = (Except.error err, s1) → IsAlreadyExists err = true →
      handleBuild c marshal build false fuel s =
        Run.after [Effect.create build] (waitForBuild c build.Name fuel s1)) ∧
    (∀ created s1, c.Create build s = (Except.ok created, s1) →
      handleBuild c marshal build false fuel s =
        Run.after [Effect.create build] (waitForBuild c build.Name fuel s1)) ∧
    ((∃ err s1, c.Create build s = (Except.error err, s1) ∧
        (handleBuild c marshal build false fuel s).ret = some (some err) ∧
        countList (handleBuild c marshal build false fuel s).trace = 0 ∧
        countWatch (handleBuild c marshal build false fuel s).trace = 0 ∧
        countLogs (handleBuild c marshal build false fuel s).trace = 0) ↔
      ∃ err s1, c.Create build s = (Except.error err, s1) ∧ IsAlreadyExists err = false) := by
  have h1 : ∀ err s1, c.Create build s = (Except.error err, s1) → IsAlreadyExists err = false →
      handleBuild c marshal build false fuel s =
        ⟨some (some err), s1, [Effect.create build]⟩ := by
    intro err s1 hc hae
    simp [handleBuild, hc, hae]
  have h2 : ∀ err s1, c.Create build s = (Except.error err, s1) → IsAlreadyExists err = true →
      handleBuild c marshal build false fuel s =
        Run.after [Effect.create build] (waitForBuild c build.Name fuel s1) := by
    intro err s1 hc hae
    simp [handleBuild, hc, hae]
  have h3 : ∀ created s1, c.Create build s = (Except.ok created, s1) →
      handleBuild c marshal build false fuel s =
        Run.after [Effect.create build] (waitForBuild c build.Name fuel s1) := by
    intro created s1 hc
    simp [handleBuild, hc]
  refine ⟨h1, h2, h3, ?_, ?_⟩
  · rintro ⟨err, s1, hc, hret, hl, _, _⟩
    refine ⟨err, s1, hc, ?_⟩
    cases hae : IsAlreadyExists err
    · rfl
    · rw [h2 err s1 hc hae] at hret hl
      rw [Run.after_ret] at hret
      have := waitForBuild_returns_lists c build.Name fuel s1 _ hret
      rw [Run.after_trace, countList_append] at hl
      omega
  · rintro ⟨err, s1, hc, hae⟩
    refine ⟨err, s1, hc, ?_⟩
    rw [h1 err s1 hc hae]
    simp [countList, countWatch, countLogs, Effect.isList, Effect.isWatch, Effect.isLogs]

/-- Witness of C4: the same build submitted twice.  The first `Create`
succeeds, the second answers `AlreadyExists`; both submissions return nil. -/
theorem C4_create_outcomes_witness :
    (handleBuild scripted marshalName (mkBuild "ns" "src" "") false 1 submitTwice).ret =
        some none ∧
      (handleBuild scripted marshalName (mkBuild "ns" "src" "") false 1
        (handleBuild scripted marshalName (mkBuild "ns" "src" "") false 1
          submitTwice).state).ret = some none :=
  ⟨congrArg Run.ret ((C4_create_outcomes scripted marshalName (mkBuild "ns" "src" "") 1
      submitTwice).2.2.1 (mkBuild "ns" "src" "New")
      { creates := [Except.error alreadyExists],
        lists := [Except.ok ⟨[mkBuild "ns" "src" "Complete"]⟩,
          Except.ok ⟨[mkBuild "ns" "src" "Complete"]⟩] } rfl),
    congrArg Run.ret ((C4_create_outcomes scripted marshalName (mkBuild "ns" "src" "") 1
      { creates := [Except.error alreadyExists],
        lists := [Except.ok ⟨[mkBuild "ns" "src" "Complete"]⟩] }).2.1 alreadyExists
      { lists := [Except.ok ⟨[mkBuild "ns" "src" "Complete"]⟩] } rfl rfl)⟩

theorem failedPhase_isFailed {b : Build} (h : failedPhase b.Status.Phase) :
    isOK b = false ∧ isFailed b = true := by
  have hf : isFailed b = true := (isFailed_iff b).mpr h
  refine ⟨?_, hf⟩
  cases hok : isOK b
  · rfl
  · rw [isOK_not_isFailed b hok] at hf
    exact absurd hf (by decide)

/-- The log helper starts by requesting the logs of the named build with the
fixed options. -/
theorem printBuildLogs_trace_head {σ : Type} (c : BuildClient σ) (name : String) (s : σ) :
    ∃ rest, (printBuildLogs c name s).trace = Effect.logs name printLogOptions :: rest := by
  unfold printBuildLogs
  rcases hl : c.Logs name printLogOptions s with ⟨r, s1⟩
  cases r with
  | error err => exact ⟨_, rfl⟩
  | ok strm =>
    cases hfail : strm.failure
    · simp only [hfail]
      exact ⟨_, rfl⟩
    · simp only [hfail]
      exact ⟨_, rfl⟩

/-- The watch loop reads through a stretch of events with no terminal event. -/
theorem watchLoop_quiet_append {σ : Type} (c : BuildClient σ) (w : Watcher)
    (before evs : List Event) (s : σ)
    (hq : ∀ e ∈ before, carriesComplete e = false ∧ carriesFailure e = false) :
    watchLoop c w (before ++ evs) s =
      Run.after (before.map Effect.recv) (watchLoop c w evs s) := by
  induction before with
  | nil => simp [Run.after]
  | cons ev tl ih =>
    have h := hq ev (List.mem_cons_self _ _)
    rw [List.cons_append, watchLoop_skip c w ev (tl ++ evs) s h.1 h.2,
      ih (fun e he => hq e (List.mem_cons_of_mem _ he))]
    simp [Run.after]

theorem lastObserved_append_of_some (t1 t2 : List Effect) (b : Build)
    (h : lastObserved t2 = some b) : lastObserved (t1 ++ t2) = some b := by
  unfold lastObserved at h ⊢
  rw [List.filterMap_append]
  cases hl : List.filterMap Effect.observed t2 with
  | nil => simp [hl] at h
  | cons x xs =>
    rw [hl] at h
    rw [List.getLast?_append_of_ne_nil _ (by simp), h]

theorem lastObserved_append_of_none (t1 t2 : List Effect)
    (h : List.filterMap Effect.observed t2 = []) : lastObserved (t1 ++ t2) = lastObserved t1 := by
  unfold lastObserved
  rw [List.filterMap_append, h, List.append_nil]

/-- The log helper observes no build status. -/
theorem printBuildLogs_observes_nothing {σ : Type} (c : BuildClient σ) (name : String) (s : σ) :
    List.filterMap Effect.observed (printBuildLogs c name s).trace = [] := by
  unfold printBuildLogs
  rcases hl : c.Logs name printLogOptions s with ⟨r, s1⟩
  cases r with
  | error err => simp [Effect.observed]
  | ok strm => cases hfail : strm.failure <;> simp [hfail, Effect.observed]

/-- A cycle with a terminal-failure classification of `b` returns the failure
error of `b` with retry false, after requesting the logs of `b`, and `b` is the
last status it observed. -/
theorem failureClassified_run {σ : Type} (c : BuildClient σ) (name : String) (s : σ)
    (b : Build) (h : failureClassified c name s b) :
    (waitForBuildOrTimeout c name s).ret = some (false, some (buildFailedError b)) ∧
      Effect.logs b.Name printLogOptions ∈ (waitForBuildOrTimeout c name s).trace ∧
      lastObserved (waitForBuildOrTimeout c name s).trace = some b := by
  rcases h with ⟨s1, hlist, hp⟩ | ⟨b0, s1, w, s2, before, ev, rest, hlist, hnt, hwatch, hev, hq,
    hob, hp⟩
  · obtain ⟨hok, hf⟩ := failedPhase_isFailed hp
    rw [waitForBuildOrTimeout_snapshot_failed c name s s1 b hlist hok hf]
    obtain ⟨tl, htl⟩ := printBuildLogs_trace_head c b.Name s1
    refine ⟨rfl, ?_, ?_⟩
    · simp [htl]
    · have e : (Effect.list (listOptions name) :: Effect.snapshot b ::
          Effect.log (failedLogLine b) :: (printBuildLogs c b.Name s1).trace) =
          [Effect.list (listOptions name), Effect.snapshot b] ++
            (Effect.log (failedLogLine b) :: (printBuildLogs c b.Name s1).trace) := rfl
      simp only []
      rw [e, lastObserved_append_of_none]
      · simp [lastObserved, Effect.observed]
      · simp [Effect.observed, printBuildLogs_observes_nothing]
  · obtain ⟨hok, hf⟩ := failedPhase_isFailed hp
    rw [waitForBuildOrTimeout_watch c name s s1 s2 b0 w hlist (nonTerminal_isOK hnt)
      (nonTerminal_isFailed hnt) hwatch, hev, watchLoop_quiet_append c w before (ev :: rest) s2 hq,
      watchLoop_failed c w ev rest s2 b hob hok hf]
    obtain ⟨tl, htl⟩ := printBuildLogs_trace_head c b.Name s2
    refine ⟨rfl, ?_, ?_⟩
    · simp [Run.after, htl]
    · simp only [Run.after, Option.isSome_some, if_true]
      have e : (Effect.list (listOptions name) :: Effect.snapshot b0 ::
          Effect.watch (watchOptions name) :: Effect.opened w.handle :: ((List.map Effect.recv before ++
            Effect.recv ev :: Effect.log (failedLogLine b) ::
              (printBuildLogs c b.Name s2).trace) ++ [Effect.stop w.handle])) =
          (Effect.list (listOptions name) :: Effect.snapshot b0 ::
            Effect.watch (watchOptions name) :: Effect.opened w.handle :: (List.map Effect.recv before ++
              [Effect.recv ev])) ++ (Effect.log (failedLogLine b) ::
                ((printBuildLogs c b.Name s2).trace ++ [Effect.stop w.handle])) := by
        simp
      rw [e, lastObserved_append_of_none]
      · unfold lastObserved
        have e2 : (Effect.list (listOptions name) :: Effect.snapshot b0 ::
            Effect.watch (watchOptions name) :: Effect.opened w.handle :: (List.map Effect.recv before ++
              [Effect.recv ev])) = (Effect.list (listOptions name) :: Effect.snapshot b0 ::
            Effect.watch (watchOptions name) :: Effect.opened w.handle :: List.map Effect.recv before) ++
              [Effect.recv ev] := by simp
        have e3 : List.filterMap Effect.observed [Effect.recv ev] = [b] := by
          simp [Effect.observed, hob]
        rw [e2, List.filterMap_append, e3, List.getLast?_concat]
      · simp [Effect.observed, printBuildLogs_observes_nothing]

theorem goQuote_failedPhase (p : BuildPhase) (h : failedPhase p) :
    (goQuote p).data = '"' :: (p.data ++ ['"']) := by
  rcases h with h | h | h <;> subst h <;> rfl

theorem buildFailedError_msg_data (b : Build) :
    (buildFailedError b).msg.data =
      "the build ".data ++ b.Namespace.data ++ "/".data ++ b.Name.data ++
        " failed with status ".data ++ (goQuote b.Status.Phase).data := by
  simp [buildFailedError, fmtErrorf, String.data_append]

/-- The failure error names the namespace, the name and the phase of the build
it was made from. -/
theorem buildFailedError_mentions (b : Build) (h : failedPhase b.Status.Phase) :
    occursIn b.Namespace (buildFailedError b).msg ∧ occursIn b.Name (buildFailedError b).msg ∧
      occursIn b.Status.Phase (buildFailedError b).msg := by
  refine ⟨?_, ?_, ?_⟩
  · exact ⟨"the build ".data,
      "/".data ++ b.Name.data ++ " failed with status ".data ++ (goQuote b.Status.Phase).data,
      by rw [buildFailedError_msg_data]; simp⟩
  · exact ⟨"the build ".data ++ b.Namespace.data ++ "/".data,
      " failed with status ".data ++ (goQuote b.Status.Phase).data,
      by rw [buildFailedError_msg_data]; simp⟩
  · exact ⟨"the build ".data ++ b.Namespace.data ++ "/".data ++ b.Name.data ++
        " failed with status ".data ++ ['"'], ['"'],
      by rw [buildFailedError_msg_data, goQuote_failedPhase _ h]; simp⟩

/-- The loop of `waitForBuild` returns the error of a cycle that returns one. -/
theorem waitForBuildLoop_error {σ : Type} (c : BuildClient σ) (name : String) (k : Nat)
    (s : σ) (retry : Bool) (err : GoError)
    (h : (waitForBuildOrTimeout c name s).ret = some (retry, some err)) :
    waitForBuildLoop c name (k + 1) s =
      ⟨some (some err), (waitForBuildOrTimeout c name s).state,
        (waitForBuildOrTimeout c name s).trace⟩ := by
  rw [waitForBuildLoop]
  simp only [h]

/-- Claim C6: the outcome of log retrieval does not influence the result.
Whatever the `Logs` method of the client does (fail to open the stream, return a
stream whose copy fails, or return a stream that is copied completely), a cycle
with a terminal-failure classification of `b` returns the same result: retry
false and the failure error of `b`. -/
theorem C6_logs_do_not_change_result {σ : Type} (c : BuildClient σ) (name : String) (s : σ)
    (b : Build) (hf : failureClassified c name s b)
    (logs : String → BuildLogOptions → σ → Except GoError LogStream × σ) :
    (waitForBuildOrTimeout (c.withLogs logs) name s).ret =
        some (false, some (buildFailedError b)) ∧
      (waitForBuildOrTimeout (c.withLogs logs) name s).ret =
        (waitForBuildOrTimeout c name s).ret := by
  have hf2 : failureClassified (c.withLogs logs) name s b := hf
  rw [(failureClassified_run c name s b hf).1, (failureClassified_run _ name s b hf2).1]
  exact ⟨rfl, rfl⟩

/-- Witness of C6: on a failed snapshot the three outcomes of log retrieval give
the same error. -/
theorem C6_logs_do_not_change_result_witness :
    (waitForBuildOrTimeout (scripted.withLogs logsUnavailable) "src" failedSnapshot).ret =
        some (false, some (buildFailedError (mkBuild "ns" "src" "Failed"))) ∧
      (waitForBuildOrTimeout (scripted.withLogs logsBroken) "src" failedSnapshot).ret =
        some (false, some (buildFailedError (mkBuild "ns" "src" "Failed"))) ∧
      (waitForBuildOrTimeout (scripted.withLogs logsComplete) "src" failedSnapshot).ret =
        some (false, some (buildFailedError (mkBuild "ns" "src" "Failed"))) :=
  ⟨(C6_logs_do_not_change_result scripted "src" failedSnapshot (mkBuild "ns" "src" "Failed")
      (Or.inl ⟨{}, rfl, Or.inl rfl⟩) logsUnavailable).1,
    (C6_logs_do_not_change_result scripted "src" failedSnapshot (mkBuild "ns" "src" "Failed")
      (Or.inl ⟨{}, rfl, Or.inl rfl⟩) logsBroken).1,
    (C6_logs_do_not_change_result scripted "src" failedSnapshot (mkBuild "ns" "src" "Failed")
      (Or.inl ⟨{}, rfl, Or.inl rfl⟩) logsComplete).1⟩

theorem returnKind_after {σ : Type} (c : BuildClient σ) (name : String) (r : Option GoError)
    (tr : List Effect) (final : σ) (t : List Effect) (h : returnKind c name r tr final) :
    returnKind c name r (t ++ tr) final := by
  rcases h with ⟨hr, b, hb, hp⟩ | ⟨b, hr, hb, hp⟩ | h
  · exact Or.inl ⟨hr, b, lastObserved_append_of_some t tr b hb, hp⟩
  · exact Or.inr (Or.inl ⟨b, hr, lastObserved_append_of_some t tr b hb, hp⟩)
  · exact Or.inr (Or.inr h)

theorem closedThenListed_of_not_mem (tr : List Effect)
    (h : ∀ n, Effect.chanClosed n ∉ tr) : closedThenListed tr := by
  intro before n rest heq
  exact absurd (by rw [heq]; simp) (h n)

theorem closedThenListed_append (t1 t2 : List Effect) (h2 : closedThenListed t2)
    (hl : ∃ e ∈ t2, Effect.isList e = true) : closedThenListed (t1 ++ t2) := by
  intro before n rest heq
  rcases List.append_eq_append_iff.mp heq with ⟨a, _, ha⟩ | ⟨a, _, ha⟩
  · exact h2 a n rest ha
  · cases a with
    | nil =>
      simp at ha
      exact h2 [] n rest (by simp [ha])
    | cons x a =>
      simp at ha
      obtain ⟨e, he, hle⟩ := hl
      exact ⟨e, by rw [ha.2]; simp [he], hle⟩

/-- The log helper never reports a closed channel. -/
theorem printBuildLogs_no_chanClosed {σ : Type} (c : BuildClient σ) (name : String) (s : σ)
    (n : Nat) : Effect.chanClosed n ∉ (printBuildLogs c name s).trace := by
  unfold printBuildLogs
  rcases hl : c.Logs name printLogOptions s with ⟨r, s1⟩
  cases r with
  | error err => simp
  | ok strm => cases hfail : strm.failure <;> simp [hfail]

/-- The watch loop reports a closed channel only when it returns `(true, nil)`. -/
theorem watchLoop_chanClosed {σ : Type} (c : BuildClient σ) (w : Watcher) (evs : List Event)
    (s : σ) (n : Nat) (h : Effect.chanClosed n ∈ (watchLoop c w evs s).trace) :
    (watchLoop c w evs s).ret = some (true, none) := by
  induction evs with
  | nil =>
    rw [watchLoop_nil] at h ⊢
    split at h
    · next hc => simp [hc]
    · simp at h
  | cons ev tl ih =>
    cases hc : carriesComplete ev
    · cases hf : carriesFailure ev
      · rw [watchLoop_skip c w ev tl s hc hf] at h ⊢
        rw [Run.after_trace] at h
        simp at h
        exact ih h
      · obtain ⟨b, hb, hok, hfb⟩ := carriesFailure_build hf
        rw [watchLoop_failed c w ev tl s b hb hok hfb] at h
        simp at h
        exact absurd h (printBuildLogs_no_chanClosed c b.Name s n)
    · obtain ⟨b, hb, hok⟩ := carriesComplete_build hc
      rw [watchLoop_ok c w ev tl s b hb hok] at h
      simp at h

/-- What the watch loop returns: a retry with nil error, success after a last
observed status `Complete`, or the failure error of the last observed status. -/
theorem watchLoop_kinds {σ : Type} (c : BuildClient σ) (w : Watcher) (evs : List Event)
    (s : σ) (retry : Bool) (e : Option GoError)
    (h : (watchLoop c w evs s).ret = some (retry, e)) :
    (retry = true ∧ e = none) ∨
    (retry = false ∧ e = none ∧ ∃ b, lastObserved (watchLoop c w evs s).trace = some b ∧
      b.Status.Phase = "Complete") ∨
    (retry = false ∧ ∃ b, e = some (buildFailedError b) ∧
      lastObserved (watchLoop c w evs s).trace = some b ∧ failedPhase b.Status.Phase) := by
  induction evs with
  | nil =>
    rw [watchLoop_nil] at h
    split at h
    · obtain ⟨h1, h2⟩ := Prod.mk.inj (Option.some.inj h)
      exact Or.inl ⟨h1.symm, h2.symm⟩
    · simp at h
  | cons ev tl ih =>
    cases hc : carriesComplete ev
    · cases hf : carriesFailure ev
      · rw [watchLoop_skip c w ev tl s hc hf] at h ⊢
        rw [Run.after_ret] at h
        rcases ih h with h1 | ⟨hr, he, b, hb, hp⟩ | ⟨hr, b, he, hb, hp⟩
        · exact Or.inl h1
        · exact Or.inr (Or.inl ⟨hr, he, b, lastObserved_append_of_some _ _ b hb, hp⟩)
        · exact Or.inr (Or.inr ⟨hr, b, he, lastObserved_append_of_some _ _ b hb, hp⟩)
      · obtain ⟨b, hb, hok, hfb⟩ := carriesFailure_build hf
        rw [watchLoop_failed c w ev tl s b hb hok hfb] at h ⊢
        obtain ⟨h1, h2⟩ := Prod.mk.inj (Option.some.inj h)
        refine Or.inr (Or.inr ⟨h1.symm, b, h2.symm, ?_, (isFailed_iff b).mp hfb⟩)
        have e1 : (Effect.recv ev :: Effect.log (failedLogLine b) ::
            (printBuildLogs c b.Name s).trace) =
            [Effect.recv ev] ++ (Effect.log (failedLogLine b) ::
              (printBuildLogs c b.Name s).trace) := rfl
        simp only []
        rw [e1, lastObserved_append_of_none]
        · simp [lastObserved, Effect.observed, hb]
        · simp [Effect.observed, printBuildLogs_observes_nothing]
    · obtain ⟨b, hb, hok⟩ := carriesComplete_build hc
      rw [watchLoop_ok c w ev tl s b hb hok] at h ⊢
      obtain ⟨h1, h2⟩ := Prod.mk.inj (Option.some.inj h)
      exact Or.inr (Or.inl ⟨h1.symm, h2.symm, b, by simp [lastObserved, Effect.observed, hb],
        (isOK_iff b).mp hok⟩)

theorem waitForBuildOrTimeout_list_error {σ : Type} (c : BuildClient σ) (name : String)
    (s s1 : σ) (err : GoError) (hlist : c.List (listOptions name) s = (Except.error err, s1)) :
    waitForBuildOrTimeout c name s =
      ⟨some (false, some err), s1, [Effect.list (listOptions name)]⟩ := by
  unfold waitForBuildOrTimeout
  simp only [hlist]

theorem waitForBuildOrTimeout_watch_error {σ : Type} (c : BuildClient σ) (name : String)
    (s s1 s2 : σ) (b : Build) (err : GoError)
    (hlist : c.List (listOptions name) s = (Except.ok ⟨[b]⟩, s1))
    (hok : isOK b = false) (hf : isFailed b = false)
    (hwatch : c.Watch (watchOptions name) s1 = (Except.error err, s2)) :
    waitForBuildOrTimeout c name s =
      ⟨some (false, some err), s2,
        [Effect.list (listOptions name), Effect.snapshot b, Effect.watch (watchOptions name)]⟩ := by
  unfold waitForBuildOrTimeout
  simp only [hlist, hok, hf, hwatch]
  rfl

/-- What one observation cycle returns: a retry with nil error, or, with retry
false and no closed channel in its trace, one of the three kinds of return. -/
theorem waitForBuildOrTimeout_kinds {σ : Type} (c : BuildClient σ) (name : String) (s : σ)
    (retry : Bool) (e : Option GoError)
    (h : (waitForBuildOrTimeout c name s).ret = some (retry, e)) :
    (retry = true ∧ e = none) ∨
    (retry = false ∧
      returnKind c name e (waitForBuildOrTimeout c name s).trace
        (waitForBuildOrTimeout c name s).state ∧
      ∀ n, Effect.chanClosed n ∉ (waitForBuildOrTimeout c name s).trace) := by
  rcases hl : c.List (listOptions name) s with ⟨r, s1⟩
  cases r with
  | error err =>
    rw [waitForBuildOrTimeout_list_error c name s s1 err hl] at h ⊢
    obtain ⟨h1, h2⟩ := Prod.mk.inj (Option.some.inj h)
    exact Or.inr ⟨h1.symm, Or.inr (Or.inr ⟨err, h2.symm, Or.inl ⟨s, hl⟩⟩), by simp⟩
  | ok l =>
    by_cases hlen : l.Items.length = 1
    · obtain ⟨b, hb⟩ := List.length_eq_one.mp hlen
      have hl2 : c.List (listOptions name) s = (Except.ok ⟨[b]⟩, s1) := by
        rw [hl, ← hb]
      cases hok : isOK b
      · cases hf : isFailed b
        · rcases hw : c.Watch (watchOptions name) s1 with ⟨rw, s2⟩
          cases rw with
          | error err =>
            rw [waitForBuildOrTimeout_watch_error c name s s1 s2 b err hl2 hok hf hw] at h ⊢
            obtain ⟨h1, h2⟩ := Prod.mk.inj (Option.some.inj h)
            exact Or.inr ⟨h1.symm, Or.inr (Or.inr ⟨err, h2.symm, Or.inr (Or.inr ⟨s1, hw⟩)⟩),
              by simp⟩
          | ok w =>
            rw [waitForBuildOrTimeout_watch c name s s1 s2 b w hl2 hok hf hw] at h ⊢
            simp only [] at h
            have hsome : (watchLoop c w w.events s2).ret.isSome = true := by rw [h]; rfl
            have etr : (Effect.list (listOptions name) :: Effect.snapshot b ::
                Effect.watch (watchOptions name) :: Effect.opened w.handle :: ((watchLoop c w w.events s2).trace ++
                  if (watchLoop c w w.events s2).ret.isSome then [Effect.stop w.handle]
                  else [])) =
                ([Effect.list (listOptions name), Effect.snapshot b,
                  Effect.watch (watchOptions name), Effect.opened w.handle] ++ (watchLoop c w w.events s2).trace) ++
                  [Effect.stop w.handle] := by
              simp [hsome]
            simp only []
            rw [etr]
            have hobs : ∀ b1, lastObserved (watchLoop c w w.events s2).trace = some b1 →
                lastObserved (([Effect.list (listOptions name), Effect.snapshot b,
                  Effect.watch (watchOptions name), Effect.opened w.handle] ++ (watchLoop c w w.events s2).trace) ++
                  [Effect.stop w.handle]) = some b1 := by
              intro b1 hb1
              rw [lastObserved_append_of_none _ _ (by simp [Effect.observed])]
              exact lastObserved_append_of_some _ _ b1 hb1
            have hnc : retry = false → ∀ n, Effect.chanClosed n ∉
                (([Effect.list (listOptions name), Effect.snapshot b,
                  Effect.watch (watchOptions name), Effect.opened w.handle] ++ (watchLoop c w w.events s2).trace) ++
                  [Effect.stop w.handle]) := by
              intro hr n hmem
              simp at hmem
              have := watchLoop_chanClosed c w w.events s2 n hmem
              rw [h, hr] at this
              simp at this
            rcases watchLoop_kinds c w w.events s2 retry e h with
              h1 | ⟨hr, he, b1, hb1, hp⟩ | ⟨hr, b1, he, hb1, hp⟩
            · exact Or.inl h1
            · exact Or.inr ⟨hr, Or.inl ⟨he, b1, hobs b1 hb1, hp⟩, hnc hr⟩
            · exact Or.inr ⟨hr, Or.inr (Or.inl ⟨b1, he, hobs b1 hb1, hp⟩), hnc hr⟩
        · rw [waitForBuildOrTimeout_snapshot_failed c name s s1 b hl2 hok hf] at h ⊢
          obtain ⟨h1, h2⟩ := Prod.mk.inj (Option.some.inj h)
          refine Or.inr ⟨h1.symm, Or.inr (Or.inl ⟨b, h2.symm, ?_, (isFailed_iff b).mp hf⟩), ?_⟩
          · have e1 : (Effect.list (listOptions name) :: Effect.snapshot b ::
                Effect.log (failedLogLine b) :: (printBuildLogs c b.Name s1).trace) =
                [Effect.list (listOptions name), Effect.snapshot b] ++
                  (Effect.log (failedLogLine b) :: (printBuildLogs c b.Name s1).trace) := rfl
            simp only []
            rw [e1, lastObserved_append_of_none]
            · simp [lastObserved, Effect.observed]
            · simp [Effect.observed, printBuildLogs_observes_nothing]
          · intro n hmem
            simp at hmem
            exact absurd hmem (printBuildLogs_no_chanClosed c b.Name s1 n)
      · rw [waitForBuildOrTimeout_snapshot_ok c name s s1 b hl2 hok] at h ⊢
        obtain ⟨h1, h2⟩ := Prod.mk.inj (Option.some.inj h)
        exact Or.inr ⟨h1.symm, Or.inl ⟨h2.symm, b, by simp [lastObserved, Effect.observed],
          (isOK_iff b).mp hok⟩, by simp⟩
    · rw [waitForBuildOrTimeout_not_single c name s s1 l hl hlen] at h ⊢
      obtain ⟨h1, h2⟩ := Prod.mk.inj (Option.some.inj h)
      exact Or.inr ⟨h1.symm, Or.inr (Or.inr ⟨_, h2.symm, Or.inr (Or.inl ⟨s, l, hl, hlen, rfl⟩)⟩),
        by simp⟩

/-- Every return of the loop of `waitForBuild` is of one of the three kinds, and
in its trace every closed channel is followed by a later `List` call. -/
theorem waitForBuildLoop_kinds {σ : Type} (c : BuildClient σ) (name : String) (fuel : Nat) :
    ∀ (s : σ) (r : Option GoError), (waitForBuildLoop c name fuel s).ret = some r →
      returnKind c name r (waitForBuildLoop c name fuel s).trace
        (waitForBuildLoop c name fuel s).state ∧
      closedThenListed (waitForBuildLoop c name fuel s).trace := by
  induction fuel with
  | zero =>
    intro s r h
    simp [waitForBuildLoop] at h
  | succ fuel ih =>
    intro s r h
    rw [waitForBuildLoop] at h ⊢
    rcases hc : (waitForBuildOrTimeout c name s).ret with _ | ⟨retry, e⟩
    · simp only [hc] at h
      simp at h
    · have hk := waitForBuildOrTimeout_kinds c name s retry e hc
      cases e with
      | some err =>
        simp only [hc] at h ⊢
        obtain h1 := Option.some.inj h
        rcases hk with ⟨_, he⟩ | ⟨_, hkind, hnc⟩
        · simp at he
        · rw [← h1]
          exact ⟨hkind, closedThenListed_of_not_mem _ hnc⟩
      | none =>
        cases retry with
        | false =>
          simp only [hc] at h ⊢
          obtain h1 := Option.some.inj h
          rcases hk with ⟨hr, _⟩ | ⟨_, hkind, hnc⟩
          · simp at hr
          · rw [← h1]
            exact ⟨hkind, closedThenListed_of_not_mem _ hnc⟩
        | true =>
          simp only [hc] at h ⊢
          rw [Run.after_ret] at h
          obtain ⟨hkind, hcl⟩ := ih _ r h
          refine ⟨returnKind_after c name r _ _ _ hkind, ?_⟩
          rw [Run.after_trace]
          apply closedThenListed_append _ _ hcl
          cases fuel with
          | zero => simp [waitForBuildLoop] at h
          | succ fuel =>
            obtain ⟨rest, hrest⟩ := waitForBuildLoop_trace_head c name fuel
              (waitForBuildOrTimeout c name s).state
            exact ⟨Effect.list (listOptions name), by rw [hrest]; simp, rfl⟩

/-- Claim C7: every return of `waitForBuild` is of one of three kinds: nil, and
then the last status observed (snapshot item or watch event payload) has phase
`Complete`; the terminal-failure error of the last status observed, whose phase
is `Failed`, `Cancelled` or `Error`; or an unrecoverable error of the last call
(a failed `List`, a lookup that did not find exactly one build, a failed
`Watch`).  A closed watch channel never ends the run: every closing in the
trace is followed by a further `List` call. -/
theorem C7_return_kinds {σ : Type} (c : BuildClient σ) (name : String) (fuel : Nat) (s : σ)
    (r : Option GoError) (h : (waitForBuild c name fuel s).ret = some r) :
    returnKind c name r (waitForBuild c name fuel s).trace (waitForBuild c name fuel s).state ∧
      closedThenListed (waitForBuild c name fuel s).trace := by
  unfold waitForBuild at h ⊢
  rw [Run.after_ret] at h
  obtain ⟨hkind, hcl⟩ := waitForBuildLoop_kinds c name fuel s r h
  refine ⟨returnKind_after c name r _ _ _ hkind, ?_⟩
  rw [Run.after_trace]
  apply closedThenListed_append _ _ hcl
  cases fuel with
  | zero => simp [waitForBuildLoop] at h
  | succ fuel =>
    obtain ⟨rest, hrest⟩ := waitForBuildLoop_trace_head c name fuel s
    exact ⟨Effect.list (listOptions name), by rw [hrest]; simp, rfl⟩

/-- Witness of C7: after one disconnect the second snapshot shows `Complete`;
the run returns nil, of the first kind, and its one closed channel is followed
by the second `List` call. -/
theorem C7_return_kinds_witness :
    returnKind scripted "src" none (waitForBuild scripted "src" 2 disconnectThenComplete).trace
        (waitForBuild scripted "src" 2 disconnectThenComplete).state ∧
      closedThenListed (waitForBuild scripted "src" 2 disconnectThenComplete).trace :=
  C7_return_kinds scripted "src" 2 disconnectThenComplete none rfl

/-- Claim C8: with `dry` set, `handleBuild` leaves the client state unchanged
and makes no `Create`, `List`, `Watch` or `Logs` call; when serialization
succeeds its only effect is to print the serialized build and a newline, and it
returns nil. -/
theorem C8_dry_run {σ : Type} (c : BuildClient σ) (marshal : Build → Except GoError String)
    (build : Build) (fuel : Nat) (s : σ) :
    (handleBuild c marshal build true fuel s).state = s ∧
      (∀ e ∈ (handleBuild c marshal build true fuel s).trace,
        Effect.isCreate e = false ∧ Effect.isList e = false ∧ Effect.isWatch e = false ∧
          Effect.isLogs e = false) ∧
      (∀ buildJSON, marshal build = Except.ok buildJSON →
        handleBuild c marshal build true fuel s =
          ⟨some none, s, [Effect.stdout (buildJSON ++ "\n")]⟩) := by
  unfold handleBuild
  cases hm : marshal build with
  | error err => simp
  | ok js => simp [Effect.isCreate, Effect.isList, Effect.isWatch, Effect.isLogs]

/-- Witness of C8: a dry run on a client whose every call would fail. -/
theorem C8_dry_run_witness :
    handleBuild scripted marshalName (mkBuild "ns" "src" "") true 0 {} =
      ⟨some none, {}, [Effect.stdout ("build:src" ++ "\n")]⟩ :=
  (C8_dry_run scripted marshalName (mkBuild "ns" "src" "") 0 {}).2.2 "build:src" rfl

/-- After `n` disconnect cycles, a cycle that returns an error ends the run of
`waitForBuild` with that error. -/
theorem waitForBuild_disconnects_error {σ : Type} (c : BuildClient σ) (name : String)
    (n k : Nat) (s t : σ) (retry : Bool) (err : GoError) (hd : disconnects c name n s t)
    (h : (waitForBuildOrTimeout c name t).ret = some (retry, some err)) :
    ∃ tr, countList tr = n ∧ countWatch tr = n ∧ countLogs tr = 0 ∧
      waitForBuild c name (n + 1 + k) s =
        ⟨some (some err), (waitForBuildOrTimeout c name t).state,
          tr ++ (waitForBuildOrTimeout c name t).trace⟩ := by
  obtain ⟨tr, hl, hw, hg, hk⟩ := waitForBuildLoop_disconnects c name n s t hd
  refine ⟨Effect.log ("Waiting for build " ++ name ++ " to finish") :: tr, ?_, ?_, ?_, ?_⟩
  · simpa [countList, Effect.isList] using hl
  · simpa [countWatch, Effect.isWatch] using hw
  · simpa [countLogs, Effect.isLogs] using hg
  · have e : n + 1 + k = n + (k + 1) := by omega
    unfold waitForBuild
    rw [e, hk (k + 1), waitForBuildLoop_error c name k t retry err h]
    simp [Run.after]

/-- Claim C9: after any number of disconnect cycles, when the snapshot `List`
call fails, or when the `Watch` call fails after a snapshot showing a single
non-terminal build, `waitForBuild` returns that very error; the failing call is
the last effect of the run, so no `List` or `Watch` call follows it, and no
`Logs` call is made at all. -/
theorem C9_infrastructure_errors {σ : Type} (c : BuildClient σ) (name : String) (n k : Nat)
    (s t : σ) (hd : disconnects c name n s t) :
    (∀ err t1, c.List (listOptions name) t = (Except.error err, t1) →
      (waitForBuild c name (n + 1 + k) s).ret = some (some err) ∧
        (waitForBuild c name (n + 1 + k) s).state = t1 ∧
        (waitForBuild c name (n + 1 + k) s).trace.getLast? =
          some (Effect.list (listOptions name)) ∧
        countList (waitForBuild c name (n + 1 + k) s).trace = n + 1 ∧
        countWatch (waitForBuild c name (n + 1 + k) s).trace = n ∧
        countLogs (waitForBuild c name (n + 1 + k) s).trace = 0) ∧
    (∀ b t1 err t2, c.List (listOptions name) t = (Except.ok ⟨[b]⟩, t1) →
      nonTerminal b.Status.Phase →
      c.Watch (watchOptions name) t1 = (Except.error err, t2) →
      (waitForBuild c name (n + 1 + k) s).ret = some (some err) ∧
        (waitForBuild c name (n + 1 + k) s).state = t2 ∧
        (waitForBuild c name (n + 1 + k) s).trace.getLast? =
          some (Effect.watch (watchOptions name)) ∧
        countList (waitForBuild c name (n + 1 + k) s).trace = n + 1 ∧
        countWatch (waitForBuild c name (n + 1 + k) s).trace = n + 1 ∧
        countLogs (waitForBuild c name (n + 1 + k) s).trace = 0) := by
  constructor
  · intro err t1 hlist
    have hc := waitForBuildOrTimeout_list_error c name t t1 err hlist
    obtain ⟨tr, hl, hw, hg, hrun⟩ := waitForBuild_disconnects_error c name n k s t false err hd
      (by rw [hc])
    rw [hrun, hc]
    refine ⟨rfl, rfl, by simp, ?_, ?_, ?_⟩
    · simp only []
      rw [countList_append, hl]
      simp [countList, Effect.isList]
    · simp only []
      rw [countWatch_append, hw]
      simp [countWatch, Effect.isWatch]
    · simp only []
      rw [countLogs_append, hg]
      simp [countLogs, Effect.isLogs]
  · intro b t1 err t2 hlist hnt hwatch
    have hc := waitForBuildOrTimeout_watch_error c name t t1 t2 b err hlist
      (nonTerminal_isOK hnt) (nonTerminal_isFailed hnt) hwatch
    obtain ⟨tr, hl, hw, hg, hrun⟩ := waitForBuild_disconnects_error c name n k s t false err hd
      (by rw [hc])
    rw [hrun, hc]
    refine ⟨rfl, rfl, ?_, ?_, ?_, ?_⟩
    · simp only []
      rw [List.getLast?_append_of_ne_nil _ (by simp)]
      rfl
    · simp only []
      rw [countList_append, hl]
      simp [countList, Effect.isList]
    · simp only []
      rw [countWatch_append, hw]
      simp [countWatch, Effect.isWatch]
    · simp only []
      rw [countLogs_append, hg]
      simp [countLogs, Effect.isLogs]

/-- Witness of C9: the first snapshot query fails, and, on another client, the
subscription cannot be opened after a snapshot showing `Running`. -/
theorem C9_infrastructure_errors_witness :
    (waitForBuild scripted "src" 1 listFails).ret =
        some (some ⟨"InternalError", "etcd unavailable"⟩) ∧
      (waitForBuild scripted "src" 1 watchFails).ret =
        some (some ⟨"Forbidden", "watch is forbidden"⟩) :=
  ⟨((C9_infrastructure_errors scripted "src" 0 0 listFails listFails rfl).1
      ⟨"InternalError", "etcd unavailable"⟩ {} rfl).1,
    ((C9_infrastructure_errors scripted "src" 0 0 watchFails watchFails rfl).2
      (mkBuild "ns" "src" "Running")
      { watches := [Except.error ⟨"Forbidden", "watch is forbidden"⟩] }
      ⟨"Forbidden", "watch is forbidden"⟩ {} rfl (by simp [nonTerminal, mkBuild]) rfl).1⟩

/-- Claim C10: `imageStreamTagExists` looks up the tag
`PipelineImageStream:reference` once and returns `(true, nil)` exactly when the
`Get` succeeds, `(false, nil)` exactly when it fails with a `NotFound` error,
and `(false, err)`, with `err` the error of `Get` unchanged, exactly when it
fails with any other error. -/
theorem C10_imageStreamTagExists {σ : Type} (reference : String)
    (istClient : ImageStreamTagInterface σ) (s : σ) :
    ((imageStreamTagExists reference istClient s).1 = (true, none) ↔
      ∃ tag s1, istClient.Get (PipelineImageStream ++ ":" ++ reference) s = (Except.ok tag, s1)) ∧
    ((imageStreamTagExists reference istClient s).1 = (false, none) ↔
      ∃ err s1, istClient.Get (PipelineImageStream ++ ":" ++ reference) s =
        (Except.error err, s1) ∧ IsNotFound err = true) ∧
    (∀ err, (imageStreamTagExists reference istClient s).1 = (false, some err) ↔
      ∃ s1, istClient.Get (PipelineImageStream ++ ":" ++ reference) s =
        (Except.error err, s1) ∧ IsNotFound err = false) ∧
    (imageStreamTagExists reference istClient s).2 =
      (istClient.Get (PipelineImageStream ++ ":" ++ reference) s).2 := by
  unfold imageStreamTagExists
  rcases hg : istClient.Get (PipelineImageStream ++ ":" ++ reference) s with ⟨r, s1⟩
  cases r with
  | ok tag => simp
  | error e =>
    cases hnf : IsNotFound e
    · simp only [hnf]
      refine ⟨by simp, by simp [hnf], ?_, rfl⟩
      intro err
      constructor
      · intro h
        obtain ⟨_, h2⟩ := Prod.mk.inj h
        obtain h3 := Option.some.inj h2
        exact ⟨s1, by rw [h3], by rw [← h3]; exact hnf⟩
      · rintro ⟨s2, h, _⟩
        obtain ⟨h1, _⟩ := Prod.mk.inj h
        rw [Except.error.inj h1]
        rfl
    · simp only [hnf]
      refine ⟨by simp, by simp [hnf], ?_, rfl⟩
      intro err
      constructor
      · intro h
        obtain ⟨_, h2⟩ := Prod.mk.inj h
        simp at h2
      · rintro ⟨s2, h, hne⟩
        obtain ⟨h1, _⟩ := Prod.mk.inj h
        rw [Except.error.inj h1, hne] at hnf
        simp at hnf

/-- Witness of C10: the tag `pipeline:src` is in the registry, the tag
`pipeline:bin` is not. -/
theorem C10_imageStreamTagExists_witness :
    (imageStreamTagExists "src" registry 0).1 = (true, none) ∧
      (imageStreamTagExists "bin" registry 0).1 = (false, none) :=
  ⟨(C10_imageStreamTagExists "src" registry 0).1.mpr ⟨"pipeline:src", 1, rfl⟩,
    (C10_imageStreamTagExists "bin" registry 0).2.1.mpr
      ⟨⟨"NotFound", "imagestreamtag not found"⟩, 1, rfl, rfl⟩⟩

/-- Claim C11: `buildFromSource` is a function of the job context, the two tags
and the source, and the build it returns has name `toTag` in the namespace of
the job context; exactly the five labels `persists-between-builds: false`,
`job`, `build-id`, `creates: toTag` and `created-by-ci: true`; the single
annotation `ci.openshift.io/job-spec` holding the raw job spec; the given source
unchanged; a Docker strategy from the image stream tag
`PipelineImageStream:fromTag`, with the variable `JOB_SPEC` set to the raw job
spec; and the image stream tag `PipelineImageStream:toTag` as output, both tags
in the namespace of the job context. -/
theorem C11_buildFromSource_result (jobSpec : JobSpec) (fromTag toTag : String)
    (source : BuildSource) :
    (buildFromSource jobSpec fromTag toTag source).1.Name = toTag ∧
    (buildFromSource jobSpec fromTag toTag source).1.Namespace = jobSpec.Namespace ∧
    (buildFromSource jobSpec fromTag toTag source).1.Labels =
      [("persists-between-builds", "false"), ("job", jobSpec.Job),
        ("build-id", jobSpec.BuildId), ("creates", toTag), ("created-by-ci", "true")] ∧
    (buildFromSource jobSpec fromTag toTag source).1.Annotations =
      [("ci.openshift.io/job-spec", jobSpec.rawSpec)] ∧
    (buildFromSource jobSpec fromTag toTag source).1.Spec.CommonSpec.Source = source ∧
    (buildFromSource jobSpec fromTag toTag source).1.Spec.CommonSpec.Strategy.Typ = "Docker" ∧
    (∃ strategy,
      (buildFromSource jobSpec fromTag toTag source).1.Spec.CommonSpec.Strategy.DockerStrategy =
        some strategy ∧
      strategy.From =
        some ⟨"ImageStreamTag", jobSpec.Namespace, PipelineImageStream ++ ":" ++ fromTag⟩ ∧
      strategy.Env = [⟨"JOB_SPEC", jobSpec.rawSpec⟩]) ∧
    (buildFromSource jobSpec fromTag toTag source).1.Spec.CommonSpec.Output.To =
      some ⟨"ImageStreamTag", jobSpec.Namespace, PipelineImageStream ++ ":" ++ toTag⟩ := by
  cases ho : jobSpec.Owner <;>
    simp [buildFromSource, ho, PersistsLabel, JobLabel, BuildIdLabel, CreatesLabel,
      CreatedByCILabel, JobSpecAnnotation, CiAnnotationPrefix, DockerBuildStrategyType]

/-- Claim C19: the build returned by `buildFromSource` has exactly one owner
reference, the owner of the job context, when the job context has an owner, and
no owner reference when it has none; apart from the owner references, the
returned build and the logged line are the same whatever the owner is. -/
theorem C19_owner_reference (jobSpec : JobSpec) (fromTag toTag : String)
    (source : BuildSource) :
    (∀ owner, jobSpec.Owner = some owner →
      (buildFromSource jobSpec fromTag toTag source).1.OwnerReferences = [owner]) ∧
    (jobSpec.Owner = none →
      (buildFromSource jobSpec fromTag toTag source).1.OwnerReferences = []) ∧
    (∀ other : Option OwnerReference,
      { (buildFromSource { jobSpec with owner := other } fromTag toTag source).1 with
          OwnerReferences := [] } =
        { (buildFromSource jobSpec fromTag toTag source).1 with OwnerReferences := [] } ∧
      (buildFromSource { jobSpec with owner := other } fromTag toTag source).2 =
        (buildFromSource jobSpec fromTag toTag source).2) := by
  refine ⟨?_, ?_, ?_⟩
  · intro owner ho
    simp [buildFromSource, ho]
  · intro ho
    simp [buildFromSource, ho]
  · intro other
    cases other <;> cases ho : jobSpec.owner <;>
      simp [buildFromSource, JobSpec.Owner, JobSpec.Namespace, ho]

/-- Witness of C19: a job context with an owner, and the same context without. -/
theorem C19_owner_reference_witness :
    (buildFromSource ownedJob "base" "src" {}).1.OwnerReferences =
        [{ APIVersion := "v1", Kind := "Namespace", Name := "ci-op-1", UID := "u-1" }] ∧
      (buildFromSource { ownedJob with owner := none } "base" "src" {}).1.OwnerReferences = [] :=
  ⟨(C19_owner_reference ownedJob "base" "src" {}).1 _ rfl,
    (C19_owner_reference { ownedJob with owner := none } "base" "src" {}).2.1 rfl⟩

theorem not_terminal_of_flags {b : Build} (hok : isOK b = false) (hf : isFailed b = false) :
    nonTerminal b.Status.Phase := by
  have h1 : ¬ b.Status.Phase = "Complete" := fun h => by
    rw [(isOK_iff b).mpr h] at hok
    exact absurd hok (by decide)
  have h2 : ¬ (b.Status.Phase = "Failed" ∨ b.Status.Phase = "Cancelled" ∨
      b.Status.Phase = "Error") := fun h => by
    rw [(isFailed_iff b).mpr h] at hf
    exact absurd hf (by decide)
  exact ⟨h1, fun h => h2 (Or.inl h), fun h => h2 (Or.inr (Or.inl h)),
    fun h => h2 (Or.inr (Or.inr h))⟩

/-- Splitting a concatenation at a `Watch` call: the call lies in the first
part or in the second. -/
theorem watch_split (good : List Effect → Prop)
    (hgood : ∀ x before, good before → good (x ++ before)) (t1 t2 : List Effect)
    (h1 : ∀ before rest opts, t1 = before ++ Effect.watch opts :: rest → good before)
    (h2 : ∀ before rest opts, t2 = before ++ Effect.watch opts :: rest → good before) :
    ∀ before rest opts, t1 ++ t2 = before ++ Effect.watch opts :: rest → good before := by
  intro before rest opts heq
  rcases List.append_eq_append_iff.mp heq with ⟨a, hb, ha⟩ | ⟨a, hb, ha⟩
  · rw [hb]
    exact hgood t1 a (h2 a rest opts ha)
  · cases a with
    | nil =>
      simp at ha hb
      have := h2 [] rest opts (by rw [← ha]; rfl)
      have := hgood t1 [] this
      rw [List.append_nil] at this
      rw [← hb]
      exact this
    | cons x a =>
      simp at ha
      exact h1 before a opts (by rw [hb, ha.1])

theorem watchFollowsSnapshot_append (name : String) (t1 t2 : List Effect)
    (h1 : watchFollowsSnapshot name t1) (h2 : watchFollowsSnapshot name t2) :
    watchFollowsSnapshot name (t1 ++ t2) := by
  apply watch_split _ _ t1 t2 h1 h2
  rintro x before ⟨front, b, hb, hn⟩
  exact ⟨x ++ front, b, by rw [hb, List.append_assoc], hn⟩

theorem watchFollowsList_append (name : String) (t1 t2 : List Effect)
    (h1 : watchFollowsList name t1) (h2 : watchFollowsList name t2) :
    watchFollowsList name (t1 ++ t2) := by
  apply watch_split _ _ t1 t2 h1 h2
  rintro x before ⟨front, hb⟩
  exact ⟨x ++ front, by rw [hb, List.append_assoc]⟩

theorem countWatch_pos_of_split (t before rest : List Effect) (opts : ListOptions)
    (h : t = before ++ Effect.watch opts :: rest) : 1 ≤ countWatch t := by
  rw [h, countWatch_append]
  simp only [countWatch, List.countP_cons, Effect.isWatch]
  simp only [if_true]
  omega

theorem watchFollowsSnapshot_of_none (name : String) (t : List Effect)
    (h : countWatch t = 0) : watchFollowsSnapshot name t := by
  intro before rest opts heq
  have := countWatch_pos_of_split t before rest opts heq
  omega

theorem watchFollowsList_of_none (name : String) (t : List Effect)
    (h : countWatch t = 0) : watchFollowsList name t := by
  intro before rest opts heq
  have := countWatch_pos_of_split t before rest opts heq
  omega

theorem countWatch_clientCalls_le (t : List Effect) :
    countWatch (clientCalls t) ≤ countWatch t := by
  induction t with
  | nil => simp [clientCalls, countWatch]
  | cons e tl ih =>
    simp only [clientCalls, countWatch] at ih ⊢
    cases e <;> simp [List.filter, Effect.isClientCall, Effect.isWatch, List.countP_cons] <;> omega

theorem clientCalls_append (t1 t2 : List Effect) :
    clientCalls (t1 ++ t2) = clientCalls t1 ++ clientCalls t2 := by
  simp [clientCalls]

/-- The watch loop makes no `Watch` call. -/
theorem watchLoop_countWatch {σ : Type} (c : BuildClient σ) (w : Watcher) (evs : List Event)
    (s : σ) : countWatch (watchLoop c w evs s).trace = 0 := by
  induction evs with
  | nil =>
    rw [watchLoop_nil]
    split <;> simp [countWatch, Effect.isWatch]
  | cons ev tl ih =>
    cases hc : carriesComplete ev
    · cases hf : carriesFailure ev
      · rw [watchLoop_skip c w ev tl s hc hf, Run.after_trace, countWatch_append, ih]
        simp [countWatch, Effect.isWatch]
      · obtain ⟨b, hb, hok, hfb⟩ := carriesFailure_build hf
        rw [watchLoop_failed c w ev tl s b hb hok hfb]
        have hp := (printBuildLogs_counts c b.Name s).2.1
        simp only [countWatch] at hp ⊢
        simp [Effect.isWatch, hp]
    · obtain ⟨b, hb, hok⟩ := carriesComplete_build hc
      rw [watchLoop_ok c w ev tl s b hb hok]
      simp [countWatch, Effect.isWatch]

/-- The shape of the trace of one cycle, as far as `Watch` calls go: no `Watch`
call at all, or the snapshot `List` call, the inspection of a single
non-terminal item, the `Watch` call, and no further `Watch` call. -/
theorem waitForBuildOrTimeout_watch_shape {σ : Type} (c : BuildClient σ) (name : String)
    (s : σ) :
    countWatch (waitForBuildOrTimeout c name s).trace = 0 ∨
    ∃ b rest, (waitForBuildOrTimeout c name s).trace =
        [Effect.list (listOptions name), Effect.snapshot b] ++
          Effect.watch (watchOptions name) :: rest ∧
      nonTerminal b.Status.Phase ∧ countWatch rest = 0 := by
  rcases hl : c.List (listOptions name) s with ⟨r, s1⟩
  cases r with
  | error err =>
    rw [waitForBuildOrTimeout_list_error c name s s1 err hl]
    exact Or.inl (by simp [countWatch, Effect.isWatch])
  | ok l =>
    by_cases hlen : l.Items.length = 1
    · obtain ⟨b, hb⟩ := List.length_eq_one.mp hlen
      have hl2 : c.List (listOptions name) s = (Except.ok ⟨[b]⟩, s1) := by
        rw [hl, ← hb]
      cases hok : isOK b
      · cases hf : isFailed b
        · rcases hw : c.Watch (watchOptions name) s1 with ⟨rw, s2⟩
          cases rw with
          | error err =>
            rw [waitForBuildOrTimeout_watch_error c name s s1 s2 b err hl2 hok hf hw]
            exact Or.inr ⟨b, [], rfl, not_terminal_of_flags hok hf, rfl⟩
          | ok w =>
            rw [waitForBuildOrTimeout_watch c name s s1 s2 b w hl2 hok hf hw]
            refine Or.inr ⟨b, _, rfl, not_terminal_of_flags hok hf, ?_⟩
            have hw0 := watchLoop_countWatch c w w.events s2
            simp only [countWatch] at hw0 ⊢
            split <;> simp [Effect.isWatch, hw0]
        · rw [waitForBuildOrTimeout_snapshot_failed c name s s1 b hl2 hok hf]
          have hp := (printBuildLogs_counts c b.Name s1).2.1
          simp only [countWatch] at hp ⊢
          exact Or.inl (by simp [Effect.isWatch, hp])
      · rw [waitForBuildOrTimeout_snapshot_ok c name s s1 b hl2 hok]
        exact Or.inl (by simp [countWatch, Effect.isWatch])
    · rw [waitForBuildOrTimeout_not_single c name s s1 l hl hlen]
      exact Or.inl (by simp [countWatch, Effect.isWatch])

theorem waitForBuildOrTimeout_watch_order {σ : Type} (c : BuildClient σ) (name : String)
    (s : σ) :
    watchFollowsSnapshot name (waitForBuildOrTimeout c name s).trace ∧
      watchFollowsList name (clientCalls (waitForBuildOrTimeout c name s).trace) := by
  rcases waitForBuildOrTimeout_watch_shape c name s with h0 | ⟨b, rest, hshape, hnt, hrest⟩
  · have hle := countWatch_clientCalls_le (waitForBuildOrTimeout c name s).trace
    exact ⟨watchFollowsSnapshot_of_none name _ h0,
      watchFollowsList_of_none name _ (by omega)⟩
  · rw [hshape]
    constructor
    · have e : [Effect.list (listOptions name), Effect.snapshot b] ++
          Effect.watch (watchOptions name) :: rest =
          [Effect.list (listOptions name), Effect.snapshot b, Effect.watch (watchOptions name)] ++
            rest := rfl
      rw [e]
      apply watchFollowsSnapshot_append _ _ _ _ (watchFollowsSnapshot_of_none name _ hrest)
      intro before post opts heq
      rcases before with _ | ⟨x, _ | ⟨y, _ | ⟨z, before⟩⟩⟩
      · simp at heq
      · simp at heq
      · simp at heq
        exact ⟨[], b, by simp [heq.1, heq.2.1], hnt⟩
      · simp at heq
    · have e : clientCalls ([Effect.list (listOptions name), Effect.snapshot b] ++
          Effect.watch (watchOptions name) :: rest) =
          [Effect.list (listOptions name), Effect.watch (watchOptions name)] ++
            clientCalls rest := by
        simp [clientCalls, List.filter, Effect.isClientCall]
      rw [e]
      have hle := countWatch_clientCalls_le rest
      apply watchFollowsList_append _ _ _ _ (watchFollowsList_of_none name _ (by omega))
      intro before post opts heq
      rcases before with _ | ⟨x, _ | ⟨y, before⟩⟩
      · simp at heq
      · simp at heq
        exact ⟨[], by simp [heq.1]⟩
      · simp at heq

theorem waitForBuildLoop_watch_order {σ : Type} (c : BuildClient σ) (name : String)
    (fuel : Nat) :
    ∀ s : σ, watchFollowsSnapshot name (waitForBuildLoop c name fuel s).trace ∧
      watchFollowsList name (clientCalls (waitForBuildLoop c name fuel s).trace) := by
  induction fuel with
  | zero =>
    intro s
    exact ⟨watchFollowsSnapshot_of_none name _ rfl, watchFollowsList_of_none name _ rfl⟩
  | succ fuel ih =>
    intro s
    have hc := waitForBuildOrTimeout_watch_order c name s
    rw [waitForBuildLoop]
    split
    · exact hc
    · exact hc
    · exact hc
    · rw [Run.after_trace, clientCalls_append]
      exact ⟨watchFollowsSnapshot_append name _ _ hc.1 (ih _).1,
        watchFollowsList_append name _ _ hc.2 (ih _).2⟩

/-- Claim C12: in every run of `waitForBuild`, complete or not, each `Watch`
call comes directly after the snapshot `List` call of its cycle and the
inspection of the single item that call returned, whose phase is none of
`Complete`, `Failed`, `Cancelled`, `Error`; in the sequence of client calls each
`Watch` call is immediately preceded by a `List` call; and a cycle whose
snapshot shows a single build in a terminal phase returns its classification
without any `Watch` call. -/
theorem C12_snapshot_precedes_watch {σ : Type} (c : BuildClient σ) (name : String)
    (fuel : Nat) (s : σ) :
    watchFollowsSnapshot name (waitForBuild c name fuel s).trace ∧
      watchFollowsList name (clientCalls (waitForBuild c name fuel s).trace) ∧
      ∀ t t1 b, c.List (listOptions name) t = (Except.ok ⟨[b]⟩, t1) →
        terminal b.Status.Phase →
        (waitForBuildOrTimeout c name t).ret = some (false, classification b) ∧
          countWatch (waitForBuildOrTimeout c name t).trace = 0 := by
  obtain ⟨h1, h2⟩ := waitForBuildLoop_watch_order c name fuel s
  unfold waitForBuild
  rw [Run.after_trace, clientCalls_append]
  refine ⟨watchFollowsSnapshot_append name _ _ (watchFollowsSnapshot_of_none name _ rfl) h1,
    watchFollowsList_append name _ _ (watchFollowsList_of_none name _ rfl) h2, ?_⟩
  intro t t1 b hl ht
  obtain ⟨hr, _, hw⟩ := waitForBuildOrTimeout_terminal c name t t1 b hl ht
  exact ⟨hr, hw⟩

/-- Witness of C12: in the run with one disconnect, the only `Watch` call of
the client calls `List, Watch, List` follows the first `List` call. -/
theorem C12_snapshot_precedes_watch_witness :
    clientCalls (waitForBuild scripted "src" 2 disconnectThenComplete).trace =
        [Effect.list (listOptions "src"), Effect.watch (watchOptions "src"),
          Effect.list (listOptions "src")] ∧
      watchFollowsList "src" (clientCalls (waitForBuild scripted "src" 2
        disconnectThenComplete).trace) :=
  ⟨rfl, (C12_snapshot_precedes_watch scripted "src" 2 disconnectThenComplete).2.1⟩

theorem openAfter_append (held : List Nat) (a b : List Effect) :
    openAfter held (a ++ b) = openAfter (openAfter held a) b := by
  induction a generalizing held with
  | nil => rfl
  | cons e tl ih => simp [openAfter, ih]

theorem maxOpen_append (held : List Nat) (a b : List Effect) :
    maxOpen held (a ++ b) = max (maxOpen held a) (maxOpen (openAfter held a) b) := by
  induction a generalizing held with
  | nil =>
    cases b with
    | nil => simp [maxOpen, openAfter]
    | cons e tl => simp [maxOpen, openAfter]
  | cons e tl ih => simp [maxOpen, openAfter, ih, Nat.max_assoc]

theorem openStep_quiet (held : List Nat) (e : Effect) (h1 : Effect.isOpened e = false)
    (h2 : Effect.isStop e = false) : openStep held e = held := by
  cases e <;> simp [openStep, Effect.isOpened, Effect.isStop] at h1 h2 ⊢

theorem openAfter_quiet (held : List Nat) (t : List Effect) (h : noSubscription t) :
    openAfter held t = held := by
  induction t with
  | nil => rfl
  | cons e tl ih =>
    have he := h e (List.mem_cons_self _ _)
    rw [openAfter, openStep_quiet held e he.1 he.2]
    exact ih (fun x hx => h x (List.mem_cons_of_mem _ hx))

theorem maxOpen_quiet (held : List Nat) (t : List Effect) (h : noSubscription t) :
    maxOpen held t = held.length := by
  induction t with
  | nil => rfl
  | cons e tl ih =>
    have he := h e (List.mem_cons_self _ _)
    rw [maxOpen, openStep_quiet held e he.1 he.2,
      ih (fun x hx => h x (List.mem_cons_of_mem _ hx))]
    simp

theorem countStop_quiet (t : List Effect) (h : noSubscription t) : countStop t = 0 := by
  induction t with
  | nil => rfl
  | cons e tl ih =>
    have he := h e (List.mem_cons_self _ _)
    have := ih (fun x hx => h x (List.mem_cons_of_mem _ hx))
    simp only [countStop] at this ⊢
    simp [List.countP_cons, he.2, this]

theorem noSubscription_append (a b : List Effect) (ha : noSubscription a)
    (hb : noSubscription b) : noSubscription (a ++ b) := by
  intro e he
  rcases List.mem_append.mp he with h | h
  · exact ha e h
  · exact hb e h

/-- The log helper neither opens nor stops a subscription. -/
theorem printBuildLogs_noSubscription {σ : Type} (c : BuildClient σ) (name : String) (s : σ) :
    noSubscription (printBuildLogs c name s).trace := by
  unfold printBuildLogs
  rcases hl : c.Logs name printLogOptions s with ⟨r, s1⟩
  cases r with
  | error err =>
    intro e he
    simp at he
    rcases he with h | h <;> subst h <;> exact ⟨rfl, rfl⟩
  | ok strm =>
    cases hfail : strm.failure
    · intro e he
      simp [hfail] at he
      rcases he with h | h | h <;> subst h <;> exact ⟨rfl, rfl⟩
    · intro e he
      simp [hfail] at he
      rcases he with h | h | h | h <;> subst h <;> exact ⟨rfl, rfl⟩

/-- The watch loop neither opens nor stops a subscription. -/
theorem watchLoop_noSubscription {σ : Type} (c : BuildClient σ) (w : Watcher)
    (evs : List Event) (s : σ) : noSubscription (watchLoop c w evs s).trace := by
  induction evs with
  | nil =>
    rw [watchLoop_nil]
    split
    · intro e he
      simp at he
      subst he
      exact ⟨rfl, rfl⟩
    · intro e he
      simp at he
  | cons ev tl ih =>
    cases hc : carriesComplete ev
    · cases hf : carriesFailure ev
      · rw [watchLoop_skip c w ev tl s hc hf, Run.after_trace]
        apply noSubscription_append _ _ _ ih
        intro e he
        simp at he
        subst he
        exact ⟨rfl, rfl⟩
      · obtain ⟨b, hb, hok, hfb⟩ := carriesFailure_build hf
        rw [watchLoop_failed c w ev tl s b hb hok hfb]
        have e1 : (Effect.recv ev :: Effect.log (failedLogLine b) ::
            (printBuildLogs c b.Name s).trace) =
            [Effect.recv ev, Effect.log (failedLogLine b)] ++
              (printBuildLogs c b.Name s).trace := rfl
        simp only []
        rw [e1]
        apply noSubscription_append _ _ _ (printBuildLogs_noSubscription c b.Name s)
        intro e he
        simp at he
        rcases he with h | h <;> subst h <;> exact ⟨rfl, rfl⟩
    · obtain ⟨b, hb, hok⟩ := carriesComplete_build hc
      rw [watchLoop_ok c w ev tl s b hb hok]
      intro e he
      simp at he
      subst he
      exact ⟨rfl, rfl⟩

/-- A cycle that opens a subscription and returns: its trace is an initial part
that opens the subscription and stops nothing, followed by the stop of that
subscription. -/
theorem waitForBuildOrTimeout_stops {σ : Type} (c : BuildClient σ) (name : String)
    (s s1 s2 : σ) (b : Build) (w : Watcher) (v : Bool × Option GoError)
    (hlist : c.List (listOptions name) s = (Except.ok ⟨[b]⟩, s1))
    (hnt : nonTerminal b.Status.Phase)
    (hwatch : c.Watch (watchOptions name) s1 = (Except.ok w, s2))
    (hret : (waitForBuildOrTimeout c name s).ret = some v) :
    ∃ init, (waitForBuildOrTimeout c name s).trace = init ++ [Effect.stop w.handle] ∧
      Effect.opened w.handle ∈ init ∧ countStop init = 0 := by
  rw [waitForBuildOrTimeout_watch c name s s1 s2 b w hlist (nonTerminal_isOK hnt)
    (nonTerminal_isFailed hnt) hwatch] at hret ⊢
  simp only [] at hret
  refine ⟨[Effect.list (listOptions name), Effect.snapshot b, Effect.watch (watchOptions name),
    Effect.opened w.handle] ++ (watchLoop c w w.events s2).trace, ?_, by simp, ?_⟩
  · simp [hret]
  · have hq := countStop_quiet _ (watchLoop_noSubscription c w w.events s2)
    simp only [countStop] at hq ⊢
    simp [List.countP_cons, Effect.isStop, hq]

/-- In one cycle at most one subscription is ever open, and none is left open
when the cycle returns. -/
theorem waitForBuildOrTimeout_open {σ : Type} (c : BuildClient σ) (name : String) (s : σ) :
    maxOpen [] (waitForBuildOrTimeout c name s).trace ≤ 1 ∧
      ((waitForBuildOrTimeout c name s).ret.isSome = true →
        openAfter [] (waitForBuildOrTimeout c name s).trace = []) := by
  rcases hl : c.List (listOptions name) s with ⟨r, s1⟩
  cases r with
  | error err =>
    rw [waitForBuildOrTimeout_list_error c name s s1 err hl]
    simp [maxOpen, openAfter, openStep]
  | ok l =>
    by_cases hlen : l.Items.length = 1
    · obtain ⟨b, hb⟩ := List.length_eq_one.mp hlen
      have hl2 : c.List (listOptions name) s = (Except.ok ⟨[b]⟩, s1) := by
        rw [hl, ← hb]
      cases hok : isOK b
      · cases hf : isFailed b
        · rcases hw : c.Watch (watchOptions name) s1 with ⟨rw, s2⟩
          cases rw with
          | error err =>
            rw [waitForBuildOrTimeout_watch_error c name s s1 s2 b err hl2 hok hf hw]
            simp [maxOpen, openAfter, openStep]
          | ok w =>
            rw [waitForBuildOrTimeout_watch c name s s1 s2 b w hl2 hok hf hw]
            have hq := watchLoop_noSubscription c w w.events s2
            have e : (Effect.list (listOptions name) :: Effect.snapshot b ::
                Effect.watch (watchOptions name) :: Effect.opened w.handle ::
                  ((watchLoop c w w.events s2).trace ++
                    if (watchLoop c w w.events s2).ret.isSome then [Effect.stop w.handle]
                    else [])) =
                [Effect.list (listOptions name), Effect.snapshot b,
                  Effect.watch (watchOptions name), Effect.opened w.handle] ++
                  ((watchLoop c w w.events s2).trace ++
                    if (watchLoop c w w.events s2).ret.isSome then [Effect.stop w.handle]
                    else []) := rfl
            simp only []
            rw [e, maxOpen_append, openAfter_append, maxOpen_append, openAfter_append]
            have h1 : openAfter [] [Effect.list (listOptions name), Effect.snapshot b,
                Effect.watch (watchOptions name), Effect.opened w.handle] = [w.handle] := rfl
            have h2 : maxOpen [] [Effect.list (listOptions name), Effect.snapshot b,
                Effect.watch (watchOptions name), Effect.opened w.handle] = 1 := rfl
            rw [h1, h2, maxOpen_quiet _ _ hq, openAfter_quiet _ _ hq]
            cases hr : (watchLoop c w w.events s2).ret.isSome <;>
              simp [maxOpen, openAfter, openStep]
        · rw [waitForBuildOrTimeout_snapshot_failed c name s s1 b hl2 hok hf]
          have hq := printBuildLogs_noSubscription c b.Name s1
          have e : (Effect.list (listOptions name) :: Effect.snapshot b ::
              Effect.log (failedLogLine b) :: (printBuildLogs c b.Name s1).trace) =
              [Effect.list (listOptions name), Effect.snapshot b,
                Effect.log (failedLogLine b)] ++ (printBuildLogs c b.Name s1).trace := rfl
          simp only []
          rw [e, maxOpen_append, openAfter_append]
          have h1 : openAfter [] [Effect.list (listOptions name), Effect.snapshot b,
              Effect.log (failedLogLine b)] = [] := rfl
          have h2 : maxOpen [] [Effect.list (listOptions name), Effect.snapshot b,
              Effect.log (failedLogLine b)] = 0 := rfl
          rw [h1, h2, maxOpen_quiet _ _ hq, openAfter_quiet _ _ hq]
          simp
      · rw [waitForBuildOrTimeout_snapshot_ok c name s s1 b hl2 hok]
        simp [maxOpen, openAfter, openStep]
    · rw [waitForBuildOrTimeout_not_single c name s s1 l hl hlen]
      simp [maxOpen, openAfter, openStep]

theorem waitForBuildLoop_open {σ : Type} (c : BuildClient σ) (name : String) (fuel : Nat) :
    ∀ s : σ, maxOpen [] (waitForBuildLoop c name fuel s).trace ≤ 1 ∧
      ((waitForBuildLoop c name fuel s).ret.isSome = true →
        openAfter [] (waitForBuildLoop c name fuel s).trace = []) := by
  induction fuel with
  | zero =>
    intro s
    simp [waitForBuildLoop, maxOpen, openAfter]
  | succ fuel ih =>
    intro s
    have hc := waitForBuildOrTimeout_open c name s
    rw [waitForBuildLoop]
    rcases hr : (waitForBuildOrTimeout c name s).ret with _ | ⟨retry, e⟩
    · simp only [hr]
      exact ⟨hc.1, by simp⟩
    · have hcl := hc.2 (by rw [hr]; rfl)
      cases e with
      | some err =>
        simp only [hr]
        exact ⟨hc.1, fun _ => hcl⟩
      | none =>
        cases retry with
        | false =>
          simp only [hr]
          exact ⟨hc.1, fun _ => hcl⟩
        | true =>
          simp only [hr]
          rw [Run.after_trace, Run.after_ret, maxOpen_append, openAfter_append, hcl]
          exact ⟨Nat.max_le.mpr ⟨hc.1, (ih _).1⟩, (ih _).2⟩

/-- Claim C13: a cycle of `waitForBuildOrTimeout` that opens a subscription and
returns, by whichever exit path, stops that subscription exactly once, as its
last effect; hence in a run of `waitForBuild` at most one subscription is open
at any point, and none is open when the run returns. -/
theorem C13_subscription_released {σ : Type} (c : BuildClient σ) (name : String)
    (fuel : Nat) (s : σ) :
    (∀ t t1 t2 b w v, c.List (listOptions name) t = (Except.ok ⟨[b]⟩, t1) →
      nonTerminal b.Status.Phase →
      c.Watch (watchOptions name) t1 = (Except.ok w, t2) →
      (waitForBuildOrTimeout c name t).ret = some v →
      ∃ init, (waitForBuildOrTimeout c name t).trace = init ++ [Effect.stop w.handle] ∧
        Effect.opened w.handle ∈ init ∧ countStop init = 0) ∧
    maxOpen [] (waitForBuild c name fuel s).trace ≤ 1 ∧
    ((waitForBuild c name fuel s).ret.isSome = true →
      openAfter [] (waitForBuild c name fuel s).trace = []) := by
  refine ⟨?_, ?_, ?_⟩
  · intro t t1 t2 b w v hl hnt hw hret
    exact waitForBuildOrTimeout_stops c name t t1 t2 b w v hl hnt hw hret
  · unfold waitForBuild
    rw [Run.after_trace]
    simpa [maxOpen, openStep] using (waitForBuildLoop_open c name fuel s).1
  · unfold waitForBuild
    rw [Run.after_trace, Run.after_ret]
    simpa [openAfter, openStep] using (waitForBuildLoop_open c name fuel s).2

/-- Witness of C13 on the failure exit path: the watch delivers a failed build;
the cycle ends by stopping subscription 1, which it has not stopped before. -/
theorem C13_subscription_released_witness :
    ∃ init, (waitForBuildOrTimeout scripted "src" runningThenFailed).trace =
        init ++ [Effect.stop 1] ∧ Effect.opened 1 ∈ init ∧ countStop init = 0 :=
  (C13_subscription_released scripted "src" 1 runningThenFailed).1 runningThenFailed
    { watches := [Except.ok ⟨1, [modified "Running", modified "Failed"], true⟩],
      logs := [Except.ok ⟨7, "step 1\n", none⟩] }
    { logs := [Except.ok ⟨7, "step 1\n", none⟩] }
    (mkBuild "ns" "src" "Running") ⟨1, [modified "Running", modified "Failed"], true⟩
    (false, some (buildFailedError (mkBuild "ns" "src" "Failed")))
    rfl (by simp [nonTerminal, mkBuild]) rfl rfl

/-- The watch loop returns what the events alone decide. -/
theorem watchLoop_ret_verdict {σ : Type} (c : BuildClient σ) (w : Watcher) (evs : List Event)
    (s : σ) : (watchLoop c w evs s).ret = verdict w.closes evs := by
  induction evs with
  | nil =>
    rw [watchLoop_nil, verdict]
    split <;> rfl
  | cons ev tl ih =>
    rw [watchLoop, verdict]
    cases hb : ev.Object with
    | build b =>
      cases hok : isOK b
      · cases hf : isFailed b
        · simp [hok, hf, Run.after_ret, ih]
        · simp [hok, hf]
      · simp [hok]
    | other k =>
      simp [Run.after_ret, ih]

theorem verdict_quiet (closes : Bool) (ev : Event) (rest : List Event) (h : quietEvent ev) :
    verdict closes (ev :: rest) = verdict closes rest := by
  rw [verdict]
  unfold quietEvent at h
  cases hb : ev.Object with
  | build b =>
    rw [hb] at h
    simp [nonTerminal_isOK h, nonTerminal_isFailed h]
  | other k => rfl

theorem verdict_cons_congr (closes : Bool) (ev : Event) (a b : List Event)
    (h : verdict closes a = verdict closes b) :
    verdict closes (ev :: a) = verdict closes (ev :: b) := by
  rw [verdict, verdict, h]

theorem InsertQuiet.refl (evs : List Event) : InsertQuiet evs evs := by
  induction evs with
  | nil => exact InsertQuiet.nil
  | cons ev tl ih => exact InsertQuiet.keep ev ih

/-- Inserting non-terminal events does not change what the events decide. -/
theorem verdict_insertQuiet (closes : Bool) (short long : List Event)
    (h : InsertQuiet short long) : verdict closes long = verdict closes short := by
  induction h with
  | nil => rfl
  | keep ev _ ih => exact verdict_cons_congr closes ev _ _ ih
  | insert ev hq _ ih => rw [verdict_quiet closes ev _ hq, ih]

/-- What the events decide depends on their payloads only. -/
theorem verdict_objects (closes : Bool) (evs1 : List Event) :
    ∀ evs2 : List Event, evs1.map Event.Object = evs2.map Event.Object →
      verdict closes evs1 = verdict closes evs2 := by
  induction evs1 with
  | nil =>
    intro evs2 h
    cases evs2 with
    | nil => rfl
    | cons e tl => simp at h
  | cons ev tl ih =>
    intro evs2 h
    cases evs2 with
    | nil => simp at h
    | cons e2 tl2 =>
      simp at h
      rw [verdict, verdict, h.1, ih tl2 h.2]

/-- Rewriting the events of the subscriptions in a way that does not change
what they decide does not change the result of a cycle. -/
theorem waitForBuildOrTimeout_ret_mapEvents {σ : Type} (c : BuildClient σ)
    (f : List Event → List Event) (name : String) (s : σ)
    (hv : ∀ closes evs, verdict closes (f evs) = verdict closes evs) :
    (waitForBuildOrTimeout (mapEvents c f) name s).ret = (waitForBuildOrTimeout c name s).ret := by
  rcases hl : c.List (listOptions name) s with ⟨r, s1⟩
  have hl' : (mapEvents c f).List (listOptions name) s = (r, s1) := hl
  cases r with
  | error err =>
    rw [waitForBuildOrTimeout_list_error c name s s1 err hl,
      waitForBuildOrTimeout_list_error (mapEvents c f) name s s1 err hl']
  | ok l =>
    by_cases hlen : l.Items.length = 1
    · obtain ⟨b, hb⟩ := List.length_eq_one.mp hlen
      have hl2 : c.List (listOptions name) s = (Except.ok ⟨[b]⟩, s1) := by
        rw [hl, ← hb]
      have hl2' : (mapEvents c f).List (listOptions name) s = (Except.ok ⟨[b]⟩, s1) := hl2
      cases hok : isOK b
      · cases hf : isFailed b
        · rcases hw : c.Watch (watchOptions name) s1 with ⟨rw, s2⟩
          cases rw with
          | error err =>
            have hw' : (mapEvents c f).Watch (watchOptions name) s1 = (Except.error err, s2) := by
              simp [mapEvents, hw]
            rw [waitForBuildOrTimeout_watch_error c name s s1 s2 b err hl2 hok hf hw,
              waitForBuildOrTimeout_watch_error (mapEvents c f) name s s1 s2 b err hl2' hok hf
                hw']
          | ok w =>
            have hw' : (mapEvents c f).Watch (watchOptions name) s1 =
                (Except.ok { w with events := f w.events }, s2) := by
              simp [mapEvents, hw]
            rw [waitForBuildOrTimeout_watch c name s s1 s2 b w hl2 hok hf hw,
              waitForBuildOrTimeout_watch (mapEvents c f) name s s1 s2 b _ hl2' hok hf hw']
            simp only [watchLoop_ret_verdict]
            exact hv w.closes w.events
        · rw [waitForBuildOrTimeout_snapshot_failed c name s s1 b hl2 hok hf,
            waitForBuildOrTimeout_snapshot_failed (mapEvents c f) name s s1 b hl2' hok hf]
      · rw [waitForBuildOrTimeout_snapshot_ok c name s s1 b hl2 hok,
          waitForBuildOrTimeout_snapshot_ok (mapEvents c f) name s s1 b hl2' hok]
    · rw [waitForBuildOrTimeout_not_single c name s s1 l hl hlen,
        waitForBuildOrTimeout_not_single (mapEvents c f) name s s1 l hl' hlen]

/-- Claim C14: events that are not terminal are ignored.  When the events of
the subscription are replaced by the same events with non-terminal events
(payload not a build, or a build in a phase other than `Complete`, `Failed`,
`Cancelled`, `Error`) inserted at any positions, `waitForBuildOrTimeout` returns
the same retry flag and the same error; the same holds for the watch loop on
any two such sequences. -/
theorem C14_quiet_events_ignored {σ : Type} (c : BuildClient σ) (name : String) (s : σ)
    (f : List Event → List Event) (hf : ∀ evs, InsertQuiet evs (f evs)) :
    (waitForBuildOrTimeout (mapEvents c f) name s).ret = (waitForBuildOrTimeout c name s).ret ∧
      ∀ (w : Watcher) (short long : List Event) (t : σ), InsertQuiet short long →
        (watchLoop c w long t).ret = (watchLoop c w short t).ret := by
  constructor
  · exact waitForBuildOrTimeout_ret_mapEvents c f name s
      (fun closes evs => verdict_insertQuiet closes evs (f evs) (hf evs))
  · intro w short long t h
    rw [watchLoop_ret_verdict, watchLoop_ret_verdict]
    exact verdict_insertQuiet w.closes short long h

/-- Witness of C14: an `Added` event for an unrelated object in front of the
`Complete` event does not change the success of the cycle. -/
theorem C14_quiet_events_ignored_witness :
    (waitForBuildOrTimeout (mapEvents scripted withUnrelated) "src" runningThenComplete).ret =
      some (false, none) :=
  (C14_quiet_events_ignored scripted "src" runningThenComplete withUnrelated
    (fun evs => InsertQuiet.insert _ trivial (InsertQuiet.refl evs))).1.trans rfl

/-- Claim C18: the classification in the watch phase depends on the payloads
only, never on the event types.  When the events of the subscription are
replaced by events with the same payloads, `waitForBuildOrTimeout` returns the
same result; in particular after a `Deleted` event carrying a build in a
non-terminal phase the watch loop goes on with the following events. -/
theorem C18_event_type_ignored {σ : Type} (c : BuildClient σ) (name : String) (s : σ)
    (f : List Event → List Event)
    (hf : ∀ evs, (f evs).map Event.Object = evs.map Event.Object) :
    (waitForBuildOrTimeout (mapEvents c f) name s).ret = (waitForBuildOrTimeout c name s).ret ∧
      (∀ (w : Watcher) (evs1 evs2 : List Event) (t : σ),
        evs1.map Event.Object = evs2.map Event.Object →
        (watchLoop c w evs1 t).ret = (watchLoop c w evs2 t).ret) ∧
      ∀ (w : Watcher) (b : Build) (rest : List Event) (t : σ),
        nonTerminal b.Status.Phase →
        watchLoop c w (⟨EventType.Deleted, RuntimeObject.build b⟩ :: rest) t =
          Run.after [Effect.recv ⟨EventType.Deleted, RuntimeObject.build b⟩]
            (watchLoop c w rest t) := by
  refine ⟨?_, ?_, ?_⟩
  · exact waitForBuildOrTimeout_ret_mapEvents c f name s
      (fun closes evs => verdict_objects closes (f evs) evs (hf evs))
  · intro w evs1 evs2 t h
    rw [watchLoop_ret_verdict, watchLoop_ret_verdict]
    exact verdict_objects w.closes evs1 evs2 h
  · intro w b rest t hnt
    apply watchLoop_skip
    · simpa [carriesComplete] using hnt.1
    · simpa [carriesFailure] using ⟨⟨hnt.2.1, hnt.2.2.1⟩, hnt.2.2.2⟩

/-- Witness of C18: with every event turned into a `Deleted` event the cycle
still returns success on the `Complete` build. -/
theorem C18_event_type_ignored_witness :
    (waitForBuildOrTimeout (mapEvents scripted allDeleted) "src" runningThenComplete).ret =
      some (false, none) :=
  (C18_event_type_ignored scripted "src" runningThenComplete allDeleted
    (fun evs => by simp [allDeleted, Function.comp_def])).1.trans rfl

/-- The trace of the log helper, case by case. -/
theorem printBuildLogs_trace {σ : Type} (c : BuildClient σ) (name : String) (s : σ) :
    (∀ strm s1, c.Logs name printLogOptions s = (Except.ok strm, s1) → strm.failure = none →
      (printBuildLogs c name s).trace =
        [Effect.logs name printLogOptions, Effect.stdout strm.data,
          Effect.close strm.handle]) ∧
    (∀ strm s1 err, c.Logs name printLogOptions s = (Except.ok strm, s1) →
      strm.failure = some err →
      (printBuildLogs c name s).trace =
        [Effect.logs name printLogOptions, Effect.stdout strm.data,
          Effect.log ("error: Unable to copy log output from failed build: " ++ err.msg),
          Effect.close strm.handle]) ∧
    (∀ err s1, c.Logs name printLogOptions s = (Except.error err, s1) →
      (printBuildLogs c name s).trace =
        [Effect.logs name printLogOptions,
          Effect.log ("error: Unable to retrieve logs from failed build: " ++ err.msg)]) := by
  refine ⟨?_, ?_, ?_⟩
  · intro strm s1 hl hfail
    simp [printBuildLogs, hl, hfail]
  · intro strm s1 err hl hfail
    simp [printBuildLogs, hl, hfail]
  · intro err s1 hl
    simp [printBuildLogs, hl]

theorem printBuildLogs_logRequests {σ : Type} (c : BuildClient σ) (name : String) (s : σ) :
    logRequests (printBuildLogs c name s).trace = [Effect.logs name noWaitTimestamps] := by
  obtain ⟨h1, h2, h3⟩ := printBuildLogs_trace c name s
  rcases hl : c.Logs name printLogOptions s with ⟨r, s1⟩
  cases r with
  | error err =>
    rw [h3 err s1 hl]
    rfl
  | ok strm =>
    cases hfail : strm.failure with
    | none =>
      rw [h1 strm s1 hl hfail]
      rfl
    | some err =>
      rw [h2 strm s1 err hl hfail]
      rfl

theorem logRequests_append (a b : List Effect) :
    logRequests (a ++ b) = logRequests a ++ logRequests b := by
  simp [logRequests]

theorem logRequests_map_recv (evs : List Event) : logRequests (evs.map Effect.recv) = [] := by
  induction evs with
  | nil => rfl
  | cons ev tl ih =>
    simp only [logRequests] at ih
    simp [logRequests, List.filter, Effect.isLogs, ih]

/-- A cycle with a terminal-failure classification of `b` makes exactly one
`Logs` call, for the name of `b`, with the fixed options. -/
theorem failureClassified_logRequests {σ : Type} (c : BuildClient σ) (name : String) (s : σ)
    (b : Build) (h : failureClassified c name s b) :
    logRequests (waitForBuildOrTimeout c name s).trace =
      [Effect.logs b.Name noWaitTimestamps] := by
  rcases h with ⟨s1, hlist, hp⟩ | ⟨b0, s1, w, s2, before, ev, rest, hlist, hnt, hwatch, hev, hq,
    hob, hp⟩
  · obtain ⟨hok, hf⟩ := failedPhase_isFailed hp
    rw [waitForBuildOrTimeout_snapshot_failed c name s s1 b hlist hok hf]
    have e : (Effect.list (listOptions name) :: Effect.snapshot b ::
        Effect.log (failedLogLine b) :: (printBuildLogs c b.Name s1).trace) =
        [Effect.list (listOptions name), Effect.snapshot b, Effect.log (failedLogLine b)] ++
          (printBuildLogs c b.Name s1).trace := rfl
    simp only []
    rw [e, logRequests_append, printBuildLogs_logRequests]
    rfl
  · obtain ⟨hok, hf⟩ := failedPhase_isFailed hp
    rw [waitForBuildOrTimeout_watch c name s s1 s2 b0 w hlist (nonTerminal_isOK hnt)
      (nonTerminal_isFailed hnt) hwatch, hev, watchLoop_quiet_append c w before (ev :: rest) s2 hq,
      watchLoop_failed c w ev rest s2 b hob hok hf]
    have e : (Effect.list (listOptions name) :: Effect.snapshot b0 ::
        Effect.watch (watchOptions name) :: Effect.opened w.handle ::
          ((List.map Effect.recv before ++ Effect.recv ev :: Effect.log (failedLogLine b) ::
            (printBuildLogs c b.Name s2).trace) ++ [Effect.stop w.handle])) =
        [Effect.list (listOptions name), Effect.snapshot b0, Effect.watch (watchOptions name),
          Effect.opened w.handle] ++ (List.map Effect.recv before ++
            ([Effect.recv ev, Effect.log (failedLogLine b)] ++
              ((printBuildLogs c b.Name s2).trace ++ [Effect.stop w.handle]))) := by
      simp
    simp only [Run.after, Option.isSome_some, if_true]
    rw [e, logRequests_append, logRequests_append, logRequests_append, logRequests_append,
      printBuildLogs_logRequests, logRequests_map_recv]
    rfl

theorem logOptionsFixed_append (a b : List Effect) (ha : logOptionsFixed a)
    (hb : logOptionsFixed b) : logOptionsFixed (a ++ b) := by
  intro name opts hmem
  rcases List.mem_append.mp hmem with h | h
  · exact ha name opts h
  · exact hb name opts h

theorem logOptionsFixed_of_none (t : List Effect) (h : countLogs t = 0) :
    logOptionsFixed t := by
  intro name opts hmem
  have : 0 < countLogs t := by
    unfold countLogs
    exact List.countP_pos_iff.mpr ⟨_, hmem, rfl⟩
  omega

theorem printBuildLogs_logOptionsFixed {σ : Type} (c : BuildClient σ) (name : String) (s : σ) :
    logOptionsFixed (printBuildLogs c name s).trace := by
  intro nm opts hmem
  have hin : Effect.logs nm opts ∈ logRequests (printBuildLogs c name s).trace := by
    unfold logRequests
    exact List.mem_filter.mpr ⟨hmem, rfl⟩
  rw [printBuildLogs_logRequests] at hin
  simp at hin
  exact hin.2

theorem watchLoop_logOptionsFixed {σ : Type} (c : BuildClient σ) (w : Watcher)
    (evs : List Event) (s : σ) : logOptionsFixed (watchLoop c w evs s).trace := by
  induction evs with
  | nil =>
    rw [watchLoop_nil]
    split <;> exact logOptionsFixed_of_none _ rfl
  | cons ev tl ih =>
    cases hc : carriesComplete ev
    · cases hf : carriesFailure ev
      · rw [watchLoop_skip c w ev tl s hc hf, Run.after_trace]
        exact logOptionsFixed_append _ _ (logOptionsFixed_of_none _ rfl) ih
      · obtain ⟨b, hb, hok, hfb⟩ := carriesFailure_build hf
        rw [watchLoop_failed c w ev tl s b hb hok hfb]
        have e1 : (Effect.recv ev :: Effect.log (failedLogLine b) ::
            (printBuildLogs c b.Name s).trace) =
            [Effect.recv ev, Effect.log (failedLogLine b)] ++
              (printBuildLogs c b.Name s).trace := rfl
        simp only []
        rw [e1]
        exact logOptionsFixed_append _ _ (logOptionsFixed_of_none _ rfl)
          (printBuildLogs_logOptionsFixed c b.Name s)
    · obtain ⟨b, hb, hok⟩ := carriesComplete_build hc
      rw [watchLoop_ok c w ev tl s b hb hok]
      exact logOptionsFixed_of_none _ rfl

theorem waitForBuildOrTimeout_logOptionsFixed {σ : Type} (c : BuildClient σ) (name : String)
    (s : σ) : logOptionsFixed (waitForBuildOrTimeout c name s).trace := by
  rcases hl : c.List (listOptions name) s with ⟨r, s1⟩
  cases r with
  | error err =>
    rw [waitForBuildOrTimeout_list_error c name s s1 err hl]
    exact logOptionsFixed_of_none _ rfl
  | ok l =>
    by_cases hlen : l.Items.length = 1
    · obtain ⟨b, hb⟩ := List.length_eq_one.mp hlen
      have hl2 : c.List (listOptions name) s = (Except.ok ⟨[b]⟩, s1) := by
        rw [hl, ← hb]
      cases hok : isOK b
      · cases hf : isFailed b
        · rcases hw : c.Watch (watchOptions name) s1 with ⟨rw, s2⟩
          cases rw with
          | error err =>
            rw [waitForBuildOrTimeout_watch_error c name s s1 s2 b err hl2 hok hf hw]
            exact logOptionsFixed_of_none _ rfl
          | ok w =>
            rw [waitForBuildOrTimeout_watch c name s s1 s2 b w hl2 hok hf hw]
            have e : (Effect.list (listOptions name) :: Effect.snapshot b ::
                Effect.watch (watchOptions name) :: Effect.opened w.handle ::
                  ((watchLoop c w w.events s2).trace ++
                    if (watchLoop c w w.events s2).ret.isSome then [Effect.stop w.handle]
                    else [])) =
                [Effect.list (listOptions name), Effect.snapshot b,
                  Effect.watch (watchOptions name), Effect.opened w.handle] ++
                  ((watchLoop c w w.events s2).trace ++
                    if (watchLoop c w w.events s2).ret.isSome then [Effect.stop w.handle]
                    else []) := rfl
            simp only []
            rw [e]
            refine logOptionsFixed_append _ _ (logOptionsFixed_of_none _ rfl)
              (logOptionsFixed_append _ _ (watchLoop_logOptionsFixed c w w.events s2) ?_)
            split <;> exact logOptionsFixed_of_none _ rfl
        · rw [waitForBuildOrTimeout_snapshot_failed c name s s1 b hl2 hok hf]
          have e : (Effect.list (listOptions name) :: Effect.snapshot b ::
              Effect.log (failedLogLine b) :: (printBuildLogs c b.Name s1).trace) =
              [Effect.list (listOptions name), Effect.snapshot b,
                Effect.log (failedLogLine b)] ++ (printBuildLogs c b.Name s1).trace := rfl
          simp only []
          rw [e]
          exact logOptionsFixed_append _ _ (logOptionsFixed_of_none _ rfl)
            (printBuildLogs_logOptionsFixed c b.Name s1)
      · rw [waitForBuildOrTimeout_snapshot_ok c name s s1 b hl2 hok]
        exact logOptionsFixed_of_none _ rfl
    · rw [waitForBuildOrTimeout_not_single c name s s1 l hl hlen]
      exact logOptionsFixed_of_none _ rfl

theorem waitForBuildLoop_logOptionsFixed {σ : Type} (c : BuildClient σ) (name : String)
    (fuel : Nat) : ∀ s : σ, logOptionsFixed (waitForBuildLoop c name fuel s).trace := by
  induction fuel with
  | zero =>
    intro s
    exact logOptionsFixed_of_none _ rfl
  | succ fuel ih =>
    intro s
    have hc := waitForBuildOrTimeout_logOptionsFixed c name s
    rw [waitForBuildLoop]
    split
    · exact hc
    · exact hc
    · exact hc
    · rw [Run.after_trace]
      exact logOptionsFixed_append _ _ hc (ih _)

/-- The `Logs` labels of the traces: the log helper writes one, for the name it
is given, with the fixed options; so does a cycle with a terminal-failure
classification of `b`, for the name of `b`; and every `Logs` label in a run of
`waitForBuild` carries the fixed options. -/
theorem monitor_log_labels {σ : Type} (c : BuildClient σ) (name : String)
    (fuel : Nat) (s : σ) :
    logRequests (printBuildLogs c name s).trace = [Effect.logs name noWaitTimestamps] ∧
      (∀ t b, failureClassified c name t b →
        logRequests (waitForBuildOrTimeout c name t).trace =
          [Effect.logs b.Name noWaitTimestamps]) ∧
      logOptionsFixed (waitForBuild c name fuel s).trace := by
  refine ⟨printBuildLogs_logRequests c name s,
    fun t b h => failureClassified_logRequests c name t b h, ?_⟩
  unfold waitForBuild
  rw [Run.after_trace]
  exact logOptionsFixed_append _ _ (logOptionsFixed_of_none _ rfl)
    (waitForBuildLoop_logOptionsFixed c name fuel s)

/-- Claim C16: when `Logs` returns a stream, `printBuildLogs` writes what it
reads from the stream to standard output (the whole content when reading does
not fail), then closes the stream, exactly once and as its last effect, whether
the copy succeeds or fails; when `Logs` fails nothing is written to standard
output and nothing is closed. -/
theorem C16_log_stream_copied_and_closed {σ : Type} (c : BuildClient σ) (name : String)
    (s : σ) :
    (∀ strm s1, c.Logs name noWaitTimestamps s = (Except.ok strm, s1) →
      stdoutOf (printBuildLogs c name s).trace = strm.data ∧
        closes (printBuildLogs c name s).trace = [Effect.close strm.handle] ∧
        (printBuildLogs c name s).trace.getLast? = some (Effect.close strm.handle) ∧
        (∃ front back, (printBuildLogs c name s).trace =
          front ++ Effect.stdout strm.data :: back ∧ Effect.close strm.handle ∈ back) ∧
        (strm.failure = none →
          (printBuildLogs c name s).trace =
            [Effect.logs name noWaitTimestamps, Effect.stdout strm.data,
              Effect.close strm.handle])) ∧
    (∀ err s1, c.Logs name noWaitTimestamps s = (Except.error err, s1) →
      stdoutOf (printBuildLogs c name s).trace = "" ∧
        (∀ e ∈ (printBuildLogs c name s).trace, Effect.isStdout e = false) ∧
        closes (printBuildLogs c name s).trace = []) := by
  obtain ⟨h1, h2, h3⟩ := printBuildLogs_trace c name s
  constructor
  · intro strm s1 hl
    cases hfail : strm.failure with
    | none =>
      rw [h1 strm s1 hl hfail]
      refine ⟨by simp [stdoutOf], rfl, rfl, ⟨[Effect.logs name printLogOptions],
        [Effect.close strm.handle], rfl, by simp⟩, fun _ => rfl⟩
    | some err =>
      rw [h2 strm s1 err hl hfail]
      refine ⟨by simp [stdoutOf], rfl, rfl, ⟨[Effect.logs name printLogOptions], _, rfl,
        by simp⟩, fun h => by simp at h⟩
  · intro err s1 hl
    rw [h3 err s1 hl]
    refine ⟨rfl, ?_, rfl⟩
    intro e he
    simp at he
    rcases he with h | h <;> subst h <;> rfl

/-- Witness of C16: a log stream whose copy breaks after the first line is still
closed, once, after the line has been written. -/
theorem C16_log_stream_copied_and_closed_witness :
    stdoutOf (printBuildLogs scripted "src"
        { logs := [Except.ok ⟨7, "step 1\n", some ⟨"", "unexpected EOF"⟩⟩] }).trace =
        "step 1\n" ∧
      closes (printBuildLogs scripted "src"
        { logs := [Except.ok ⟨7, "step 1\n", some ⟨"", "unexpected EOF"⟩⟩] }).trace =
        [Effect.close 7] :=
  have h := (C16_log_stream_copied_and_closed scripted "src"
    { logs := [Except.ok ⟨7, "step 1\n", some ⟨"", "unexpected EOF"⟩⟩] }).1
    ⟨7, "step 1\n", some ⟨"", "unexpected EOF"⟩⟩ {} rfl
  ⟨h.1, h.2.1⟩

theorem countLogs_eq_length (t : List Effect) : countLogs t = (logRequests t).length := by
  simp [countLogs, logRequests, List.countP_eq_length_filter]

/-- A watch loop that returns with the retry flag set has found the channel
closed after events that are all non-terminal, and has not called the client. -/
theorem watchLoop_retry {σ : Type} (c : BuildClient σ) (w : Watcher) (evs : List Event)
    (s : σ) (e : Option GoError) (h : (watchLoop c w evs s).ret = some (true, e)) :
    w.closes = true ∧ (∀ ev ∈ evs, carriesComplete ev = false ∧ carriesFailure ev = false) ∧
      (watchLoop c w evs s).state = s := by
  induction evs with
  | nil =>
    rw [watchLoop_nil] at h ⊢
    cases hc : w.closes
    · simp [hc] at h
    · simp [hc]
  | cons ev tl ih =>
    cases hc : carriesComplete ev
    · cases hf : carriesFailure ev
      · rw [watchLoop_skip c w ev tl s hc hf] at h ⊢
        rw [Run.after_ret] at h
        obtain ⟨h1, h2, h3⟩ := ih h
        refine ⟨h1, ?_, by rw [Run.after_state]; exact h3⟩
        intro x hx
        rcases List.mem_cons.mp hx with hx | hx
        · rw [hx]; exact ⟨hc, hf⟩
        · exact h2 x hx
      · obtain ⟨b, hb, hok, hfb⟩ := carriesFailure_build hf
        rw [watchLoop_failed c w ev tl s b hb hok hfb] at h
        simp at h
    · obtain ⟨b, hb, hok⟩ := carriesComplete_build hc
      rw [watchLoop_ok c w ev tl s b hb hok] at h
      simp at h

/-- The watch loop makes at most one `Logs` call, and makes one only when the
first terminal event carries a build in a failed phase. -/
theorem watchLoop_countLogs {σ : Type} (c : BuildClient σ) (w : Watcher) (evs : List Event)
    (s : σ) :
    countLogs (watchLoop c w evs s).trace ≤ 1 ∧
      (countLogs (watchLoop c w evs s).trace = 1 →
        ∃ before ev rest b, evs = before ++ ev :: rest ∧
          (∀ e ∈ before, carriesComplete e = false ∧ carriesFailure e = false) ∧
          ev.Object = RuntimeObject.build b ∧ failedPhase b.Status.Phase) := by
  induction evs with
  | nil =>
    rw [watchLoop_nil]
    split <;> simp [countLogs, Effect.isLogs]
  | cons ev tl ih =>
    cases hc : carriesComplete ev
    · cases hf : carriesFailure ev
      · rw [watchLoop_skip c w ev tl s hc hf, Run.after_trace, countLogs_append]
        have h0 : countLogs [Effect.recv ev] = 0 := rfl
        rw [h0, Nat.zero_add]
        refine ⟨ih.1, fun h => ?_⟩
        obtain ⟨before, e, rest, b, heq, hq, hob, hp⟩ := ih.2 h
        refine ⟨ev :: before, e, rest, b, by rw [heq]; rfl, ?_, hob, hp⟩
        intro x hx
        rcases List.mem_cons.mp hx with hx | hx
        · rw [hx]; exact ⟨hc, hf⟩
        · exact hq x hx
      · obtain ⟨b, hb, hok, hfb⟩ := carriesFailure_build hf
        rw [watchLoop_failed c w ev tl s b hb hok hfb]
        have hp := (printBuildLogs_counts c b.Name s).2.2
        have e1 : (Effect.recv ev :: Effect.log (failedLogLine b) ::
            (printBuildLogs c b.Name s).trace) =
            [Effect.recv ev, Effect.log (failedLogLine b)] ++
              (printBuildLogs c b.Name s).trace := rfl
        have h0 : countLogs [Effect.recv ev, Effect.log (failedLogLine b)] = 0 := rfl
        simp only []
        rw [e1, countLogs_append, hp, h0]
        exact ⟨by omega, fun _ => ⟨[], ev, tl, b, rfl, by simp, hb, (isFailed_iff b).mp hfb⟩⟩
    · obtain ⟨b, hb, hok⟩ := carriesComplete_build hc
      rw [watchLoop_ok c w ev tl s b hb hok]
      simp [countLogs, Effect.isLogs]

/-- A cycle with a terminal-failure classification makes exactly one `Logs` call. -/
theorem failureClassified_countLogs {σ : Type} (c : BuildClient σ) (name : String) (s : σ)
    (b : Build) (h : failureClassified c name s b) :
    countLogs (waitForBuildOrTimeout c name s).trace = 1 := by
  rw [countLogs_eq_length, failureClassified_logRequests c name s b h]
  rfl

/-- A cycle makes at most one `Logs` call, makes one only on a terminal-failure
classification, and returns with the retry flag set only on a disconnect. -/
theorem waitForBuildOrTimeout_countLogs {σ : Type} (c : BuildClient σ) (name : String)
    (s : σ) :
    countLogs (waitForBuildOrTimeout c name s).trace ≤ 1 ∧
      (countLogs (waitForBuildOrTimeout c name s).trace = 1 →
        ∃ b, failureClassified c name s b) ∧
      (∀ e, (waitForBuildOrTimeout c name s).ret = some (true, e) →
        e = none ∧ disconnectCycle c name s (waitForBuildOrTimeout c name s).state) := by
  rcases hl : c.List (listOptions name) s with ⟨r, s1⟩
  cases r with
  | error err =>
    rw [waitForBuildOrTimeout_list_error c name s s1 err hl]
    simp [countLogs, Effect.isLogs]
  | ok l =>
    by_cases hlen : l.Items.length = 1
    · obtain ⟨b, hb⟩ := List.length_eq_one.mp hlen
      have hl2 : c.List (listOptions name) s = (Except.ok ⟨[b]⟩, s1) := by
        rw [hl, ← hb]
      cases hok : isOK b
      · cases hf : isFailed b
        · rcases hw : c.Watch (watchOptions name) s1 with ⟨rw, s2⟩
          cases rw with
          | error err =>
            rw [waitForBuildOrTimeout_watch_error c name s s1 s2 b err hl2 hok hf hw]
            simp [countLogs, Effect.isLogs]
          | ok w =>
            rw [waitForBuildOrTimeout_watch c name s s1 s2 b w hl2 hok hf hw]
            have hnt := not_terminal_of_flags hok hf
            obtain ⟨hle, hone⟩ := watchLoop_countLogs c w w.events s2
            have e : (Effect.list (listOptions name) :: Effect.snapshot b ::
                Effect.watch (watchOptions name) :: Effect.opened w.handle ::
                  ((watchLoop c w w.events s2).trace ++
                    if (watchLoop c w w.events s2).ret.isSome then [Effect.stop w.handle]
                    else [])) =
                [Effect.list (listOptions name), Effect.snapshot b,
                  Effect.watch (watchOptions name), Effect.opened w.handle] ++
                  ((watchLoop c w w.events s2).trace ++
                    if (watchLoop c w w.events s2).ret.isSome then [Effect.stop w.handle]
                    else []) := rfl
            have h0 : countLogs [Effect.list (listOptions name), Effect.snapshot b,
                Effect.watch (watchOptions name), Effect.opened w.handle] = 0 := rfl
            have h1 : countLogs (if (watchLoop c w w.events s2).ret.isSome then
                [Effect.stop w.handle] else []) = 0 := by
              split <;> rfl
            simp only []
            rw [e, countLogs_append, countLogs_append, h0, h1]
            refine ⟨by omega, fun h => ?_, fun e he => ?_⟩
            · obtain ⟨before, ev, rest, b1, heq, hq, hob, hp⟩ := hone (by omega)
              exact ⟨b1, Or.inr ⟨b, s1, w, s2, before, ev, rest, hl2, hnt, hw, heq, hq, hob, hp⟩⟩
            · obtain ⟨hc, hq, hst⟩ := watchLoop_retry c w w.events s2 e he
              have hk := watchLoop_kinds c w w.events s2 true e he
              refine ⟨?_, b, w, s1, hl2, hnt, by rw [hst]; exact hw, hc, hq⟩
              rcases hk with ⟨_, h2⟩ | ⟨h2, _⟩ | ⟨h2, _⟩
              · exact h2
              · simp at h2
              · simp at h2
        · rw [waitForBuildOrTimeout_snapshot_failed c name s s1 b hl2 hok hf]
          have hp := (printBuildLogs_counts c b.Name s1).2.2
          have e : (Effect.list (listOptions name) :: Effect.snapshot b ::
              Effect.log (failedLogLine b) :: (printBuildLogs c b.Name s1).trace) =
              [Effect.list (listOptions name), Effect.snapshot b,
                Effect.log (failedLogLine b)] ++ (printBuildLogs c b.Name s1).trace := rfl
          have h0 : countLogs [Effect.list (listOptions name), Effect.snapshot b,
              Effect.log (failedLogLine b)] = 0 := rfl
          simp only []
          rw [e, countLogs_append, hp, h0]
          refine ⟨by omega, fun _ => ⟨b, Or.inl ⟨s1, hl2, (isFailed_iff b).mp hf⟩⟩, ?_⟩
          intro e he
          simp at he
      · rw [waitForBuildOrTimeout_snapshot_ok c name s s1 b hl2 hok]
        simp [countLogs, Effect.isLogs]
    · rw [waitForBuildOrTimeout_not_single c name s s1 l hl hlen]
      simp [countLogs, Effect.isLogs]

/-- In a returned run of the loop of `waitForBuild` there is at most one `Logs`
call, and there is one exactly when the run ends in a terminal-failure
classification. -/
theorem waitForBuildLoop_countLogs {σ : Type} (c : BuildClient σ) (name : String)
    (fuel : Nat) :
    ∀ (s : σ) (r : Option GoError), (waitForBuildLoop c name fuel s).ret = some r →
      countLogs (waitForBuildLoop c name fuel s).trace ≤ 1 ∧
        (countLogs (waitForBuildLoop c name fuel s).trace = 1 ↔ endsInFailure c name s) ∧
        (countLogs (waitForBuildLoop c name fuel s).trace = 1 →
          ∃ b, r = some (buildFailedError b)) := by
  induction fuel with
  | zero =>
    intro s r h
    simp [waitForBuildLoop] at h
  | succ fuel ih =>
    intro s r h
    obtain ⟨hle, hone, hretry⟩ := waitForBuildOrTimeout_countLogs c name s
    have stop_case : (∀ e, (waitForBuildOrTimeout c name s).ret ≠ some (true, e)) ∨
        (waitForBuildOrTimeout c name s).ret = some (true, none) := by
      rcases hr : (waitForBuildOrTimeout c name s).ret with _ | ⟨retry, e⟩
      · exact Or.inl (fun e he => by simp at he)
      · cases retry with
        | false => exact Or.inl (fun e he => by simp at he)
        | true =>
          right
          rw [(hretry e hr).1]
    rcases stop_case with hno | hyes
    · have htr : (waitForBuildLoop c name (fuel + 1) s).trace =
          (waitForBuildOrTimeout c name s).trace := by
        rw [waitForBuildLoop]
        split
        · rfl
        · rfl
        · rfl
        · next heq => exact absurd heq (hno none)
      rw [htr]
      refine ⟨hle, ⟨fun h1 => ?_, ?_⟩, fun h1 => ?_⟩
      · obtain ⟨b, hb⟩ := hone h1
        exact ⟨0, s, b, rfl, hb⟩
      · rintro ⟨n, t, b, hd, hfc⟩
        cases n with
        | zero =>
          simp only [disconnects] at hd
          subst hd
          exact failureClassified_countLogs c name s b hfc
        | succ n =>
          obtain ⟨m, hcyc, _⟩ := hd
          exact absurd (disconnectCycle_run c name s m hcyc).1 (hno none)
      · obtain ⟨b, hb⟩ := hone h1
        have hcyc := (failureClassified_run c name s b hb).1
        rw [waitForBuildLoop_error c name fuel s false _ hcyc] at h
        exact ⟨b, (Option.some.inj h).symm⟩
    · have hcyc := (hretry none hyes).2
      obtain ⟨_, _, _, _, hzero⟩ := disconnectCycle_run c name s _ hcyc
      have hrun : waitForBuildLoop c name (fuel + 1) s =
          Run.after (waitForBuildOrTimeout c name s).trace
            (waitForBuildLoop c name fuel (waitForBuildOrTimeout c name s).state) := by
        rw [waitForBuildLoop]
        simp only [hyes]
      rw [hrun, Run.after_ret] at h
      obtain ⟨ihle, ihone, ihret⟩ := ih _ r h
      rw [hrun, Run.after_trace, countLogs_append, hzero, Nat.zero_add]
      refine ⟨ihle, ⟨fun h1 => ?_, ?_⟩, ihret⟩
      · obtain ⟨n, t, b, hd, hfc⟩ := ihone.mp h1
        exact ⟨n + 1, t, b, ⟨_, hcyc, hd⟩, hfc⟩
      · rintro ⟨n, t, b, hd, hfc⟩
        cases n with
        | zero =>
          simp only [disconnects] at hd
          subst hd
          have := (failureClassified_run c name s b hfc).1
          rw [hyes] at this
          simp at this
        | succ n =>
          obtain ⟨m, hcyc2, hd2⟩ := hd
          have hm := (disconnectCycle_run c name s m hcyc2).2.1
          rw [← hm] at hd2
          exact ihone.mpr ⟨n, t, b, hd2, hfc⟩

/-- In a returned run of `waitForBuild` the trace has at most one `Logs` label,
and has one exactly when the run ends in a terminal-failure classification; it
has none when the run returns nil, and none in a disconnect cycle. -/
theorem waitForBuild_countLogs {σ : Type} (c : BuildClient σ) (name : String)
    (fuel : Nat) (s : σ) (r : Option GoError)
    (h : (waitForBuild c name fuel s).ret = some r) :
    countLogs (waitForBuild c name fuel s).trace ≤ 1 ∧
      (countLogs (waitForBuild c name fuel s).trace = 1 ↔ endsInFailure c name s) ∧
      (¬ endsInFailure c name s → countLogs (waitForBuild c name fuel s).trace = 0) ∧
      (r = none → countLogs (waitForBuild c name fuel s).trace = 0) ∧
      (∀ t u, disconnectCycle c name t u →
        countLogs (waitForBuildOrTimeout c name t).trace = 0) := by
  have hloop : (waitForBuildLoop c name fuel s).ret = some r := h
  obtain ⟨hle, hone, hret⟩ := waitForBuildLoop_countLogs c name fuel s r hloop
  have htr : countLogs (waitForBuild c name fuel s).trace =
      countLogs (waitForBuildLoop c name fuel s).trace := by
    unfold waitForBuild
    rw [Run.after_trace, countLogs_append]
    simp [countLogs, Effect.isLogs]
  rw [htr]
  refine ⟨hle, hone, fun hn => ?_, fun hr => ?_, fun t u hc => ?_⟩
  · have : countLogs (waitForBuildLoop c name fuel s).trace ≠ 1 := fun h1 => hn (hone.mp h1)
    omega
  · have : countLogs (waitForBuildLoop c name fuel s).trace ≠ 1 := by
      intro h1
      obtain ⟨b, hb⟩ := hret h1
      rw [hr] at hb
      simp at hb
    omega
  · exact (disconnectCycle_run c name t u hc).2.2.2.2

theorem printLogOptions_eq : printLogOptions = noWaitTimestamps := rfl

theorem requestsOf_append (a b : List Effect) :
    requestsOf (a ++ b) = requestsOf a ++ requestsOf b := by
  simp [requestsOf]

theorem requestsOf_map_recv (evs : List Event) : requestsOf (evs.map Effect.recv) = [] := by
  induction evs with
  | nil => rfl
  | cons ev tl ih =>
    simp only [requestsOf] at ih
    simp [requestsOf, Effect.logRequest, ih]

theorem recorded_after {σ α : Type} (q : List LogRequest) (t : List Effect) (r : Run σ α)
    (h : requestsOf t = []) : recorded q (Run.after t r) = Run.after t (recorded q r) := by
  simp [recorded, Run.after, requestsOf_append, h]

/-- The recording client receives from the log helper exactly one request: the
name the helper is given, with `NoWait` and `Timestamps` set and nothing else;
apart from that the helper runs as on the plain client. -/
theorem printBuildLogs_recording {σ : Type} (c : BuildClient σ) (name : String) (s : σ)
    (q : List LogRequest) :
    printBuildLogs (recording c) name (s, q) =
      ⟨(), ((printBuildLogs c name s).state, q ++ [(name, noWaitTimestamps)]),
        (printBuildLogs c name s).trace⟩ := by
  unfold printBuildLogs recording
  rcases hl : c.Logs name noWaitTimestamps s with ⟨r, s1⟩
  cases r with
  | error err => simp [hl, printLogOptions_eq]
  | ok strm => cases hfail : strm.failure <;> simp [hl, hfail, printLogOptions_eq]

theorem printBuildLogs_requestsOf {σ : Type} (c : BuildClient σ) (name : String) (s : σ) :
    requestsOf (printBuildLogs c name s).trace = [(name, noWaitTimestamps)] := by
  obtain ⟨h1, h2, h3⟩ := printBuildLogs_trace c name s
  rcases hl : c.Logs name printLogOptions s with ⟨r, s1⟩
  cases r with
  | error err =>
    rw [h3 err s1 hl]
    rfl
  | ok strm =>
    cases hfail : strm.failure with
    | none =>
      rw [h1 strm s1 hl hfail]
      rfl
    | some err =>
      rw [h2 strm s1 err hl hfail]
      rfl

/-- The watch loop on the recording client: the same run, and the client has
received the `Logs` requests of the trace. -/
theorem watchLoop_recording {σ : Type} (c : BuildClient σ) (w : Watcher) (evs : List Event)
    (s : σ) (q : List LogRequest) :
    watchLoop (recording c) w evs (s, q) = recorded q (watchLoop c w evs s) := by
  induction evs with
  | nil =>
    rw [watchLoop_nil, watchLoop_nil]
    cases hc : w.closes <;> simp [recorded, requestsOf, Effect.logRequest]
  | cons ev tl ih =>
    cases hc : carriesComplete ev
    · cases hf : carriesFailure ev
      · rw [watchLoop_skip (recording c) w ev tl (s, q) hc hf, watchLoop_skip c w ev tl s hc hf,
          ih, recorded_after q [Effect.recv ev] _ rfl]
      · obtain ⟨b, hb, hok, hfb⟩ := carriesFailure_build hf
        rw [watchLoop_failed (recording c) w ev tl (s, q) b hb hok hfb,
          watchLoop_failed c w ev tl s b hb hok hfb, printBuildLogs_recording]
        have e1 : (Effect.recv ev :: Effect.log (failedLogLine b) ::
            (printBuildLogs c b.Name s).trace) =
            [Effect.recv ev, Effect.log (failedLogLine b)] ++
              (printBuildLogs c b.Name s).trace := rfl
        simp only [recorded]
        rw [e1, requestsOf_append, printBuildLogs_requestsOf]
        rfl
    · obtain ⟨b, hb, hok⟩ := carriesComplete_build hc
      rw [watchLoop_ok (recording c) w ev tl (s, q) b hb hok, watchLoop_ok c w ev tl s b hb hok]
      simp [recorded, requestsOf, Effect.logRequest, hb]

/-- One cycle on the recording client: the same run, and the client has
received the `Logs` requests of the trace. -/
theorem waitForBuildOrTimeout_recording {σ : Type} (c : BuildClient σ) (name : String) (s : σ)
    (q : List LogRequest) :
    waitForBuildOrTimeout (recording c) name (s, q) =
      recorded q (waitForBuildOrTimeout c name s) := by
  rcases hl : c.List (listOptions name) s with ⟨r, s1⟩
  have hl' : (recording c).List (listOptions name) (s, q) = (r, (s1, q)) := by
    simp [recording, hl]
  cases r with
  | error err =>
    rw [waitForBuildOrTimeout_list_error c name s s1 err hl,
      waitForBuildOrTimeout_list_error (recording c) name (s, q) (s1, q) err hl']
    simp [recorded, requestsOf, Effect.logRequest]
  | ok l =>
    by_cases hlen : l.Items.length = 1
    · obtain ⟨b, hb⟩ := List.length_eq_one.mp hlen
      have hl2 : c.List (listOptions name) s = (Except.ok ⟨[b]⟩, s1) := by
        rw [hl, ← hb]
      have hl2' : (recording c).List (listOptions name) (s, q) =
          (Except.ok ⟨[b]⟩, (s1, q)) := by
        rw [hl', ← hb]
      cases hok : isOK b
      · cases hf : isFailed b
        · rcases hw : c.Watch (watchOptions name) s1 with ⟨rw, s2⟩
          have hw' : (recording c).Watch (watchOptions name) (s1, q) = (rw, (s2, q)) := by
            simp [recording, hw]
          cases rw with
          | error err =>
            rw [waitForBuildOrTimeout_watch_error c name s s1 s2 b err hl2 hok hf hw,
              waitForBuildOrTimeout_watch_error (recording c) name (s, q) (s1, q) (s2, q) b err
                hl2' hok hf hw']
            simp [recorded, requestsOf, Effect.logRequest]
          | ok w =>
            rw [waitForBuildOrTimeout_watch c name s s1 s2 b w hl2 hok hf hw,
              waitForBuildOrTimeout_watch (recording c) name (s, q) (s1, q) (s2, q) b w
                hl2' hok hf hw', watchLoop_recording]
            have e : (Effect.list (listOptions name) :: Effect.snapshot b ::
                Effect.watch (watchOptions name) :: Effect.opened w.handle ::
                  ((watchLoop c w w.events s2).trace ++
                    if (watchLoop c w w.events s2).ret.isSome then [Effect.stop w.handle]
                    else [])) =
                [Effect.list (listOptions name), Effect.snapshot b,
                  Effect.watch (watchOptions name), Effect.opened w.handle] ++
                  ((watchLoop c w w.events s2).trace ++
                    if (watchLoop c w w.events s2).ret.isSome then [Effect.stop w.handle]
                    else []) := rfl
            have h1 : requestsOf (if (watchLoop c w w.events s2).ret.isSome then
                [Effect.stop w.handle] else []) = [] := by
              split <;> rfl
            have h0 : requestsOf [Effect.list (listOptions name), Effect.snapshot b,
                Effect.watch (watchOptions name), Effect.opened w.handle] = [] := rfl
            simp only [recorded]
            rw [e, requestsOf_append, requestsOf_append, h0, h1, List.nil_append,
              List.append_nil]
        · rw [waitForBuildOrTimeout_snapshot_failed c name s s1 b hl2 hok hf,
            waitForBuildOrTimeout_snapshot_failed (recording c) name (s, q) (s1, q) b hl2' hok hf,
            printBuildLogs_recording]
          have e : (Effect.list (listOptions name) :: Effect.snapshot b ::
              Effect.log (failedLogLine b) :: (printBuildLogs c b.Name s1).trace) =
              [Effect.list (listOptions name), Effect.snapshot b,
                Effect.log (failedLogLine b)] ++ (printBuildLogs c b.Name s1).trace := rfl
          simp only [recorded]
          rw [e, requestsOf_append, printBuildLogs_requestsOf]
          rfl
      · rw [waitForBuildOrTimeout_snapshot_ok c name s s1 b hl2 hok,
          waitForBuildOrTimeout_snapshot_ok (recording c) name (s, q) (s1, q) b hl2' hok]
        simp [recorded, requestsOf, Effect.logRequest]
    · rw [waitForBuildOrTimeout_not_single c name s s1 l hl hlen,
        waitForBuildOrTimeout_not_single (recording c) name (s, q) (s1, q) l hl' hlen]
      simp [recorded, requestsOf, Effect.logRequest]

theorem waitForBuildLoop_recording {σ : Type} (c : BuildClient σ) (name : String)
    (fuel : Nat) :
    ∀ (s : σ) (q : List LogRequest),
      waitForBuildLoop (recording c) name fuel (s, q) =
        recorded q (waitForBuildLoop c name fuel s) := by
  induction fuel with
  | zero =>
    intro s q
    simp [waitForBuildLoop, recorded, requestsOf]
  | succ fuel ih =>
    intro s q
    rw [waitForBuildLoop, waitForBuildLoop, waitForBuildOrTimeout_recording]
    rcases hr : (waitForBuildOrTimeout c name s).ret with _ | ⟨retry, e⟩
    · simp [recorded, hr]
    · cases e with
      | some err => simp [recorded, hr]
      | none =>
        cases retry with
        | false => simp [recorded, hr]
        | true =>
          simp only [recorded, hr]
          rw [ih]
          simp [recorded, Run.after, requestsOf_append]

/-- The monitor on the recording client: the same run as on the plain client,
and the requests the client has received are exactly the `Logs` requests of the
trace. -/
theorem waitForBuild_recording {σ : Type} (c : BuildClient σ) (name : String) (fuel : Nat)
    (s : σ) (q : List LogRequest) :
    waitForBuild (recording c) name fuel (s, q) = recorded q (waitForBuild c name fuel s) := by
  unfold waitForBuild
  rw [waitForBuildLoop_recording,
    recorded_after q [Effect.log ("Waiting for build " ++ name ++ " to finish")] _ rfl]

theorem requestsOf_length (t : List Effect) : (requestsOf t).length = countLogs t := by
  induction t with
  | nil => rfl
  | cons e tl ih =>
    simp only [requestsOf, countLogs] at ih ⊢
    cases e <;> simp [List.filterMap_cons, Effect.logRequest, Effect.isLogs, ih]

theorem requestsOf_of_none (t : List Effect) (h : countLogs t = 0) : requestsOf t = [] := by
  apply List.eq_nil_of_length_eq_zero
  rw [requestsOf_length, h]

theorem requestsOf_logRequests (t : List Effect) : requestsOf (logRequests t) = requestsOf t := by
  induction t with
  | nil => rfl
  | cons e tl ih =>
    simp only [requestsOf, logRequests] at ih ⊢
    cases e <;> simp [List.filter_cons, List.filterMap_cons, Effect.logRequest, Effect.isLogs, ih]

theorem requestsOf_mem (t : List Effect) (req : LogRequest) (h : req ∈ requestsOf t) :
    Effect.logs req.1 req.2 ∈ t := by
  unfold requestsOf at h
  obtain ⟨e, he, hreq⟩ := List.mem_filterMap.mp h
  cases e <;> simp [Effect.logRequest] at hreq
  rw [← hreq]
  exact he

/-- The requests the recording client receives in a cycle with a
terminal-failure classification of `b`: one, for the name of `b`, with the
fixed options. -/
theorem failureClassified_requests {σ : Type} (c : BuildClient σ) (name : String) (s : σ)
    (b : Build) (h : failureClassified c name s b) :
    (waitForBuildOrTimeout (recording c) name (s, [])).state.2 =
      [(b.Name, noWaitTimestamps)] := by
  rw [waitForBuildOrTimeout_recording]
  simp only [recorded, List.nil_append]
  rw [← requestsOf_logRequests, failureClassified_logRequests c name s b h]
  rfl

/-- Claim C15: every log request the client receives from the monitor asks with
`NoWait` and `Timestamps` set and no other option, for the failed build.  On the
recording client, `printBuildLogs` leaves exactly one received request, for the
name it is given, with these options; a cycle that classifies a build `b` as a
terminal failure leaves exactly one, for the name of `b`, whose phase is
`Failed`, `Cancelled` or `Error`; every request received in a run of
`waitForBuild` carries these options; and the received requests are those the
trace of the run on the plain client shows. -/
theorem C15_log_request_options {σ : Type} (c : BuildClient σ) (name : String)
    (fuel : Nat) (s : σ) :
    (printBuildLogs (recording c) name (s, [])).state.2 =
        [(name, noWaitTimestamps)] ∧
      (printBuildLogs (recording c) name (s, [])).state.1 =
        (c.Logs name noWaitTimestamps s).2 ∧
      (∀ t b, failureClassified c name t b →
        failedPhase b.Status.Phase ∧
          (waitForBuildOrTimeout (recording c) name (t, [])).state.2 =
            [(b.Name, noWaitTimestamps)]) ∧
      (∀ req ∈ (waitForBuild (recording c) name fuel (s, [])).state.2,
        req.2 = noWaitTimestamps) ∧
      (waitForBuild (recording c) name fuel (s, [])).state.2 =
        requestsOf (waitForBuild c name fuel s).trace ∧
      noWaitTimestamps = ({ NoWait := true, Timestamps := true } : BuildLogOptions) := by
  refine ⟨?_, ?_, ?_, ?_, ?_, rfl⟩
  · rw [printBuildLogs_recording]
    rfl
  · rw [printBuildLogs_recording]
    unfold printBuildLogs
    rcases hl : c.Logs name noWaitTimestamps s with ⟨r, s1⟩
    have hl' : c.Logs name printLogOptions s = (r, s1) := hl
    cases r with
    | error err => simp [hl']
    | ok strm => cases hfail : strm.failure <;> simp [hl', hfail]
  · intro t b h
    refine ⟨?_, failureClassified_requests c name t b h⟩
    rcases h with ⟨_, _, hp⟩ | ⟨_, _, _, _, _, _, _, _, _, _, _, _, _, hp⟩ <;> exact hp
  · intro req hreq
    rw [waitForBuild_recording] at hreq
    simp only [recorded, List.nil_append] at hreq
    exact (monitor_log_labels c name fuel s).2.2 req.1 req.2 (requestsOf_mem _ req hreq)
  · rw [waitForBuild_recording]
    simp [recorded]

/-- Witness of C15: the snapshot shows the build failed; the client receives
one log request, for `src`, with `NoWait` and `Timestamps` only. -/
theorem C15_log_request_options_witness :
    (waitForBuildOrTimeout (recording scripted) "src" (failedWithLogs, [])).state.2 =
      [("src", noWaitTimestamps)] :=
  ((C15_log_request_options scripted "src" 1 failedWithLogs).2.2.1 failedWithLogs
    (mkBuild "ns" "src" "Failed")
    (Or.inl ⟨{ logs := [Except.ok ⟨7, "step 1\nstep 2\n", none⟩] }, rfl, Or.inl rfl⟩)).2

/-- Claim C17: over a whole invocation of `waitForBuild` that returns, the
client receives at most one `Logs` request, and receives exactly one precisely
when the invocation ends in a terminal-failure classification; it receives none
otherwise, in particular none when the invocation returns nil, and none in a
disconnect cycle.  The requests are read from the recording client; their
number is the number of `Logs` calls in the trace of the run. -/
theorem C17_logs_once_on_failure {σ : Type} (c : BuildClient σ) (name : String)
    (fuel : Nat) (s : σ) (r : Option GoError)
    (h : (waitForBuild c name fuel s).ret = some r) :
    (waitForBuild (recording c) name fuel (s, [])).ret = some r ∧
      (waitForBuild (recording c) name fuel (s, [])).state.2.length ≤ 1 ∧
      ((waitForBuild (recording c) name fuel (s, [])).state.2.length = 1 ↔
        endsInFailure c name s) ∧
      (¬ endsInFailure c name s →
        (waitForBuild (recording c) name fuel (s, [])).state.2 = []) ∧
      (r = none → (waitForBuild (recording c) name fuel (s, [])).state.2 = []) ∧
      (∀ t u, disconnectCycle c name t u →
        (waitForBuildOrTimeout (recording c) name (t, [])).state.2 = []) ∧
      (waitForBuild (recording c) name fuel (s, [])).state.2.length =
        countLogs (waitForBuild c name fuel s).trace := by
  obtain ⟨hle, hone, hnone, hnil, hcyc⟩ := waitForBuild_countLogs c name fuel s r h
  have hst : (waitForBuild (recording c) name fuel (s, [])).state.2 =
      requestsOf (waitForBuild c name fuel s).trace := by
    rw [waitForBuild_recording]
    simp [recorded]
  have hlen : (waitForBuild (recording c) name fuel (s, [])).state.2.length =
      countLogs (waitForBuild c name fuel s).trace := by
    rw [hst, requestsOf_length]
  refine ⟨?_, ?_, ?_, ?_, ?_, ?_, hlen⟩
  · rw [waitForBuild_recording]
    exact h
  · rw [hlen]
    exact hle
  · rw [hlen]
    exact hone
  · intro hn
    rw [hst]
    exact requestsOf_of_none _ (hnone hn)
  · intro hr
    rw [hst]
    exact requestsOf_of_none _ (hnil hr)
  · intro t u hd
    rw [waitForBuildOrTimeout_recording]
    simp only [recorded, List.nil_append]
    exact requestsOf_of_none _ (hcyc t u hd)

/-- Witness of C17: the snapshot shows the build failed and the copy of its logs
breaks; the run returns the failure error and the client has received exactly
one `Logs` request. -/
theorem C17_logs_once_on_failure_witness :
    (waitForBuild (recording scripted) "src" 1 (failedWithBrokenLogs, [])).state.2.length = 1 :=
  (C17_logs_once_on_failure scripted "src" 1 failedWithBrokenLogs
    (some (buildFailedError (mkBuild "ns" "src" "Failed"))) rfl).2.2.1.mpr
    ⟨0, failedWithBrokenLogs, mkBuild "ns" "src" "Failed", rfl,
      Or.inl ⟨{ logs := [Except.ok ⟨7, "step 1\n", some ⟨"", "unexpected EOF"⟩⟩] }, rfl,
        Or.inl rfl⟩⟩

/-- Claim C5: when, after any number of disconnect cycles, a cycle classifies
as a terminal failure a build `b` bearing the name passed to the monitor (the
snapshot item or the payload of a watch event, in phase `Failed`, `Cancelled`
or `Error`), `waitForBuild` returns the failure error of `b`, whose message
contains that job name and the observed phase; and when it returns, the client
has received the log request for that job: log retrieval has been attempted
before the error is returned. -/
theorem C5_failure_error_names_job {σ : Type} (c : BuildClient σ) (name : String)
    (n k : Nat) (s t : σ) (b : Build) (hd : disconnects c name n s t)
    (hf : failureClassified c name t b) (hname : b.Name = name) :
    (waitForBuild c name (n + 1 + k) s).ret = some (some (buildFailedError b)) ∧
      occursIn name (buildFailedError b).msg ∧
      occursIn b.Status.Phase (buildFailedError b).msg ∧
      failedPhase b.Status.Phase ∧
      (waitForBuild (recording c) name (n + 1 + k) (s, [])).ret =
        some (some (buildFailedError b)) ∧
      (waitForBuild (recording c) name (n + 1 + k) (s, [])).state.2 =
        [(name, noWaitTimestamps)] := by
  have hp : failedPhase b.Status.Phase := by
    rcases hf with ⟨_, _, hp⟩ | ⟨_, _, _, _, _, _, _, _, _, _, _, _, _, hp⟩ <;> exact hp
  obtain ⟨_, hbname, hphase⟩ := buildFailedError_mentions b hp
  obtain ⟨hret, _, _⟩ := failureClassified_run c name t b hf
  obtain ⟨tr, _, _, hg, hrun⟩ := waitForBuild_disconnects_error c name n k s t false _ hd hret
  have hreq : requestsOf (waitForBuildOrTimeout c name t).trace =
      [(b.Name, noWaitTimestamps)] := by
    rw [← requestsOf_logRequests, failureClassified_logRequests c name t b hf]
    rfl
  refine ⟨by rw [hrun], by rw [← hname]; exact hbname, hphase, hp, ?_, ?_⟩
  · rw [waitForBuild_recording, hrun]
    rfl
  · rw [waitForBuild_recording, hrun]
    simp only [recorded, List.nil_append]
    rw [requestsOf_append, requestsOf_of_none tr hg, hreq, hname]
    rfl

/-- Witness of C5: the snapshot shows the build `ns/src` failed; the error
names `src` and `Failed`, and the client has received the log request for
`src`. -/
theorem C5_failure_error_names_job_witness :
    (waitForBuild scripted "src" 1 failedSnapshot).ret =
        some (some (buildFailedError (mkBuild "ns" "src" "Failed"))) ∧
      occursIn "src" (buildFailedError (mkBuild "ns" "src" "Failed")).msg ∧
      occursIn "Failed" (buildFailedError (mkBuild "ns" "src" "Failed")).msg ∧
      (waitForBuild (recording scripted) "src" 1 (failedSnapshot, [])).state.2 =
        [("src", noWaitTimestamps)] :=
  have h := C5_failure_error_names_job scripted "src" 0 0 failedSnapshot
    failedSnapshot (mkBuild "ns" "src" "Failed") rfl (Or.inl ⟨{}, rfl, Or.inl rfl⟩) rfl
  ⟨h.1, h.2.1, h.2.2.1, h.2.2.2.2.2⟩

end Steps
